import Mathlib

/-!
# Fast-DDS: StatelessReader and the discovery-server list parser

A shallow embedding of `src/cpp/rtps/reader/StatelessReader.cpp` and, from
`src/cpp/rtps/builtin/discovery/participant/PDPClient.cpp`, of
`load_environment_server_info`, `get_server_client_default_guidPrefix` and the client engine
(`assignRemoteEndpoints`, `removeRemoteEndpoints`, `all_servers_acknowledge_PDP`,
`announceParticipantState`).

Conventions of the embedding:
* C++ objects reached through pointers are values; a null pointer is `none`.
* Collaborators whose code is outside the embedded files (change pool, payload pool,
  data-sharing listener, liveliness manager, reader listener) are represented by
  the record of calls made to them and by per-call outcome inputs.
* `SequenceNumber_t` is an integer (only compared, never incremented here);
  `total_unread_` is a natural number (a 64-bit counter of history entries).
* Assertions (`assert(...)`) are compiled out, as in a release build.
-/

namespace FastDDS

/-! ## Data model -/

/-- Twelve octets identifying a participant. -/
abbrev GuidPrefix_t := List Nat

/-- Entity identifier inside a participant. -/
abbrev EntityId_t := Nat

/-- A `GUID_t`: prefix and entity id. -/
structure GUID_t where
  guidPrefix : GuidPrefix_t
  entityId : EntityId_t
deriving DecidableEq, Repr

/-- A `SequenceNumber_t`; the default-constructed value is `0`. -/
abbrev SequenceNumber_t := Int

/-- Kinds of cache change. -/
inductive ChangeKind_t
  | ALIVE
  | NOT_ALIVE_DISPOSED
  | NOT_ALIVE_UNREGISTERED
  | NOT_ALIVE_DISPOSED_UNREGISTERED
deriving DecidableEq, Repr

/-- The part of `SerializedPayload_t` the reader looks at. -/
structure SerializedPayload_t where
  length : Nat
  max_size : Nat
deriving DecidableEq, Repr

/-- A `CacheChange_t`. `missing_fragments` lists the fragment numbers (from 1) not yet
received of a change under reassembly. -/
structure CacheChange_t where
  kind : ChangeKind_t
  writerGUID : GUID_t
  sequenceNumber : SequenceNumber_t
  serializedPayload : SerializedPayload_t
  isRead : Bool
  fragment_size : Nat
  fragment_count : Nat
  missing_fragments : List Nat
  /-- the key of the instance the change belongs to -/
  instanceHandle : Nat := 0
deriving DecidableEq, Repr

/-- A `RemoteWriterInfo_t`, one per matched writer. -/
structure RemoteWriterInfo_t where
  guid : GUID_t
  persistence_guid : GUID_t
  has_manual_topic_liveliness : Bool
  is_datasharing : Bool
  fragmented_change : Option CacheChange_t
deriving DecidableEq, Repr

/-- What `matched_writer_add` reads of a `WriterProxyData`. -/
structure WriterProxyData where
  guid : GUID_t
  persistence_guid : GUID_t
  manual_by_topic_liveliness : Bool
deriving DecidableEq, Repr

/-- Calls issued to `wlp->sub_liveliness_manager_`. -/
inductive LivelinessCall
  | add_writer (guid : GUID_t)
  | remove_writer (guid : GUID_t)
  | assert_liveliness (guid : GUID_t)
deriving DecidableEq, Repr

/-- A `StatelessReader` together with the collaborators it drives. -/
structure StatelessReader where
  /-- Source `m_guid` -/
  m_guid : GUID_t
  /-- Source `m_trustedWriterEntityId` -/
  m_trustedWriterEntityId : EntityId_t
  /-- Source `m_acceptMessagesFromUnkownWriters` -/
  m_acceptMessagesFromUnkownWriters : Bool
  /-- Source `matched_writers_` -/
  matched_writers_ : List RemoteWriterInfo_t
  /-- the maximum of `att.matched_writers_allocation` -/
  matched_writers_max : Nat
  /-- Source `liveliness_lease_duration_ < c_TimeInfinite` -/
  liveliness_lease_finite : Bool
  /-- Source `mp_RTPSParticipant->wlp() != nullptr` -/
  has_wlp : Bool
  /-- Source `getListener() != nullptr` -/
  has_listener : Bool
  /-- Source `m_att.durabilityKind == VOLATILE` -/
  durability_volatile : Bool
  /-- the changes of `mp_history`, in order -/
  history : List CacheChange_t
  /-- the last notified sequence number of every writer -/
  last_notified : GUID_t → SequenceNumber_t
  /-- Source `total_unread_` -/
  total_unread_ : Nat
  /-- the persistence GUID registered for a writer GUID -/
  persistence_guids : List (GUID_t × GUID_t)
  /-- changes handed to `onNewCacheChangeAdded`, oldest first -/
  listener_log : List CacheChange_t
  /-- calls made to the liveliness manager, oldest first -/
  liveliness_log : List LivelinessCall
  /-- writers registered with `datasharing_listener_` -/
  datasharing_writers : List GUID_t
  /-- number of `datasharing_listener_->notify(false)` calls -/
  datasharing_notifications : Nat

/-! ## Helpers of the base class and of the history

Their code is not in the embedded source files. -/

/-- Modelled from the spec: `RTPSReader::get_last_notified` is not in src/. The spec keeps
one `last_notified_sequence` per writer; an unknown writer has the default sequence number. -/
def get_last_notified (r : StatelessReader) (guid : GUID_t) : SequenceNumber_t :=
  r.last_notified guid

/-- Modelled from the spec: `RTPSReader::update_last_notified` is not in src/. It records
`seq` as the last notified sequence number of `guid`. -/
def update_last_notified (r : StatelessReader) (guid : GUID_t) (seq : SequenceNumber_t) :
    StatelessReader :=
  { r with last_notified := fun g => if g = guid then seq else r.last_notified g }

/-- Modelled from the spec: `RTPSReader::add_persistence_guid` is not in src/. It records the
persistence GUID of a matched writer. -/
def add_persistence_guid (r : StatelessReader) (guid persistence_guid : GUID_t) :
    StatelessReader :=
  { r with persistence_guids := r.persistence_guids ++ [(guid, persistence_guid)] }

/-- Modelled from the spec: `RTPSReader::remove_persistence_guid` is not in src/. The spec says
un-matching "cleans the persistence mapping": the entry of `guid` is dropped. -/
def remove_persistence_guid (r : StatelessReader) (guid _persistence_guid : GUID_t)
    (_removed_by_lease : Bool) : StatelessReader :=
  { r with persistence_guids := r.persistence_guids.filter (fun e => decide (e.1 ≠ guid)) }

/-- Source `StatelessReader::change_removed_by_history` (lines 341-354), the counter part. -/
def change_removed_by_history (total_unread : Nat) (ch : CacheChange_t) : Nat :=
  if !ch.isRead then
    if 0 < total_unread then total_unread - 1 else total_unread
  else total_unread

/-- Modelled from the spec: `ReaderHistory::remove_change` is not in src/. The spec's History
supports `remove`; every removed change is reported to the reader through
`change_removed_by_history`. This removes, in history order, the changes selected by `p`. -/
def history_remove_where (p : CacheChange_t → Bool) :
    List CacheChange_t → Nat → List CacheChange_t × Nat
  | [], n => ([], n)
  | c :: cs, n =>
    if p c then history_remove_where p cs (change_removed_by_history n c)
    else
      let res := history_remove_where p cs n
      (c :: res.1, res.2)

/-- Modelled from the spec: `ReaderHistory::remove_changes_with_guid` is not in src/. It is the
spec's `remove_all_with(writer_guid)`. -/
def remove_changes_with_guid (r : StatelessReader) (guid : GUID_t) : StatelessReader :=
  let res := history_remove_where (fun c => decide (c.writerGUID = guid)) r.history r.total_unread_
  { r with history := res.1, total_unread_ := res.2 }

/-- Modelled from the spec: `CacheChange_t::copy_not_memcpy` is not in src/. It copies the
metadata of `src` (kind, writer, instance, sequence number, read flag) and keeps the payload
buffer. -/
def copy_not_memcpy (dst src : CacheChange_t) : CacheChange_t :=
  { dst with kind := src.kind, writerGUID := src.writerGUID,
             sequenceNumber := src.sequenceNumber, isRead := src.isRead,
             instanceHandle := src.instanceHandle }

/-- Modelled from the spec: `CacheChange_t::setFragmentSize` is not in src/. A sample of
`length` bytes with fragment size `F` has `ceil(length / F)` fragments; with
`create_fragment_list` all of them become missing. -/
def setFragmentSize (c : CacheChange_t) (fragment_size : Nat) (create_fragment_list : Bool) :
    CacheChange_t :=
  let count :=
    if 0 < fragment_size then (c.serializedPayload.length + fragment_size - 1) / fragment_size
    else 0
  { c with fragment_size := fragment_size, fragment_count := count,
           missing_fragments := if create_fragment_list then List.range' 1 count else [] }

/-- Modelled from the spec: `CacheChange_t::add_fragments` is not in src/. "Apply the fragment":
fragments `starting .. starting + n - 1` are no longer missing; the result is `true` when
"all fragments are now present". -/
def add_fragments (c : CacheChange_t) (fragment_starting_num fragments_in_submessage : Nat) :
    Bool × CacheChange_t :=
  let missing := c.missing_fragments.filter
    (fun k => !(decide (fragment_starting_num ≤ k) &&
                decide (k < fragment_starting_num + fragments_in_submessage)))
  (missing.isEmpty, { c with missing_fragments := missing })

/-- A change as handed out by the change pool: no metadata, a payload buffer of `max_size`. -/
def reserved_change (max_size : Nat) : CacheChange_t :=
  { kind := ChangeKind_t.ALIVE, writerGUID := ⟨[], 0⟩, sequenceNumber := 0,
    serializedPayload := ⟨0, max_size⟩, isRead := false,
    fragment_size := 0, fragment_count := 0, missing_fragments := [] }

/-! ## StatelessReader.cpp -/

/-- Outcomes of the collaborators during one `matched_writer_add` call. -/
structure MatchEnv where
  /-- Source `is_datasharing_compatible_with(wdata)` -/
  is_datasharing : Bool
  /-- Source `RTPSDomainImpl::should_intraprocess_between(m_guid, wdata.guid())` -/
  is_same_process : Bool
  /-- result of `datasharing_listener_->add_datasharing_writer(...)` -/
  add_datasharing_writer_ok : Bool

/-- Source `wlp->sub_liveliness_manager_->...` guarded by the lease duration and the presence of
the WLP, as in lines 147-161, 183-198 and 635-649. -/
def liveliness_call (r : StatelessReader) (call : LivelinessCall) : StatelessReader :=
  if r.liveliness_lease_finite then
    if r.has_wlp then { r with liveliness_log := r.liveliness_log ++ [call] }
    else r
  else r

/-- Source `StatelessReader::matched_writer_add` (lines 91-172). -/
def matched_writer_add (r : StatelessReader) (wdata : WriterProxyData) (env : MatchEnv) :
    Bool × StatelessReader :=
  if r.matched_writers_.any (fun writer => decide (writer.guid = wdata.guid)) then
    (false, r)
  else
    let is_datasharing := env.is_datasharing
    let is_same_process := env.is_same_process
    let info : RemoteWriterInfo_t :=
      { guid := wdata.guid, persistence_guid := wdata.persistence_guid,
        has_manual_topic_liveliness := wdata.manual_by_topic_liveliness,
        is_datasharing := is_datasharing, fragmented_change := none }
    if is_datasharing && !env.add_datasharing_writer_ok then
      (false, r)
    else
      let r1 : StatelessReader :=
        if is_datasharing then
          { r with datasharing_writers := r.datasharing_writers ++ [wdata.guid] }
        else r
      if r1.matched_writers_max ≤ r1.matched_writers_.length then
        -- emplace_back returned nullptr
        let r2 : StatelessReader :=
          if is_datasharing then
            { r1 with datasharing_writers :=
                r1.datasharing_writers.filter (fun g => decide (g ≠ wdata.guid)) }
          else r1
        (false, r2)
      else
        let r2 := { r1 with matched_writers_ := r1.matched_writers_ ++ [info] }
        let r3 := add_persistence_guid r2 info.guid info.persistence_guid
        let r4 := { r3 with m_acceptMessagesFromUnkownWriters := false }
        let r5 := liveliness_call r4 (LivelinessCall.add_writer wdata.guid)
        let r6 : StatelessReader :=
          if is_datasharing && !is_same_process && !r5.durability_volatile then
            { r5 with datasharing_notifications := r5.datasharing_notifications + 1 }
          else r5
        (true, r6)

/-- Source `StatelessReader::remove_changes_from` (lines 273-300): every history change of the writer
is removed through `mp_history->remove_change`. -/
def remove_changes_from (r : StatelessReader) (writerGUID : GUID_t)
    (_is_payload_pool_lost : Bool) : StatelessReader :=
  let res := history_remove_where (fun c => decide (c.writerGUID = writerGUID))
    r.history r.total_unread_
  { r with history := res.1, total_unread_ := res.2 }

/-- The loop of `matched_writer_remove` (lines 200-217) from position `it` on; `before`
holds the entries already passed. The call `datasharing_listener_->remove_datasharing_writer`
(its code is not in src/) succeeds when the writer is registered with the listener. -/
def matched_writer_remove_loop (r : StatelessReader) (writer_guid : GUID_t)
    (removed_by_lease : Bool) :
    List RemoteWriterInfo_t → List RemoteWriterInfo_t → Bool × StatelessReader
  | _, [] => (false, r)
  | before, it :: rest =>
    if it.guid = writer_guid then
      let r1 : StatelessReader :=
        if it.is_datasharing && r.datasharing_writers.contains writer_guid then
          remove_changes_from
            { r with datasharing_writers :=
                r.datasharing_writers.filter (fun g => decide (g ≠ writer_guid)) }
            writer_guid true
        else r
      let r2 := remove_persistence_guid r1 it.guid it.persistence_guid removed_by_lease
      (true, { r2 with matched_writers_ := before ++ rest })
    else
      matched_writer_remove_loop r writer_guid removed_by_lease (before ++ [it]) rest

/-- Source `StatelessReader::matched_writer_remove` (lines 174-220). -/
def matched_writer_remove (r : StatelessReader) (writer_guid : GUID_t)
    (removed_by_lease : Bool) : Bool × StatelessReader :=
  let r1 := remove_changes_with_guid r writer_guid
  let r2 := liveliness_call r1 (LivelinessCall.remove_writer writer_guid)
  matched_writer_remove_loop r2 writer_guid removed_by_lease [] r2.matched_writers_

/-- Source `StatelessReader::matched_writer_is_matched` (lines 222-236). -/
def matched_writer_is_matched (r : StatelessReader) (writer_guid : GUID_t) : Bool :=
  r.matched_writers_.any (fun item => decide (item.guid = writer_guid))

/-- Source `StatelessReader::thereIsUpperRecordOf` (lines 625-630). -/
def thereIsUpperRecordOf (r : StatelessReader) (guid : GUID_t) (seq : SequenceNumber_t) :
    Bool :=
  decide (get_last_notified r guid ≥ seq)

/-- Source `StatelessReader::change_received` (lines 238-271). `received_change_ok` is the result of
`mp_history->received_change(change, 0)`; on success the history holds the change at its end
(modelled from the spec: `ReaderHistory` is not in src/, the spec's History supports `insert`
into an ordered sequence). -/
def change_received (r : StatelessReader) (change : CacheChange_t)
    (received_change_ok : Bool) : Bool × StatelessReader :=
  if !thereIsUpperRecordOf r change.writerGUID change.sequenceNumber then
    if received_change_ok then
      let r1 := { r with history := r.history ++ [change] }
      let r2 := update_last_notified r1 change.writerGUID change.sequenceNumber
      let r3 := { r2 with total_unread_ := r2.total_unread_ + 1 }
      let r4 : StatelessReader :=
        if r3.has_listener then { r3 with listener_log := r3.listener_log ++ [change] }
        else r3
      (true, r4)
    else (false, r)
  else (false, r)

/-- Source `StatelessReader::acceptMsgFrom` (lines 602-623). -/
def acceptMsgFrom (r : StatelessReader) (writerId : GUID_t) (change_kind : ChangeKind_t) :
    Bool :=
  if change_kind = ChangeKind_t.ALIVE then
    if r.m_acceptMessagesFromUnkownWriters then true
    else if writerId.entityId = r.m_trustedWriterEntityId then true
    else r.matched_writers_.any (fun writer => decide (writer.guid = writerId))
  else r.matched_writers_.any (fun writer => decide (writer.guid = writerId))

/-- Source `StatelessReader::assert_writer_liveliness` (lines 632-650). -/
def assert_writer_liveliness (r : StatelessReader) (guid : GUID_t) : StatelessReader :=
  liveliness_call r (LivelinessCall.assert_liveliness guid)

/-- Outcomes of the collaborators during one `processDataMsg` call. -/
structure DataEnv where
  /-- result of `change_pool_->reserve_cache(change_to_add)` -/
  reserve_cache_ok : Bool
  /-- a data-sharing pool is found for the writer (lines 424-429) -/
  datasharing_pool_ok : Bool
  /-- result of `payload_pool_->get_payload(...)` -/
  get_payload_ok : Bool
  /-- result of `mp_history->received_change(change, 0)` -/
  received_change_ok : Bool

/-- Lines 401-442 of `processDataMsg`: the change reserved from the pool after
`copy_not_memcpy` and after the payload pool has copied the payload of `change` into it. -/
def reserved_copy (change : CacheChange_t) : CacheChange_t :=
  { copy_not_memcpy (reserved_change change.serializedPayload.length) change with
    serializedPayload := change.serializedPayload }

/-- Source `StatelessReader::processDataMsg` (lines 390-467). -/
def processDataMsg (r : StatelessReader) (change : CacheChange_t) (env : DataEnv) :
    Bool × StatelessReader :=
  if acceptMsgFrom r change.writerGUID change.kind then
    if !env.reserve_cache_ok then (false, r)
    else
      -- the reserved change receives the metadata and a copy of the payload
      let change_to_add : CacheChange_t := reserved_copy change
      let is_datasharing := r.matched_writers_.any
        (fun writer => decide (writer.guid = change.writerGUID) && writer.is_datasharing)
      if is_datasharing && !env.datasharing_pool_ok then (false, r)
      else if !is_datasharing && !env.get_payload_ok then (false, r)
      else
        let res := change_received r change_to_add env.received_change_ok
        if !res.1 then (false, res.2)
        else (true, assert_writer_liveliness res.2 change.writerGUID)
  else (true, r)

/-- Outcomes of the collaborators during one `processDataFragMsg` call. -/
structure FragEnv where
  /-- Source `reserveCache(&work_change, sampleSize)`: the payload `max_size` of the reserved change,
  or `none` when the reservation fails -/
  reserveCache : Option Nat
  /-- result of `mp_history->received_change(change, 0)` -/
  received_change_ok : Bool

/-- Lines 500-553 of `processDataFragMsg`: what becomes of the writer's pending change.
The result is `(work_change, change_completed)`. -/
def process_fragment (work_change : Option CacheChange_t) (incomingChange : CacheChange_t)
    (sampleSize fragmentStartingNum fragmentsInSubmessage : Nat) (env : FragEnv) :
    Option CacheChange_t × Option CacheChange_t :=
  let change_to_add := incomingChange
  -- Check if pending fragmented change should be dropped
  let work1 : Option CacheChange_t :=
    match work_change with
    | none => none
    | some wc =>
      if wc.sequenceNumber < change_to_add.sequenceNumber then
        if sampleSize ≤ wc.serializedPayload.max_size then
          let c1 := copy_not_memcpy wc change_to_add
          let c2 := { c1 with serializedPayload := { c1.serializedPayload with length := sampleSize } }
          some (setFragmentSize c2 change_to_add.fragment_size true)
        else none
      else some wc
  -- Check if a new change should be reserved
  let work2 : Option CacheChange_t :=
    match work1 with
    | some wc => some wc
    | none =>
      match env.reserveCache with
      | none => none
      | some max_size =>
        if max_size < sampleSize then none
        else
          let c1 := copy_not_memcpy (reserved_change max_size) change_to_add
          let c2 := { c1 with serializedPayload := { c1.serializedPayload with length := sampleSize } }
          some (setFragmentSize c2 change_to_add.fragment_size true)
  -- Process fragment and set change_completed if it is fully reassembled
  match work2 with
  | none => (none, none)
  | some wc =>
    let res := add_fragments wc fragmentStartingNum fragmentsInSubmessage
    if res.1 then (none, some res.2) else (some res.2, none)

/-- Assignment `writer.fragmented_change = work_change` on the first entry of `guid`. -/
def set_fragmented_change (guid : GUID_t) (work_change : Option CacheChange_t) :
    List RemoteWriterInfo_t → List RemoteWriterInfo_t
  | [] => []
  | w :: ws =>
    if w.guid = guid then { w with fragmented_change := work_change } :: ws
    else w :: set_fragmented_change guid work_change ws

/-- Source `StatelessReader::processDataFragMsg` (lines 469-581). -/
def processDataFragMsg (r : StatelessReader) (incomingChange : CacheChange_t)
    (sampleSize fragmentStartingNum fragmentsInSubmessage : Nat) (env : FragEnv) :
    Bool × StatelessReader :=
  let writer_guid := incomingChange.writerGUID
  match r.matched_writers_.find? (fun writer => decide (writer.guid = writer_guid)) with
  | some writer =>
    if !thereIsUpperRecordOf r writer_guid incomingChange.sequenceNumber then
      let work_change := writer.fragmented_change
      -- Early return if we already know about a greater sequence number
      if (work_change.any
            (fun wc => decide (wc.sequenceNumber > incomingChange.sequenceNumber))) then
        (true, r)
      else
        let res := process_fragment work_change incomingChange sampleSize
          fragmentStartingNum fragmentsInSubmessage env
        let r1 := { r with matched_writers_ :=
                      set_fragmented_change writer_guid res.1 r.matched_writers_ }
        let r2 : StatelessReader :=
          match res.2 with
          | some change_completed => (change_received r1 change_completed env.received_change_ok).2
          | none => r1
        (true, assert_writer_liveliness r2 writer_guid)
    else
      (true, assert_writer_liveliness r writer_guid)
  | none => (true, r)

/-- The loop of `nextUnreadCache` (lines 316-326): the first change that is not read. -/
def nextUnreadCache_loop : List CacheChange_t → Option CacheChange_t
  | [] => none
  | it :: rest => if it.isRead then nextUnreadCache_loop rest else some it

/-- Source `StatelessReader::nextUnreadCache` (lines 310-339): the flag `found`, the change
written to `*change` when one is found, and the reader afterwards. -/
def nextUnreadCache (r : StatelessReader) : Bool × Option CacheChange_t × StatelessReader :=
  match nextUnreadCache_loop r.history with
  | some it => (true, some it, r)
  | none => (false, none, r)

/-- Source `StatelessReader::change_read_by_user` (lines 373-388): the change and the counter
`total_unread_` afterwards. -/
def change_read_by_user (change : CacheChange_t) (total_unread : Nat) (mark_as_read : Bool) :
    CacheChange_t × Nat :=
  -- Mark change as read
  if mark_as_read && !change.isRead then
    ({ change with isRead := true },
     if 0 < total_unread then total_unread - 1 else total_unread)
  else (change, total_unread)

/-- Source `StatelessReader::end_sample_access_nts` (lines 365-371), called with a pointer to
the change at position `index` of the history; a position outside the history designates no
change. -/
def end_sample_access_nts (r : StatelessReader) (index : Nat) (mark_as_read : Bool) :
    StatelessReader :=
  match r.history[index]? with
  | some change =>
    let res := change_read_by_user change r.total_unread_ mark_as_read
    { r with history := r.history.set index res.1, total_unread_ := res.2 }
  | none => r

/-- Modelled from the spec: `ReaderHistory::remove_change` is not in src/. The spec's History
supports `remove`; the change at position `index` is taken out and reported to the reader
through `change_removed_by_history`. -/
def remove_change (r : StatelessReader) (index : Nat) : StatelessReader :=
  match r.history[index]? with
  | some ch =>
    { r with history := r.history.eraseIdx index,
             total_unread_ := change_removed_by_history r.total_unread_ ch }
  | none => r

/-! ## PDPClient.cpp: the list of discovery servers

Strings are lists of characters. An exception thrown inside the `try` block is the result
`none`; the handler at lines 769-774 treats every exception alike. -/

/-- A `Locator_t`: kind, port and the sixteen address octets. -/
structure Locator_t where
  kind : Nat
  port : Nat
  address : List Nat
deriving DecidableEq, Repr

/-- What the client engine reads of a `ParticipantProxyData`; `persistence_guid` is the result
of `get_persistence_guid()`. -/
structure ParticipantProxyData where
  m_guid : GUID_t
  m_key : Nat
  m_availableBuiltinEndpoints : Nat
  persistence_guid : GUID_t
  m_leaseDuration : Nat
  isAlive : Bool
  m_properties : List (String × String)
deriving DecidableEq, Repr

/-- A `RemoteServerAttributes`: what `load_environment_server_info` fills, and `proxy`, the
participant proxy of the server once it has been discovered (`nullptr` is `none`). -/
structure RemoteServerAttributes where
  guidPrefix : GuidPrefix_t
  metatrafficUnicastLocatorList : List Locator_t
  metatrafficMulticastLocatorList : List Locator_t
  proxy : Option ParticipantProxyData := none
deriving DecidableEq, Repr

/-- A `RemoteServerList_t`. -/
abbrev RemoteServerList_t := List RemoteServerAttributes

/-- The constant `LOCATOR_KIND_UDPv4`. -/
def LOCATOR_KIND_UDPv4 : Nat := 1

/-- What the parser takes from its surroundings: the constant `DEFAULT_ROS2_SERVER_PORT`, whose
definition is not in src/, and name resolution, `IPLocator::resolveNameDNS(address).first`
(the IPv4 addresses found for a name, as strings). -/
structure ServerListEnv where
  DEFAULT_ROS2_SERVER_PORT : Nat
  resolveNameDNS : List Char → List (List Char)

/-- Modelled from the spec: the macro `DEFAULT_ROS2_SERVER_GUIDPREFIX` is not in src/. The spec
gives the fixed 12-byte literal `44.53.00.5f.45.50.52.4f.53.49.4d.41`. -/
def DEFAULT_ROS2_SERVER_GUIDPREFIX : GuidPrefix_t :=
  [0x44, 0x53, 0x00, 0x5f, 0x45, 0x50, 0x52, 0x4f, 0x53, 0x49, 0x4d, 0x41]

/-- Source `get_server_client_default_guidPrefix` (lines 794-809); `none` is the result `false`.
Reading the template from the string stream always succeeds. -/
def get_server_client_default_guidPrefix (id : Int) : Option GuidPrefix_t :=
  if 0 ≤ id ∧ id < 256 then
    -- Third octet denotes the server id
    some (DEFAULT_ROS2_SERVER_GUIDPREFIX.set 2 (id % 256).toNat)
  else none

/-- The value of a string of decimal digits. -/
def digitsValue (s : List Char) : Nat :=
  s.foldl (fun n c => 10 * n + (c.toNat - '0'.toNat)) 0

/-- The fields of a string separated by `.`. -/
def splitDots : List Char → List (List Char)
  | [] => [[]]
  | c :: cs =>
    if c = '.' then [] :: splitDots cs
    else
      match splitDots cs with
      | [] => [[c]]
      | g :: gs => (c :: g) :: gs

/-- One octet of a dotted quad: decimal digits with a value of at most 255. -/
def parseOctet (s : List Char) : Option Nat :=
  if s ≠ [] ∧ s.all Char.isDigit = true ∧ digitsValue s ≤ 255 then some (digitsValue s)
  else none

/-- Modelled from the spec: `IPLocator` is not in src/. A well-formed IPv4 address is a dotted
quad: four octets separated by dots. The result holds the four octets. -/
def parseIPv4 (address : List Char) : Option (List Nat) :=
  match (splitDots address).map parseOctet with
  | [some a, some b, some c, some d] => some [a, b, c, d]
  | _ => none

/-- Modelled from the spec: `IPLocator::isIPv4` is not in src/; the address is a dotted quad. -/
def isIPv4 (address : List Char) : Bool := (parseIPv4 address).isSome

/-- Modelled from the spec: `IPLocator::setIPv4` is not in src/. A dotted quad is stored in the
last four address octets; `none` is the result `false` for a malformed address. -/
def setIPv4 (locator : Locator_t) (address : List Char) : Option Locator_t :=
  match parseIPv4 address with
  | some quad => some { locator with address := List.replicate 12 0 ++ quad }
  | none => none

/-- Modelled from the spec: `IPLocator::isAny` is not in src/; the "any" address is
`0.0.0.0`, all address octets are zero. -/
def isAny (locator : Locator_t) : Bool := locator.address.all (fun o => o == 0)

/-- Modelled from the spec: `IPLocator::setPhysicalPort` is not in src/. The port is stored;
the result is `false` for port 0, the one 16-bit value that is not a UDP port. -/
def setPhysicalPort (locator : Locator_t) (port : Nat) : Bool × Locator_t :=
  (decide (port ≠ 0), { locator with port := port })

/-- The function `std::stoi` on a string of decimal digits: `none` stands for `std::out_of_range`,
thrown when the value does not fit an `int`. -/
def stoi (s : List Char) : Option Int :=
  if digitsValue s ≤ 2147483647 then some (digitsValue s : Int) else none

/-- The character class `[A-Za-z0-9-.]` of `ROS2_ADDRESS_PATTERN`. -/
def isAddressChar (c : Char) : Bool :=
  c.isAlpha || c.isDigit || c == '-' || c == '.'

/-- The call `std::regex_match(locator, mr, ROS2_ADDRESS_PATTERN, match_not_null)` with the pattern
`^([A-Za-z0-9-.]+)?:?(?:(\d+))?$` (line 653): `none` when there is no match, otherwise
the sub-matches 1 (address) and 2 (port), each `none` when it took no part in the match.
The address group is greedy: it takes the longest run of address characters. -/
def match_ROS2_ADDRESS_PATTERN (locator : List Char) :
    Option (Option (List Char) × Option (List Char)) :=
  if locator = [] then none
  else
    let address := locator.takeWhile isAddressChar
    let rest := locator.dropWhile isAddressChar
    let digits := match rest with
      | ':' :: r => r
      | r => r
    if digits.all Char.isDigit then
      some (if address = [] then none else some address,
            if digits = [] then none else some digits)
    else none

/-- The iteration of `ROS2_SERVER_LIST_PATTERN`, `([^;]*);?`, over the list with
`match_not_null` (lines 664-670 and 759): every match is a maximal run of characters other than
`;` followed by a `;` if there is one, and there is no match at the end of the string. The
result is the first sub-match of every match, in order. -/
def server_list_matches : List Char → List (List Char)
  | [] => []
  | c :: cs =>
    if c = ';' then [] :: server_list_matches cs
    else
      match server_list_matches cs with
      | [] => [[c]]
      | g :: gs => (c :: g) :: gs

/-- The local variables of the parsing loop (lines 659-662). -/
structure ServerListState where
  attributes : RemoteServerList_t
  server_att : RemoteServerAttributes
  server_locator : Locator_t
  server_id : Nat

/-- Lines 712-734: the port of the locator is reset to the default, then set from the second
sub-match when it matched. -/
def set_slot_port (env : ServerListEnv) (server_locator : Locator_t)
    (port_match : Option (List Char)) : Option Locator_t :=
  -- reset the locator to default
  let locator := (setPhysicalPort server_locator env.DEFAULT_ROS2_SERVER_PORT).2
  match port_match with
  | none => some locator
  | some digits =>
    match stoi digits with
    | none => none
    | some port =>
      if port > 65535 then none
      else
        let res := setPhysicalPort locator (port % 65536).toNat
        if !res.1 then none else some res.2

/-- Lines 672-757: the body of the parsing loop for one match whose first sub-match is
`locator`. The inner loop over the sub-matches of `mr` runs once: it reads sub-match 1 as the
address and, after the inner `++it`, sub-match 2 as the port. -/
def process_slot (env : ServerListEnv) (st : ServerListState) (locator : List Char) :
    Option ServerListState :=
  match match_ROS2_ADDRESS_PATTERN locator with
  | some (address_match, port_match) =>
    let address := address_match.getD []
    -- Check whether the address is IPv4
    let address :=
      if !isIPv4 address then
        match env.resolveNameDNS address with
        | first :: _ => first
        | [] => address
      else address
    match setIPv4 st.server_locator address with
    | none => none
    | some located =>
      let located :=
        if isAny located then
          { located with address := List.replicate 12 0 ++ [127, 0, 0, 1] }
        else located
      match set_slot_port env located port_match with
      | none => none
      | some server_locator =>
        -- add the server to the list
        match get_server_client_default_guidPrefix (st.server_id : Int) with
        | none => none
        | some guidPrefix =>
          let server_att : RemoteServerAttributes :=
            { st.server_att with
              guidPrefix := guidPrefix
              metatrafficUnicastLocatorList := [server_locator] }
          some { st with
                 attributes := st.attributes ++ [server_att]
                 server_att := server_att
                 server_locator := server_locator }
  | none =>
    if locator ≠ [] then none
    else some st

/-- The loop of lines 670-761 over the matches of the list pattern. -/
def parse_slots (env : ServerListEnv) :
    List (List Char) → ServerListState → Option ServerListState
  | [], st => some st
  | locator :: rest, st =>
    match process_slot env st locator with
    | none => none
    | some st1 => parse_slots env rest { st1 with server_id := st1.server_id + 1 }

/-- The state at the start of the parsing loop (lines 659-662). -/
def initial_state (env : ServerListEnv) : ServerListState :=
  { attributes := []
    server_att := { guidPrefix := List.replicate 12 0, metatrafficUnicastLocatorList := [],
                    metatrafficMulticastLocatorList := [] }
    server_locator := { kind := LOCATOR_KIND_UDPv4, port := env.DEFAULT_ROS2_SERVER_PORT,
                        address := List.replicate 16 0 }
    server_id := 0 }

/-- Source `load_environment_server_info(std::string list, RemoteServerList_t& attributes)`
(lines 641-777): the result and the contents of `attributes` afterwards. -/
def load_environment_server_info (env : ServerListEnv) (list : List Char)
    (attributes : RemoteServerList_t) : Bool × RemoteServerList_t :=
  if list = [] then (false, attributes)
  else
    match parse_slots env (server_list_matches list) (initial_state env) with
    | none => (false, [])
    | some st =>
      -- Check for server info
      if st.attributes = [] then (false, [])
      else (true, st.attributes)

/-! ## PDPClient.cpp: the client engine

The PDP endpoints are a `StatefulReader` and a `StatefulWriter`, whose code is outside the
embedded files: they are represented by their table of matched proxies and by the record of
the calls made to them. Messages handed to a `DirectMessageSender` are recorded in `sent`. -/

/-- Modelled from the spec: the constant `c_EntityId_RTPSParticipant` is not in src/; this is the
entity id the RTPS standard gives to the participant. -/
def c_EntityId_RTPSParticipant : EntityId_t := 0x000001c1

/-- Modelled from the spec: the constant `c_EntityId_SPDPWriter` is not in src/; this is the
entity id the RTPS standard gives to the builtin participant writer. -/
def c_EntityId_SPDPWriter : EntityId_t := 0x000100c2

/-- Modelled from the spec: the constant `c_EntityId_SPDPReader` is not in src/; this is the
entity id the RTPS standard gives to the builtin participant reader. -/
def c_EntityId_SPDPReader : EntityId_t := 0x000100c7

/-- Modelled from the spec: the constant `DISC_BUILTIN_ENDPOINT_PARTICIPANT_ANNOUNCER` is not in
src/; this is the bit the RTPS standard gives it. -/
def DISC_BUILTIN_ENDPOINT_PARTICIPANT_ANNOUNCER : Nat := 0x00000001

/-- Modelled from the spec: the constant `DISC_BUILTIN_ENDPOINT_PARTICIPANT_DETECTOR` is not in
src/; this is the bit the RTPS standard gives it. -/
def DISC_BUILTIN_ENDPOINT_PARTICIPANT_DETECTOR : Nat := 0x00000002

/-- Source `RemoteServerAttributes::GetParticipant` (lines 779-782). -/
def RemoteServerAttributes.GetParticipant (svr : RemoteServerAttributes) : GUID_t :=
  { guidPrefix := svr.guidPrefix, entityId := c_EntityId_RTPSParticipant }

/-- Source `RemoteServerAttributes::GetPDPReader` (lines 784-787). -/
def RemoteServerAttributes.GetPDPReader (svr : RemoteServerAttributes) : GUID_t :=
  { guidPrefix := svr.guidPrefix, entityId := c_EntityId_SPDPReader }

/-- Source `RemoteServerAttributes::GetPDPWriter` (lines 789-792). -/
def RemoteServerAttributes.GetPDPWriter (svr : RemoteServerAttributes) : GUID_t :=
  { guidPrefix := svr.guidPrefix, entityId := c_EntityId_SPDPWriter }

/-- What the engine sets of a `ReaderProxyData`. -/
structure ReaderProxyData where
  guid : GUID_t
  m_expectsInlineQos : Bool
deriving DecidableEq, Repr

/-- Calls made to `mp_PDPReader`. -/
inductive PDPReaderCall
  | matched_writer_remove (guid : GUID_t)
  | matched_writer_add (wdata : WriterProxyData)
deriving DecidableEq, Repr

/-- Calls made to `mp_PDPWriter`. -/
inductive PDPWriterCall
  | matched_reader_remove (guid : GUID_t)
  | matched_reader_add (rdata : ReaderProxyData)
deriving DecidableEq, Repr

/-- Modelled from the spec: the PDP Reader is a `StatefulReader`, whose code is not in src/.
It holds the matched writers, at most `matched_writers_max` of them, and `calls` records the
matching calls made to it. -/
structure PDPReader where
  matched_writers : List WriterProxyData
  matched_writers_max : Nat
  calls : List PDPReaderCall
deriving DecidableEq, Repr

/-- Modelled from the spec: `matched_writer_is_matched` of the PDP Reader is not in src/; the
writer GUID is in the matched set. -/
def PDPReader.matched_writer_is_matched (r : PDPReader) (guid : GUID_t) : Bool :=
  r.matched_writers.any (fun w => decide (w.guid = guid))

/-- Modelled from the spec: `matched_writer_add` of the PDP Reader is not in src/. The spec's
`match_writer` is an "idempotent add; returns false if the writer GUID is already matched or
capacity is exhausted". -/
def PDPReader.matched_writer_add (r : PDPReader) (wdata : WriterProxyData) :
    Bool × PDPReader :=
  let logged := { r with calls := r.calls ++ [PDPReaderCall.matched_writer_add wdata] }
  if r.matched_writer_is_matched wdata.guid then (false, logged)
  else if r.matched_writers_max ≤ r.matched_writers.length then (false, logged)
  else (true, { logged with matched_writers := r.matched_writers ++ [wdata] })

/-- Modelled from the spec: `matched_writer_remove` of the PDP Reader is not in src/. The spec's
`unmatch_writer` "removes the entry"; the result tells whether there was one. -/
def PDPReader.matched_writer_remove (r : PDPReader) (guid : GUID_t) : Bool × PDPReader :=
  (r.matched_writer_is_matched guid,
   { r with
     matched_writers := r.matched_writers.filter (fun w => decide (w.guid ≠ guid))
     calls := r.calls ++ [PDPReaderCall.matched_writer_remove guid] })

/-- Modelled from the spec: the PDP Writer is a `StatefulWriter`, whose code is not in src/.
It holds the matched readers, at most `matched_readers_max` of them; `acked_by_all` is its
acknowledgement state as `is_acked_by_all` reports it, and `calls` records the matching calls
made to it. -/
structure PDPWriter where
  matched_readers : List ReaderProxyData
  matched_readers_max : Nat
  acked_by_all : CacheChange_t → Bool
  calls : List PDPWriterCall

/-- Modelled from the spec: `matched_reader_is_matched` of the PDP Writer is not in src/; the
reader GUID is in the matched set. -/
def PDPWriter.matched_reader_is_matched (w : PDPWriter) (guid : GUID_t) : Bool :=
  w.matched_readers.any (fun r => decide (r.guid = guid))

/-- Modelled from the spec: `matched_reader_add` of the PDP Writer is not in src/; an idempotent
add that fails when the reader is already matched or the capacity is exhausted. -/
def PDPWriter.matched_reader_add (w : PDPWriter) (rdata : ReaderProxyData) :
    Bool × PDPWriter :=
  let logged := { w with calls := w.calls ++ [PDPWriterCall.matched_reader_add rdata] }
  if w.matched_reader_is_matched rdata.guid then (false, logged)
  else if w.matched_readers_max ≤ w.matched_readers.length then (false, logged)
  else (true, { logged with matched_readers := w.matched_readers ++ [rdata] })

/-- Modelled from the spec: `matched_reader_remove` of the PDP Writer is not in src/; it removes
the entry and tells whether there was one. -/
def PDPWriter.matched_reader_remove (w : PDPWriter) (guid : GUID_t) : Bool × PDPWriter :=
  (w.matched_reader_is_matched guid,
   { w with
     matched_readers := w.matched_readers.filter (fun r => decide (r.guid ≠ guid))
     calls := w.calls ++ [PDPWriterCall.matched_reader_remove guid] })

/-- Modelled from the spec: `StatefulWriter::is_acked_by_all` is not in src/; it reports the
acknowledgement state of the writer for a change. -/
def PDPWriter.is_acked_by_all (w : PDPWriter) (change : CacheChange_t) : Bool :=
  w.acked_by_all change

/-- A message handed to a `DirectMessageSender` through `RTPSMessageGroup::add_data`: the
change and the remote readers and locators the sender was built with. A `LocatorList` (its
code is not in src/) is the list of the locators pushed into it. -/
structure DirectMessage where
  change : CacheChange_t
  remote_readers : List GUID_t
  locators : List Locator_t
deriving DecidableEq, Repr

/-- Modelled from the spec: an entry of the participant proxy store, whose code (`PDP`) is not
in src/. The spec's store maps a remote GUID to its `ParticipantProxyData` "with lease-timer
per remote and a is-server flag"; the timer `lease_duration_event` is represented by the
interval last given to `update_interval` and the number of `restart_timer` calls. -/
structure ParticipantProxy where
  data : ParticipantProxyData
  /-- the flag passed to `add_participant_proxy_data` -/
  is_server : Bool
  /-- the interval last passed to `lease_duration_event->update_interval`, if any -/
  lease_interval : Option Nat
  /-- number of `lease_duration_event->restart_timer()` calls -/
  lease_timer_restarts : Nat
deriving DecidableEq, Repr

/-- A `PDPClient` with the parts of `BuiltinProtocols` and of the PDP endpoints it drives. -/
structure PDPClient where
  /-- the list `mp_builtin->m_DiscoveryServers` -/
  m_DiscoveryServers : List RemoteServerAttributes
  /-- Source `_serverPing` -/
  _serverPing : Bool
  /-- number of `mp_sync->restart_timer()` calls -/
  sync_timer_restarts : Nat
  /-- the changes of `mp_PDPWriterHistory`, oldest first -/
  mp_PDPWriterHistory : List CacheChange_t
  /-- the last sequence number given out by `mp_PDPWriterHistory` -/
  m_lastCacheChangeSeqNum : SequenceNumber_t
  /-- the endpoint `mp_PDPReader` -/
  mp_PDPReader : PDPReader
  /-- the endpoint `mp_PDPWriter` -/
  mp_PDPWriter : PDPWriter
  /-- the GUID `mp_PDPWriter->getGuid()` -/
  writer_guid : GUID_t
  /-- the key `getLocalParticipantProxyData()->m_key` -/
  local_key : Nat
  /-- Source `mp_builtin->mp_WLP != nullptr` -/
  has_WLP : Bool
  /-- participants handed to `mp_WLP->assignRemoteEndpoints`, oldest first -/
  wlp_assigned : List ParticipantProxyData
  /-- messages handed to a `DirectMessageSender`, oldest first -/
  sent : List DirectMessage
  /-- the entries of the participant proxy store, oldest first -/
  participant_proxies : List ParticipantProxy := []
  /-- the proxies for which `mp_EDP->areRemoteEndpointsMatched` answers true -/
  edp_matched : List ParticipantProxyData := []
  /-- participants handed to `mp_EDP->assignRemoteEndpoints`, oldest first -/
  edp_assigned : List ParticipantProxyData := []
  /-- Source `mp_PDPReader != nullptr` -/
  mp_PDPReader_created : Bool := true
  /-- Source `mp_PDPWriter != nullptr` -/
  mp_PDPWriter_created : Bool := true

/-- Modelled from the spec: `History::get_min_change` is not in src/. The spec's History is an
ordered sequence with a `min`; the minimum (oldest) change is its first one, and there is
none in an empty history. -/
def get_min_change (history : List CacheChange_t) : Option CacheChange_t :=
  history.head?

/-- Modelled from the spec: `WriterHistory::next_sequence_number` is not in src/; the number
after the last one given out. -/
def next_sequence_number (s : PDPClient) : SequenceNumber_t :=
  s.m_lastCacheChangeSeqNum + 1

/-- Modelled from the spec: the base `PDP::announceParticipantState` is not in src/. A new change
is appended to the writer history; a re-announcement (`new_change` false) pushes the change
already in the history again and adds nothing, which is why lines 533-537 report a history
without a change as an error. -/
def PDP.announceParticipantState (s : PDPClient) (new_change : Bool) : PDPClient :=
  if new_change then
    { s with
      mp_PDPWriterHistory := s.mp_PDPWriterHistory ++
        [{ kind := ChangeKind_t.ALIVE, writerGUID := s.writer_guid,
           sequenceNumber := next_sequence_number s, serializedPayload := ⟨0, 0⟩,
           isRead := false, fragment_size := 0, fragment_count := 0, missing_fragments := [],
           instanceHandle := s.local_key }]
      m_lastCacheChangeSeqNum := next_sequence_number s }
  else s

/-- Source `PDPClient::assignRemoteEndpoints` (lines 278-295) with `notifyAboveRemoteEndpoints`
(lines 297-305). -/
def assignRemoteEndpoints (s : PDPClient) (pdata : ParticipantProxyData) : PDPClient :=
  -- Verify if this participant is a server
  let servers := s.m_DiscoveryServers.foldl
    (fun (done : List RemoteServerAttributes) svr =>
      if svr.guidPrefix = pdata.m_guid.guidPrefix then done ++ [{ svr with proxy := some pdata }]
      else done ++ [svr]) []
  let s1 := { s with m_DiscoveryServers := servers }
  if s1.has_WLP then { s1 with wlp_assigned := s1.wlp_assigned ++ [pdata] } else s1

/-- The loop of `removeRemoteEndpoints` (lines 318-326): the servers after the loop, the flag
`is_server` and the number of `restart_timer` calls. -/
def remove_server_proxies (guidPrefix : GuidPrefix_t) (servers : List RemoteServerAttributes) :
    List RemoteServerAttributes × Bool × Nat :=
  servers.foldl
    (fun (acc : List RemoteServerAttributes × Bool × Nat) svr =>
      if svr.guidPrefix = guidPrefix then
        (acc.1 ++ [{ svr with proxy := none }], true, acc.2.2 + 1)
      else (acc.1 ++ [svr], acc.2.1, acc.2.2))
    ([], false, 0)

/-- Modelled from the spec: `WriterProxyData::set_persistence_entity_id` is not in src/; it gives
the persistence GUID the entity id passed. -/
def set_persistence_entity_id (persistence_guid : GUID_t) (entityId : EntityId_t) : GUID_t :=
  { persistence_guid with entityId := entityId }

/-- Source `PDPClient::removeRemoteEndpoints` (lines 307-379). -/
def removeRemoteEndpoints (s : PDPClient) (pdata : ParticipantProxyData) : PDPClient :=
  let loop := remove_server_proxies pdata.m_guid.guidPrefix s.m_DiscoveryServers
  let is_server := loop.2.1
  let s1 := { s with
              m_DiscoveryServers := loop.1
              sync_timer_restarts := s.sync_timer_restarts + loop.2.2 }
  if is_server then
    let endp := pdata.m_availableBuiltinEndpoints
    let s2 : PDPClient :=
      if endp &&& DISC_BUILTIN_ENDPOINT_PARTICIPANT_ANNOUNCER ≠ 0 then
        let wguid : GUID_t :=
          { guidPrefix := pdata.m_guid.guidPrefix, entityId := c_EntityId_SPDPWriter }
        let reader := (s1.mp_PDPReader.matched_writer_remove wguid).2
        -- rematch but discarding any previous state of the server
        let temp_writer_data_ : WriterProxyData :=
          { guid := wguid
            persistence_guid := set_persistence_entity_id pdata.persistence_guid
              c_EntityId_SPDPWriter
            manual_by_topic_liveliness := false }
        { s1 with mp_PDPReader := (reader.matched_writer_add temp_writer_data_).2 }
      else s1
    if endp &&& DISC_BUILTIN_ENDPOINT_PARTICIPANT_DETECTOR ≠ 0 then
      let rguid : GUID_t :=
        { guidPrefix := pdata.m_guid.guidPrefix, entityId := c_EntityId_SPDPReader }
      let writer := (s2.mp_PDPWriter.matched_reader_remove rguid).2
      let temp_reader_data_ : ReaderProxyData :=
        { guid := rguid, m_expectsInlineQos := false }
      { s2 with mp_PDPWriter := (writer.matched_reader_add temp_reader_data_).2 }
    else s2
  else s1

/-- Source `PDPClient::all_servers_acknowledge_PDP` (lines 381-399). -/
def all_servers_acknowledge_PDP (s : PDPClient) : Bool :=
  match get_min_change s.mp_PDPWriterHistory with
  | some pPD => s.mp_PDPWriter.is_acked_by_all pPD
  | none => false

/-- The loop of lines 471-480: the remote readers and locators of a dispose message. -/
def dispose_targets (servers : List RemoteServerAttributes) : List GUID_t × List Locator_t :=
  servers.foldl
    (fun (acc : List GUID_t × List Locator_t) svr =>
      -- if we are matched to a server report demise
      if svr.proxy ≠ none then
        (acc.1 ++ [svr.GetPDPReader], acc.2 ++ svr.metatrafficUnicastLocatorList)
      else acc)
    ([], [])

/-- The loop of lines 509-519: the remote readers and locators of a re-announcement. -/
def announcement_targets (servers : List RemoteServerAttributes) (serverPing : Bool) :
    List GUID_t × List Locator_t :=
  servers.foldl
    (fun (acc : List GUID_t × List Locator_t) svr =>
      if svr.proxy = none ∨ serverPing = false then
        (acc.1 ++ [svr.GetPDPReader],
         (acc.2 ++ svr.metatrafficMulticastLocatorList) ++ svr.metatrafficUnicastLocatorList)
      else acc)
    ([], [])

/-- Outcomes of the collaborators during one `announceParticipantState` call. -/
structure AnnounceEnv where
  /-- the payload size `mp_builtin->m_att.writerPayloadSize` -/
  writerPayloadSize : Nat
  /-- the call `pW->new_change(...)` returns a change -/
  new_change_ok : Bool

/-- Source `PDPClient::announceParticipantState` (lines 409-540). -/
def announceParticipantState (s : PDPClient) (new_change dispose : Bool) (env : AnnounceEnv) :
    PDPClient :=
  if dispose then
    if env.new_change_ok then
      let change : CacheChange_t :=
        { kind := ChangeKind_t.NOT_ALIVE_DISPOSED_UNREGISTERED, writerGUID := s.writer_guid,
          -- update the sequence number
          sequenceNumber := next_sequence_number s,
          serializedPayload := ⟨0, env.writerPayloadSize⟩, isRead := false,
          fragment_size := 0, fragment_count := 0, missing_fragments := [],
          instanceHandle := s.local_key }
      let targets := dispose_targets s.m_DiscoveryServers
      { s with sent := s.sent ++
          [{ change := change, remote_readers := targets.1, locators := targets.2 }] }
    else s
  else
    let s1 := PDP.announceParticipantState s new_change
    if !new_change then
      -- retrieve the participant discovery data
      match get_min_change s1.mp_PDPWriterHistory with
      | some pPD =>
        let targets := announcement_targets s1.m_DiscoveryServers s1._serverPing
        { s1 with
          sent := s1.sent ++
            [{ change := pPD, remote_readers := targets.1, locators := targets.2 }]
          -- ping done independently of which triggered the announcement
          _serverPing := false }
      | none => s1
    else s1

/-- Modelled from the spec: the constant `DISC_BUILTIN_ENDPOINT_PUBLICATION_ANNOUNCER` is not in
src/; this is the bit the RTPS standard gives it. -/
def DISC_BUILTIN_ENDPOINT_PUBLICATION_ANNOUNCER : Nat := 0x00000004

/-- Modelled from the spec: the constant `DISC_BUILTIN_ENDPOINT_PUBLICATION_DETECTOR` is not in
src/; this is the bit the RTPS standard gives it. -/
def DISC_BUILTIN_ENDPOINT_PUBLICATION_DETECTOR : Nat := 0x00000008

/-- Modelled from the spec: the constant `DISC_BUILTIN_ENDPOINT_SUBSCRIPTION_ANNOUNCER` is not in
src/; this is the bit the RTPS standard gives it. -/
def DISC_BUILTIN_ENDPOINT_SUBSCRIPTION_ANNOUNCER : Nat := 0x00000010

/-- Modelled from the spec: the constant `DISC_BUILTIN_ENDPOINT_SUBSCRIPTION_DETECTOR` is not in
src/; this is the bit the RTPS standard gives it. -/
def DISC_BUILTIN_ENDPOINT_SUBSCRIPTION_DETECTOR : Nat := 0x00000020

/-- Modelled from the spec: the enumeration `DiscoveryProtocol_t` is not in src/; the engine
compares the configured value with `CLIENT` and `SUPER_CLIENT`. -/
inductive DiscoveryProtocol_t
  | NONE | SIMPLE | EXTERNAL | CLIENT | SERVER | BACKUP | SUPER_CLIENT
deriving DecidableEq, Repr

/-- What `initializeParticipantProxyData` reads of
`getRTPSParticipant()->getAttributes().builtin.discovery_config`, and the two strings
`fastdds::dds::parameter_property_ds_version` and
`fastdds::dds::parameter_property_current_ds_version`, whose definitions are not in src/. -/
structure DiscoverySettings where
  discoveryProtocol : DiscoveryProtocol_t
  /-- Source `m_simpleEDP.use_PublicationWriterANDSubscriptionReader` -/
  use_PublicationWriterANDSubscriptionReader : Bool
  /-- Source `m_simpleEDP.use_PublicationReaderANDSubscriptionWriter` -/
  use_PublicationReaderANDSubscriptionWriter : Bool
  parameter_property_ds_version : String
  parameter_property_current_ds_version : String
deriving DecidableEq, Repr

/-- Source `PDPClient::initializeParticipantProxyData` (lines 67-117). `participant_data` is the
data as the call of the base class `PDP::initializeParticipantProxyData` at line 70 (its code
is not in src/) leaves it. The first component tells whether the `logError` of line 79 is
issued. -/
def initializeParticipantProxyData (cfg : DiscoverySettings)
    (participant_data : ParticipantProxyData) : Bool × ParticipantProxyData :=
  let logged : Bool :=
    decide (cfg.discoveryProtocol ≠ DiscoveryProtocol_t.CLIENT) &&
    decide (cfg.discoveryProtocol ≠ DiscoveryProtocol_t.SUPER_CLIENT)
  let d1 : ParticipantProxyData :=
    if cfg.use_PublicationWriterANDSubscriptionReader then
      { participant_data with
        m_availableBuiltinEndpoints :=
          (participant_data.m_availableBuiltinEndpoints |||
            DISC_BUILTIN_ENDPOINT_PUBLICATION_ANNOUNCER) |||
            DISC_BUILTIN_ENDPOINT_SUBSCRIPTION_DETECTOR }
    else participant_data
  let d2 : ParticipantProxyData :=
    if cfg.use_PublicationReaderANDSubscriptionWriter then
      { d1 with
        m_availableBuiltinEndpoints :=
          (d1.m_availableBuiltinEndpoints ||| DISC_BUILTIN_ENDPOINT_PUBLICATION_DETECTOR) |||
            DISC_BUILTIN_ENDPOINT_SUBSCRIPTION_ANNOUNCER }
    else d1
  -- Set discovery server version property
  (logged,
   { d2 with
     m_properties := d2.m_properties ++
       [(cfg.parameter_property_ds_version, cfg.parameter_property_current_ds_version)] })

/-- Modelled from the spec: `PDP::add_participant_proxy_data` is not in src/. The spec's `admit`
"inserts a new entry keyed on guid" or reports that it cannot; `ok` tells whether an entry is
obtained. The new entry carries the GUID and the flag, and its lease timer has not been
started. -/
def add_participant_proxy_data (participant_guid : GUID_t) (is_server : Bool) (ok : Bool) :
    Option ParticipantProxy :=
  if ok then
    some { data := { m_guid := participant_guid, m_key := 0, m_availableBuiltinEndpoints := 0,
                     persistence_guid := ⟨[], 0⟩, m_leaseDuration := 0, isAlive := false,
                     m_properties := [] }
           is_server := is_server
           lease_interval := none
           lease_timer_restarts := 0 }
  else none

/-- Source `PDPClient::createParticipantProxyData` (lines 147-179). `add_ok` tells whether
`add_participant_proxy_data` returns an entry; the entry returned is the one that sits in
the store after the call. -/
def createParticipantProxyData (s : PDPClient) (participant_data : ParticipantProxyData)
    (add_ok : Bool) : Option ParticipantProxy × PDPClient :=
  -- Verify if this participant is a server
  let is_server := s.m_DiscoveryServers.foldl
    (fun (is_server : Bool) svr =>
      if svr.guidPrefix = participant_data.m_guid.guidPrefix then true else is_server) false
  match add_participant_proxy_data participant_data.m_guid is_server add_ok with
  | some pdata =>
    let p1 := { pdata with data := { participant_data with isAlive := true } }
    let p2 : ParticipantProxy :=
      if is_server then
        { p1 with
          lease_interval := some p1.data.m_leaseDuration
          lease_timer_restarts := p1.lease_timer_restarts + 1 }
      else p1
    (some p2, { s with participant_proxies := s.participant_proxies ++ [p2] })
  | none => (none, s)

/-- Modelled from the spec: `EDP::areRemoteEndpointsMatched` is not in src/; it reports the
matching state of the EDP for a participant proxy. -/
def EDP.areRemoteEndpointsMatched (s : PDPClient) (pdata : ParticipantProxyData) : Bool :=
  s.edp_matched.contains pdata

/-- Source `PDPClient::match_servers_EDP_endpoints` (lines 542-564). The calls of
`mp_EDP->assignRemoteEndpoints` (its code is not in src/) are recorded in `edp_assigned`; the
answers of `areRemoteEndpointsMatched` are those of the EDP state at the call. -/
def match_servers_EDP_endpoints (s : PDPClient) : Bool × PDPClient :=
  let res := s.m_DiscoveryServers.foldl
    (fun (acc : Bool × List ParticipantProxyData) svr =>
      let all := acc.1 && decide (svr.proxy ≠ none)
      match svr.proxy with
      | some proxy =>
        if !EDP.areRemoteEndpointsMatched s proxy then (all, acc.2 ++ [proxy])
        else (all, acc.2)
      | none => (all, acc.2))
    (true, s.edp_assigned)
  (res.1, { s with edp_assigned := res.2 })

/-- The two mutexes that `announceParticipantState` takes: `mp_PDPWriter->getMutex()` and the
mutex of the engine, `*getMutex()`. -/
inductive Mutex
  | PDPWriter
  | PDP
deriving DecidableEq, Repr

/-- An acquisition or a release of a mutex; a `std::lock_guard` acquires where it is declared
and releases at the end of its block. -/
inductive LockEvent
  | lock (m : Mutex)
  | unlock (m : Mutex)
deriving DecidableEq, Repr

/-- Source `PDPClient::announceParticipantState` (lines 409-540), the statements that take a
mutex: `wlock` (line 421) for the whole body, and `lock` in the block of lines 467-481 and in
the block of lines 497-528, in the order in which an execution reaches them. What the
functions called do with mutexes (their code is not in src/) is not part of the list. -/
def announceParticipantState_locks (s : PDPClient) (new_change dispose : Bool)
    (env : AnnounceEnv) : List LockEvent :=
  let body : List LockEvent :=
    if dispose then
      if env.new_change_ok then
        -- temporary workaround
        [LockEvent.lock Mutex.PDP, LockEvent.unlock Mutex.PDP]
      else []
    else
      let s1 := PDP.announceParticipantState s new_change
      if !new_change then
        match get_min_change s1.mp_PDPWriterHistory with
        | some _ => [LockEvent.lock Mutex.PDP, LockEvent.unlock Mutex.PDP]
        | none => []
      else []
  [LockEvent.lock Mutex.PDPWriter] ++ body ++ [LockEvent.unlock Mutex.PDPWriter]

/-- Modelled from the spec: the constant `c_Guid_Unknown` is not in src/; a proxy data that has
been cleared carries no persistence GUID. -/
def c_Guid_Unknown : GUID_t := { guidPrefix := List.replicate 12 0, entityId := 0 }

/-- Source `PDPClient::match_pdp_writer_nts_` (lines 594-606). -/
def match_pdp_writer_nts_ (s : PDPClient) (server_att : RemoteServerAttributes) : PDPClient :=
  let temp_writer_data_ : WriterProxyData :=
    { guid := server_att.GetPDPWriter, persistence_guid := c_Guid_Unknown,
      manual_by_topic_liveliness := false }
  { s with mp_PDPReader := (s.mp_PDPReader.matched_writer_add temp_writer_data_).2 }

/-- Source `PDPClient::match_pdp_reader_nts_` (lines 608-620). -/
def match_pdp_reader_nts_ (s : PDPClient) (server_att : RemoteServerAttributes) : PDPClient :=
  let temp_reader_data_ : ReaderProxyData :=
    { guid := server_att.GetPDPReader, m_expectsInlineQos := false }
  { s with mp_PDPWriter := (s.mp_PDPWriter.matched_reader_add temp_reader_data_).2 }

/-- The body of the loop of `update_remote_servers_list` (lines 577-591) for the server `it`. -/
def update_remote_server (s : PDPClient) (it : RemoteServerAttributes) : PDPClient :=
  if s.mp_PDPReader.matched_writer_is_matched it.GetPDPWriter then s
  else
    let s1 := match_pdp_writer_nts_ s it
    if s1.mp_PDPWriter.matched_reader_is_matched it.GetPDPReader then s1
    else match_pdp_reader_nts_ s1 it

/-- Source `PDPClient::update_remote_servers_list` (lines 566-592). -/
def update_remote_servers_list (s : PDPClient) : PDPClient :=
  if !s.mp_PDPReader_created || !s.mp_PDPWriter_created then s
  else s.m_DiscoveryServers.foldl update_remote_server s

/-! ## Definitions used to state the properties -/

/-- Calling `matched_writer_add` for the same writer once per element of `envs`; the
results of the calls are returned in call order. -/
def matched_writer_add_times (r : StatelessReader) (wdata : WriterProxyData) :
    List MatchEnv → List Bool × StatelessReader
  | [] => ([], r)
  | env :: envs =>
    let res := matched_writer_add r wdata env
    let rest := matched_writer_add_times res.2 wdata envs
    (res.1 :: rest.1, rest.2)

/-- Number of entries of `matched_writers_` with the given GUID. -/
def matched_entries (r : StatelessReader) (guid : GUID_t) : Nat :=
  (r.matched_writers_.filter (fun w => decide (w.guid = guid))).length

/-- A reader with nothing matched, room for two writers, a listener and a WLP. -/
def sampleReader : StatelessReader :=
  { m_guid := ⟨[0], 1⟩, m_trustedWriterEntityId := 7,
    m_acceptMessagesFromUnkownWriters := true,
    matched_writers_ := [], matched_writers_max := 2,
    liveliness_lease_finite := true, has_wlp := true, has_listener := true,
    durability_volatile := true, history := [], last_notified := fun _ => 0,
    total_unread_ := 0, persistence_guids := [], listener_log := [],
    liveliness_log := [], datasharing_writers := [], datasharing_notifications := 0 }

/-- A reader whose matched-writers table holds one writer and has no room for another. -/
def fullReader : StatelessReader :=
  { sampleReader with
    m_acceptMessagesFromUnkownWriters := false
    matched_writers_ :=
      [{ guid := ⟨[2], 3⟩, persistence_guid := ⟨[], 0⟩,
         has_manual_topic_liveliness := false, is_datasharing := false,
         fragmented_change := none }]
    matched_writers_max := 1 }

/-- A writer GUID used in examples. -/
def sampleWriter : GUID_t := ⟨[1], 3⟩

/-- The proxy data of `sampleWriter`. -/
def sampleWriterData : WriterProxyData :=
  { guid := sampleWriter, persistence_guid := ⟨[], 0⟩, manual_by_topic_liveliness := false }

/-- A complete change of `sampleWriter` with the given sequence number. -/
def sampleChange (seq : SequenceNumber_t) : CacheChange_t :=
  { kind := ChangeKind_t.ALIVE, writerGUID := sampleWriter, sequenceNumber := seq,
    serializedPayload := ⟨10, 10⟩, isRead := false,
    fragment_size := 0, fragment_count := 0, missing_fragments := [] }

/-- Collaborators of `matched_writer_add` for a writer without data sharing. -/
def plainMatchEnv : MatchEnv :=
  { is_datasharing := false, is_same_process := false, add_datasharing_writer_ok := true }

/-- Collaborators of `processDataMsg` that all succeed. -/
def okDataEnv : DataEnv :=
  { reserve_cache_ok := true, datasharing_pool_ok := true, get_payload_ok := true,
    received_change_ok := true }

/-- One call on the reader, with the outcomes of its collaborators. -/
inductive ReaderOp
  | matched_writer_add (wdata : WriterProxyData) (env : MatchEnv)
  | processDataMsg (change : CacheChange_t) (env : DataEnv)
  | processDataFragMsg (incomingChange : CacheChange_t)
      (sampleSize fragmentStartingNum fragmentsInSubmessage : Nat) (env : FragEnv)

/-- The reader after one call. -/
def ReaderOp.apply (r : StatelessReader) : ReaderOp → StatelessReader
  | ReaderOp.matched_writer_add wdata env => (FastDDS.matched_writer_add r wdata env).2
  | ReaderOp.processDataMsg change env => (FastDDS.processDataMsg r change env).2
  | ReaderOp.processDataFragMsg change sampleSize start count env =>
    (FastDDS.processDataFragMsg r change sampleSize start count env).2

/-- The reader after a sequence of calls, first call first. -/
def runOps (r : StatelessReader) (ops : List ReaderOp) : StatelessReader :=
  ops.foldl ReaderOp.apply r

/-- Changes of one writer appear in strictly increasing sequence-number order. -/
def StrictlyIncreasingPerWriter (log : List CacheChange_t) : Prop :=
  log.Pairwise (fun a b => a.writerGUID = b.writerGUID → a.sequenceNumber < b.sequenceNumber)

/-- Every delivered change is covered by the last-notified record of its writer. -/
def DeliveredBelowRecord (log : List CacheChange_t) (last : GUID_t → SequenceNumber_t) : Prop :=
  ∀ c ∈ log, c.sequenceNumber ≤ last c.writerGUID

/-- Collaborators of `processDataFragMsg` that succeed, reserving `max_size` bytes. -/
def okFragEnv (max_size : Nat) : FragEnv :=
  { reserveCache := some max_size, received_change_ok := true }

/-- One DATA_FRAG submessage of a sample as passed to `processDataFragMsg`. -/
structure FragCall where
  incomingChange : CacheChange_t
  fragmentStartingNum : Nat
  fragmentsInSubmessage : Nat
  env : FragEnv

/-- The `processDataFragMsg` calls for the submessages `calls` of one sample of `sampleSize`
bytes, in the order given. -/
def fragOps (sampleSize : Nat) (calls : List FragCall) : List ReaderOp :=
  calls.map (fun c => ReaderOp.processDataFragMsg c.incomingChange sampleSize
    c.fragmentStartingNum c.fragmentsInSubmessage c.env)

/-- The fragment numbers carried by a list of submessages. -/
def fragments_of (calls : List FragCall) : List Nat :=
  calls.flatMap (fun c => List.range' c.fragmentStartingNum c.fragmentsInSubmessage)

/-- Number of fragments of a sample of `N` bytes with fragment size `F`. -/
def fragment_total (N F : Nat) : Nat := (N + F - 1) / F

/-- The fragments of a sample with `K` fragments still missing once those in `cov` arrived. -/
def still_missing (K : Nat) (cov : List Nat) : List Nat :=
  (List.range' 1 K).filter (fun k => decide (k ∉ cov))

/-- State of a writer's reassembly slot while the fragments `cov` of sample `(W, s)` of `N`
bytes in `K` fragments have been applied: before the first fragment the slot is empty or holds
an older sample; afterwards it holds the sample with exactly the other fragments missing. -/
def SlotReady (W : GUID_t) (s : SequenceNumber_t) (N K : Nat) (cov : List Nat)
    (slot : Option CacheChange_t) : Prop :=
  (cov = [] ∧ ∀ wc, slot = some wc → wc.sequenceNumber < s) ∨
  (∃ wc, slot = some wc ∧ wc.sequenceNumber = s ∧ wc.writerGUID = W ∧
    wc.serializedPayload.length = N ∧ wc.missing_fragments = still_missing K cov)

/-- A submessage of sample `(W, s)` with fragment size `F`, carrying at least one fragment,
processed while the pools can reserve at least `N` bytes and the history accepts. -/
def GoodFragCall (W : GUID_t) (s : SequenceNumber_t) (N F : Nat) (c : FragCall) : Prop :=
  c.incomingChange.writerGUID = W ∧ c.incomingChange.sequenceNumber = s ∧
  c.incomingChange.fragment_size = F ∧ 1 ≤ c.fragmentsInSubmessage ∧
  (∃ m, c.env.reserveCache = some m ∧ N ≤ m) ∧ c.env.received_change_ok = true

/-- The reader `r` is reassembling sample `(W, s)` after the fragments `cov`: W is matched,
its slot is as `SlotReady` says, and nothing has reached the history or the listener since
`r0`. -/
def Reassembling (r0 r : StatelessReader) (W : GUID_t) (s : SequenceNumber_t) (N K : Nat)
    (cov : List Nat) : Prop :=
  r.history = r0.history ∧ r.listener_log = r0.listener_log ∧
  r.last_notified = r0.last_notified ∧ r.total_unread_ = r0.total_unread_ ∧
  r.has_listener = r0.has_listener ∧
  ∃ w, r.matched_writers_.find? (fun writer => decide (writer.guid = W)) = some w ∧
    SlotReady W s N K cov w.fragmented_change

/-- The reader `sampleReader` after `sampleWriter` has been matched. -/
def matchedReader : StatelessReader :=
  { sampleReader with
    m_acceptMessagesFromUnkownWriters := false
    matched_writers_ :=
      [{ guid := sampleWriter, persistence_guid := ⟨[], 0⟩,
         has_manual_topic_liveliness := false, is_datasharing := false,
         fragmented_change := none }] }

/-- A DATA_FRAG submessage of `sampleWriter` carrying fragment `k` of a sample with the given
sequence number, fragment size and pool capacity. -/
def sampleFragCall (seq : SequenceNumber_t) (F k capacity : Nat) : FragCall :=
  { incomingChange :=
      { kind := ChangeKind_t.ALIVE, writerGUID := sampleWriter, sequenceNumber := seq,
        serializedPayload := ⟨F, F⟩, isRead := false,
        fragment_size := F, fragment_count := 0, missing_fragments := [] }
    fragmentStartingNum := k
    fragmentsInSubmessage := 1
    env := okFragEnv capacity }

/-- The reader `matchedReader` while fragment 2 of sample 9 (two fragments of 10 bytes) of
`sampleWriter` is still missing. -/
def busyReader : StatelessReader :=
  { sampleReader with
    m_acceptMessagesFromUnkownWriters := false
    matched_writers_ :=
      [{ guid := sampleWriter, persistence_guid := ⟨[], 0⟩,
         has_manual_topic_liveliness := false, is_datasharing := false,
         fragmented_change := some
           { kind := ChangeKind_t.ALIVE, writerGUID := sampleWriter, sequenceNumber := 9,
             serializedPayload := ⟨20, 20⟩, isRead := false,
             fragment_size := 10, fragment_count := 2, missing_fragments := [2] } }] }

/-- The list string made of the given slots separated by `;`. -/
def joinSlots : List (List Char) → List Char
  | [] => []
  | [slot] => slot
  | slot :: next :: rest => slot ++ ';' :: joinSlots (next :: rest)

/-- A dotted-quad IPv4 item `address[:port]` with a port in 1..65535. -/
def ValidItem (slot : List Char) : Prop :=
  ∃ address : List Char, isIPv4 address = true ∧
    (slot = address ∨
     ∃ port : List Char, slot = address ++ ':' :: port ∧ port ≠ [] ∧
       port.all Char.isDigit = true ∧ 1 ≤ digitsValue port ∧ digitsValue port ≤ 65535)

/-- The default GUID prefix template with octet index 2 equal to `i`. -/
def prefix_of_server (i : Nat) : GuidPrefix_t := DEFAULT_ROS2_SERVER_GUIDPREFIX.set 2 i

/-- The GUID prefixes expected from a list of slots: one per non-empty slot, in slot order,
numbered by the zero-based position of the slot. -/
def expected_prefixes (slots : List (List Char)) : List GuidPrefix_t :=
  (slots.enum.filter (fun p => decide (p.2 ≠ []))).map (fun p => prefix_of_server p.1)

/-- An environment without name resolution and with port 11811 as the default. -/
def sampleEnv : ServerListEnv :=
  { DEFAULT_ROS2_SERVER_PORT := 11811, resolveNameDNS := fun _ => [] }

/-- The text of a slot after its first `:`, empty when the slot has no `:`. -/
def slot_port_field (slot : List Char) : List Char :=
  match slot.dropWhile (fun c => decide (c ≠ ':')) with
  | ':' :: port => port
  | _ => []

/-- The port a slot asks for: the number after the `:` when the slot gives one, the default
discovery-server port when it gives none. -/
def slot_port (default_port : Nat) (slot : List Char) : Nat :=
  if slot_port_field slot = [] then default_port else digitsValue (slot_port_field slot)

/-- The text of a slot before its first `:`: the address the slot gives. -/
def slot_address (slot : List Char) : List Char :=
  slot.takeWhile (fun c => decide (c ≠ ':'))

/-- The address octets of the loopback address `127.0.0.1` in a locator. -/
def loopback_address : List Nat := List.replicate 12 0 ++ [127, 0, 0, 1]

/-- A multicast locator used in examples. -/
def sampleMulticast : Locator_t :=
  { kind := LOCATOR_KIND_UDPv4, port := 7400, address := List.replicate 12 0 ++ [239, 255, 0, 1] }

/-- A unicast locator used in examples. -/
def sampleUnicast : Locator_t :=
  { kind := LOCATOR_KIND_UDPv4, port := 11811, address := List.replicate 12 0 ++ [1, 2, 3, 4] }

/-- The proxy data of the server with id 0, advertising the given builtin endpoints. -/
def sampleServerProxy (endpoints : Nat) : ParticipantProxyData :=
  { m_guid := { guidPrefix := prefix_of_server 0, entityId := c_EntityId_RTPSParticipant }
    m_key := 5
    m_availableBuiltinEndpoints := endpoints
    persistence_guid := { guidPrefix := [9], entityId := c_EntityId_RTPSParticipant }
    m_leaseDuration := 20
    isAlive := true
    m_properties := [] }

/-- The server with id 0, with one multicast and one unicast locator. -/
def sampleServer (proxy : Option ParticipantProxyData) : RemoteServerAttributes :=
  { guidPrefix := prefix_of_server 0
    metatrafficUnicastLocatorList := [sampleUnicast]
    metatrafficMulticastLocatorList := [sampleMulticast]
    proxy := proxy }

/-- A client configured with `servers`, with the given `_serverPing` and writer history, whose
PDP Reader is matched with the SPDP writer of server 0 and whose PDP Writer is matched with
its SPDP reader. -/
def sampleClient (servers : List RemoteServerAttributes) (serverPing : Bool)
    (history : List CacheChange_t) : PDPClient :=
  { m_DiscoveryServers := servers
    _serverPing := serverPing
    sync_timer_restarts := 0
    mp_PDPWriterHistory := history
    m_lastCacheChangeSeqNum := 1
    mp_PDPReader :=
      { matched_writers :=
          [{ guid := (sampleServer none).GetPDPWriter, persistence_guid := ⟨[], 0⟩,
             manual_by_topic_liveliness := false }]
        matched_writers_max := 4
        calls := [] }
    mp_PDPWriter :=
      { matched_readers :=
          [{ guid := (sampleServer none).GetPDPReader, m_expectsInlineQos := false }]
        matched_readers_max := 4
        acked_by_all := fun _ => true
        calls := [] }
    writer_guid := { guidPrefix := [7], entityId := c_EntityId_SPDPWriter }
    local_key := 42
    has_WLP := true
    wlp_assigned := []
    sent := [] }

/-- The local participant data as it sits in the writer history of a client. -/
def sampleData : CacheChange_t :=
  { kind := ChangeKind_t.ALIVE
    writerGUID := { guidPrefix := [7], entityId := c_EntityId_SPDPWriter }
    sequenceNumber := 1, serializedPayload := ⟨100, 100⟩, isRead := false
    fragment_size := 0, fragment_count := 0, missing_fragments := [], instanceHandle := 42 }

/-- Collaborators of `announceParticipantState` with a writer that can allocate a change. -/
def okAnnounceEnv : AnnounceEnv := { writerPayloadSize := 100, new_change_ok := true }

/-- One call on the reader, `matched_writer_remove` included. -/
inductive ReaderCall
  | op (o : ReaderOp)
  | matched_writer_remove (writer_guid : GUID_t) (removed_by_lease : Bool)

/-- The reader after one call. -/
def ReaderCall.apply (r : StatelessReader) : ReaderCall → StatelessReader
  | ReaderCall.op o => ReaderOp.apply r o
  | ReaderCall.matched_writer_remove writer_guid removed_by_lease =>
    (FastDDS.matched_writer_remove r writer_guid removed_by_lease).2

/-- The reader after a sequence of calls, first call first. -/
def runCalls (r : StatelessReader) (calls : List ReaderCall) : StatelessReader :=
  calls.foldl ReaderCall.apply r

/-- Collaborators of `matched_writer_add` for a data-sharing writer whose registration with
the listener succeeds. -/
def sharingMatchEnv : MatchEnv :=
  { is_datasharing := true, is_same_process := false, add_datasharing_writer_ok := true }

/-- Settings of a client that uses both pairs of EDP endpoints. -/
def sampleSettings : DiscoverySettings :=
  { discoveryProtocol := DiscoveryProtocol_t.CLIENT
    use_PublicationWriterANDSubscriptionReader := true
    use_PublicationReaderANDSubscriptionWriter := true
    parameter_property_ds_version := "DS_VERSION"
    parameter_property_current_ds_version := "2.0" }

/-- One call on the server list of the engine. -/
inductive ServerListOp
  | assignRemoteEndpoints (pdata : ParticipantProxyData)
  | removeRemoteEndpoints (pdata : ParticipantProxyData)

/-- The engine after one call. -/
def ServerListOp.apply (s : PDPClient) : ServerListOp → PDPClient
  | ServerListOp.assignRemoteEndpoints pdata => FastDDS.assignRemoteEndpoints s pdata
  | ServerListOp.removeRemoteEndpoints pdata => FastDDS.removeRemoteEndpoints s pdata

/-- The engine after a sequence of calls, first call first. -/
def runServerListOps (s : PDPClient) (ops : List ServerListOp) : PDPClient :=
  ops.foldl ServerListOp.apply s

/-- Every non-null proxy field points at a proxy with the GUID prefix of its server. -/
def ProxiesOfOwnServer (servers : List RemoteServerAttributes) : Prop :=
  ∀ svr ∈ servers, ∀ proxy, svr.proxy = some proxy →
    proxy.m_guid.guidPrefix = svr.guidPrefix

/-- The proxy data of a participant that is no server: a client with GUID prefix `[8]`. -/
def sampleClientProxy : ParticipantProxyData :=
  { m_guid := { guidPrefix := [8], entityId := c_EntityId_RTPSParticipant }
    m_key := 6
    m_availableBuiltinEndpoints := 0
    persistence_guid := { guidPrefix := [], entityId := 0 }
    m_leaseDuration := 30
    isAlive := false
    m_properties := [] }

/-- The pending change `wc` after lines 506-509 have given its buffer to the incoming sample. -/
def reused_change (wc incomingChange : CacheChange_t) (sampleSize : Nat) : CacheChange_t :=
  setFragmentSize
    { copy_not_memcpy wc incomingChange with
      serializedPayload :=
        { (copy_not_memcpy wc incomingChange).serializedPayload with length := sampleSize } }
    incomingChange.fragment_size true

/-- The reader `matchedReader` after fragment 1 of sample 9 (two fragments of 10 bytes) of
`sampleWriter` and then the complete sample 10 have been received: sample 9 is still under
reassembly and sequence number 10 is the last notified one. -/
def overtakenReader : StatelessReader :=
  runOps matchedReader
    [ReaderOp.processDataFragMsg (sampleFragCall 9 10 1 20).incomingChange 20 1 1 (okFragEnv 20),
     ReaderOp.processDataMsg (sampleChange 10) okDataEnv]

/-- One of the calls that touch the unread counter: a change handed to `change_received`
with the answer of the history, an end of access to the change at a position of the history,
or the removal of the change at a position of the history. -/
inductive UnreadOp
  | change_received (change : CacheChange_t) (received_change_ok : Bool)
  | end_sample_access_nts (index : Nat) (mark_as_read : Bool)
  | remove_change (index : Nat)

/-- The reader after one call. -/
def UnreadOp.apply (r : StatelessReader) : UnreadOp → StatelessReader
  | UnreadOp.change_received change ok => (FastDDS.change_received r change ok).2
  | UnreadOp.end_sample_access_nts index mark_as_read =>
    FastDDS.end_sample_access_nts r index mark_as_read
  | UnreadOp.remove_change index => FastDDS.remove_change r index

/-- The reader after a sequence of calls, first call first. -/
def runUnreadOps (r : StatelessReader) (ops : List UnreadOp) : StatelessReader :=
  ops.foldl UnreadOp.apply r

/-- The changes handed to `change_received` are unread, as the message receiver builds them. -/
def ReceivedUnread (ops : List UnreadOp) : Prop :=
  ∀ change ok, UnreadOp.change_received change ok ∈ ops → change.isRead = false

/-- Number of changes in the history whose isRead flag is false. -/
def unread_in_history (r : StatelessReader) : Nat :=
  r.history.countP (fun c => !c.isRead)

/-- The lock order along a list of lock events, for a thread that holds `held` at its start:
the engine mutex is acquired only while the PDP Writer mutex is held, and the PDP Writer mutex
is acquired only while the engine mutex is not held. -/
def lock_order_kept : List Mutex → List LockEvent → Bool
  | _, [] => true
  | held, LockEvent.lock Mutex.PDP :: rest =>
    decide (Mutex.PDPWriter ∈ held) && lock_order_kept (Mutex.PDP :: held) rest
  | held, LockEvent.lock Mutex.PDPWriter :: rest =>
    decide (Mutex.PDP ∉ held) && lock_order_kept (Mutex.PDPWriter :: held) rest
  | held, LockEvent.unlock m :: rest => lock_order_kept (held.erase m) rest

/-- The matching calls that `update_remote_servers_list` makes to the PDP Reader for the
servers `servers`. -/
def writer_matching_calls (servers : List RemoteServerAttributes) : List PDPReaderCall :=
  servers.map (fun it => PDPReaderCall.matched_writer_add
    { guid := it.GetPDPWriter, persistence_guid := c_Guid_Unknown,
      manual_by_topic_liveliness := false })

/-- The matching calls that `update_remote_servers_list` makes to the PDP Writer for the
servers `servers`. -/
def reader_matching_calls (servers : List RemoteServerAttributes) : List PDPWriterCall :=
  servers.map (fun it => PDPWriterCall.matched_reader_add
    { guid := it.GetPDPReader, m_expectsInlineQos := false })

/-! ## Properties -/

/-! ### Matching -/

theorem matched_writer_add_of_matched (r : StatelessReader) (wdata : WriterProxyData)
    (env : MatchEnv)
    (h : r.matched_writers_.any (fun writer => decide (writer.guid = wdata.guid)) = true) :
    matched_writer_add r wdata env = (false, r) := by
  simp [matched_writer_add, h]

theorem matched_writer_add_times_of_matched (wdata : WriterProxyData) (envs : List MatchEnv) :
    ∀ r : StatelessReader,
      r.matched_writers_.any (fun writer => decide (writer.guid = wdata.guid)) = true →
      matched_writer_add_times r wdata envs = (List.replicate envs.length false, r) := by
  induction envs with
  | nil => intro r _; rfl
  | cons env envs ih =>
    intro r h
    simp only [matched_writer_add_times, matched_writer_add_of_matched r wdata env h, ih r h,
      List.length_cons, List.replicate_succ]

theorem filter_guid_eq_nil_of_any_false (ws : List RemoteWriterInfo_t) (g : GUID_t)
    (h : ws.any (fun writer => decide (writer.guid = g)) = false) :
    ws.filter (fun w => decide (w.guid = g)) = [] := by
  induction ws with
  | nil => rfl
  | cons w ws ih =>
    simp only [List.any_cons, Bool.or_eq_false_iff] at h
    simp [List.filter_cons, h.1, ih h.2]

/-- The first call for an unmatched writer, with room in the table and a data-sharing
registration that does not fail, appends one entry and returns `true`. -/
theorem matched_writer_add_fresh (r : StatelessReader) (wdata : WriterProxyData)
    (env : MatchEnv)
    (hnew : r.matched_writers_.any (fun writer => decide (writer.guid = wdata.guid)) = false)
    (hroom : r.matched_writers_.length < r.matched_writers_max)
    (hds : env.is_datasharing = true → env.add_datasharing_writer_ok = true) :
    (matched_writer_add r wdata env).1 = true ∧
    (matched_writer_add r wdata env).2.matched_writers_ =
      r.matched_writers_ ++
        [{ guid := wdata.guid, persistence_guid := wdata.persistence_guid,
           has_manual_topic_liveliness := wdata.manual_by_topic_liveliness,
           is_datasharing := env.is_datasharing, fragmented_change := none }] := by
  have hroom2 : ¬ r.matched_writers_max ≤ r.matched_writers_.length := Nat.not_le.mpr hroom
  cases hd : env.is_datasharing with
  | false =>
    simp [matched_writer_add, hnew, hd, hroom2, liveliness_call, add_persistence_guid]
    split <;> (try split) <;> simp
  | true =>
    have hok := hds hd
    simp [matched_writer_add, hnew, hd, hok, hroom2, liveliness_call, add_persistence_guid]
    split <;> (try split) <;> (try split) <;> simp

/-- C2 (as amended): for a writer W that is not yet matched, when the matched-writers table
has a free slot and the data-sharing registration (if W is data-sharing compatible) does not
fail on the first call, calling `matched_writer_add(W)` N >= 1 times leaves exactly one entry
for W in `matched_writers_` and exactly N-1 of the calls return false. -/
theorem matched_writer_add_idempotent (r : StatelessReader) (wdata : WriterProxyData)
    (env : MatchEnv) (envs : List MatchEnv)
    (hnew : r.matched_writers_.any (fun writer => decide (writer.guid = wdata.guid)) = false)
    (hroom : r.matched_writers_.length < r.matched_writers_max)
    (hds : env.is_datasharing = true → env.add_datasharing_writer_ok = true) :
    matched_entries (matched_writer_add_times r wdata (env :: envs)).2 wdata.guid = 1 ∧
    (matched_writer_add_times r wdata (env :: envs)).1.count false
      = (env :: envs).length - 1 := by
  obtain ⟨h1, h2⟩ := matched_writer_add_fresh r wdata env hnew hroom hds
  have hm : (matched_writer_add r wdata env).2.matched_writers_.any
      (fun writer => decide (writer.guid = wdata.guid)) = true := by
    rw [h2]; simp
  have hrest := matched_writer_add_times_of_matched wdata envs _ hm
  simp only [matched_writer_add_times, hrest, h1, matched_entries, h2, List.filter_append,
    filter_guid_eq_nil_of_any_false _ _ hnew]
  simp

/-- Witness of `matched_writer_add_idempotent`: three calls on a reader with room. -/
theorem matched_writer_add_idempotent_witness :
    matched_entries (matched_writer_add_times sampleReader sampleWriterData
      [plainMatchEnv, plainMatchEnv, plainMatchEnv]).2 sampleWriterData.guid = 1 ∧
    (matched_writer_add_times sampleReader sampleWriterData
      [plainMatchEnv, plainMatchEnv, plainMatchEnv]).1.count false = 3 - 1 :=
  matched_writer_add_idempotent sampleReader sampleWriterData plainMatchEnv
    [plainMatchEnv, plainMatchEnv] (by decide) (by decide) (by decide)

/-- C2 (counterexample): on a reader whose matched-writers table is full (one writer matched,
capacity one), two calls of `matched_writer_add(W)` for another writer both return false and
leave no entry for W: neither "exactly one entry" nor "exactly N-1 = 1 false results" holds. -/
theorem matched_writer_add_full_table :
    matched_entries (matched_writer_add_times fullReader sampleWriterData
        [plainMatchEnv, plainMatchEnv]).2 sampleWriterData.guid = 0 ∧
    (matched_writer_add_times fullReader sampleWriterData
        [plainMatchEnv, plainMatchEnv]).1 = [false, false] := by
  decide

/-! ### Un-matching -/

theorem history_remove_where_fst (p : CacheChange_t → Bool) (cs : List CacheChange_t) :
    ∀ n : Nat, (history_remove_where p cs n).1 = cs.filter (fun c => !p c) := by
  induction cs with
  | nil => intro n; rfl
  | cons c cs ih =>
    intro n
    cases hp : p c <;> simp [history_remove_where, hp, ih]

theorem matched_writer_remove_loop_liveliness (r : StatelessReader) (g : GUID_t) (rbl : Bool)
    (rest : List RemoteWriterInfo_t) :
    ∀ before : List RemoteWriterInfo_t,
      (matched_writer_remove_loop r g rbl before rest).2.liveliness_log = r.liveliness_log := by
  induction rest with
  | nil => intro before; rfl
  | cons it rest ih =>
    intro before
    by_cases hg : it.guid = g
    · simp only [matched_writer_remove_loop, hg, if_true]
      split <;> simp [remove_persistence_guid, remove_changes_from]
    · simp only [matched_writer_remove_loop, hg, if_false]
      exact ih _

theorem matched_writer_remove_loop_history (r : StatelessReader) (g : GUID_t) (rbl : Bool)
    (rest : List RemoteWriterInfo_t) :
    ∀ before : List RemoteWriterInfo_t,
      (matched_writer_remove_loop r g rbl before rest).2.history = r.history ∨
      (matched_writer_remove_loop r g rbl before rest).2.history
        = r.history.filter (fun c => !decide (c.writerGUID = g)) := by
  induction rest with
  | nil => intro before; exact Or.inl rfl
  | cons it rest ih =>
    intro before
    by_cases hg : it.guid = g
    · simp only [matched_writer_remove_loop, hg, if_true]
      split
      · right
        simp [remove_persistence_guid, remove_changes_from, history_remove_where_fst]
      · left
        simp [remove_persistence_guid]
    · simp only [matched_writer_remove_loop, hg, if_false]
      exact ih _

/-- C3: after `matched_writer_remove(W, removed_by_lease)` the history holds no change whose
writerGUID is W, and the liveliness manager has received exactly one more call,
`remove_writer(W)`, when the lease duration is finite and a WLP exists (and no call
otherwise). -/
theorem matched_writer_remove_cleans (r : StatelessReader) (g : GUID_t) (rbl : Bool) :
    (∀ c ∈ (matched_writer_remove r g rbl).2.history, c.writerGUID ≠ g) ∧
    (matched_writer_remove r g rbl).2.liveliness_log =
      r.liveliness_log ++
        (if r.liveliness_lease_finite && r.has_wlp then [LivelinessCall.remove_writer g]
         else []) := by
  have hh : (liveliness_call (remove_changes_with_guid r g)
      (LivelinessCall.remove_writer g)).history
      = r.history.filter (fun c => !decide (c.writerGUID = g)) := by
    simp only [liveliness_call, remove_changes_with_guid]
    split <;> (try split) <;> simp [history_remove_where_fst]
  constructor
  · intro c hc
    unfold matched_writer_remove at hc
    simp only at hc
    rcases matched_writer_remove_loop_history
      (liveliness_call (remove_changes_with_guid r g) (LivelinessCall.remove_writer g))
      g rbl _ [] with h | h
    · rw [h, hh] at hc
      simpa using (List.mem_filter.mp hc).2
    · rw [h, hh] at hc
      simpa using (List.mem_filter.mp (List.mem_filter.mp hc).1).2
  · unfold matched_writer_remove
    simp only
    rw [matched_writer_remove_loop_liveliness]
    simp only [liveliness_call, remove_changes_with_guid]
    cases r.liveliness_lease_finite <;> cases r.has_wlp <;> simp

/-! ### Admission -/

/-- C4 (as amended): `acceptMsgFrom(writer, kind)` returns true if and only if
(kind is ALIVE and (the accept-from-unknown-writers flag is true or the writer's entity id
equals the trusted writer entity id)) or the writer GUID is present in `matched_writers_`. -/
theorem acceptMsgFrom_iff (r : StatelessReader) (writerId : GUID_t) (kind : ChangeKind_t) :
    acceptMsgFrom r writerId kind = true ↔
      (kind = ChangeKind_t.ALIVE ∧
        (r.m_acceptMessagesFromUnkownWriters = true ∨
         writerId.entityId = r.m_trustedWriterEntityId)) ∨
      (∃ w ∈ r.matched_writers_, w.guid = writerId) := by
  unfold acceptMsgFrom
  by_cases hk : kind = ChangeKind_t.ALIVE
  · by_cases ha : r.m_acceptMessagesFromUnkownWriters = true
    · simp [hk, ha]
    · by_cases ht : writerId.entityId = r.m_trustedWriterEntityId
      · simp [hk, ht]
      · simp [hk, ha, ht]
  · simp [hk]

/-- C4 (counterexample): a NOT_ALIVE_DISPOSED change of an unmatched writer that carries the
trusted entity id is refused, although alternative (b) of the claim holds. -/
theorem acceptMsgFrom_trusted_not_alive :
    ¬ (acceptMsgFrom sampleReader ⟨[1], 7⟩ ChangeKind_t.NOT_ALIVE_DISPOSED = true ↔
        ((ChangeKind_t.NOT_ALIVE_DISPOSED = ChangeKind_t.ALIVE ∧
            sampleReader.m_acceptMessagesFromUnkownWriters = true) ∨
         (⟨[1], 7⟩ : GUID_t).entityId = sampleReader.m_trustedWriterEntityId ∨
         (∃ w ∈ sampleReader.matched_writers_, w.guid = ⟨[1], 7⟩))) := by
  decide

/-! ### Ingestion of complete samples -/

theorem change_received_stale (r : StatelessReader) (c : CacheChange_t) (ok : Bool)
    (h : c.sequenceNumber ≤ r.last_notified c.writerGUID) :
    change_received r c ok = (false, r) := by
  simp [change_received, thereIsUpperRecordOf, get_last_notified, h]

theorem change_received_refused (r : StatelessReader) (c : CacheChange_t) :
    change_received r c false = (false, r) := by
  simp [change_received]

theorem change_received_fresh (r : StatelessReader) (c : CacheChange_t)
    (h : r.last_notified c.writerGUID < c.sequenceNumber) :
    (change_received r c true).1 = true ∧
    (change_received r c true).2.history = r.history ++ [c] ∧
    (change_received r c true).2.last_notified
      = (fun g => if g = c.writerGUID then c.sequenceNumber else r.last_notified g) ∧
    (change_received r c true).2.total_unread_ = r.total_unread_ + 1 ∧
    (change_received r c true).2.listener_log
      = r.listener_log ++ (if r.has_listener then [c] else []) ∧
    (change_received r c true).2.matched_writers_ = r.matched_writers_ ∧
    (change_received r c true).2.liveliness_log = r.liveliness_log := by
  have h2 : ¬ c.sequenceNumber ≤ r.last_notified c.writerGUID := not_le.mpr h
  cases hl : r.has_listener <;>
    simp [change_received, thereIsUpperRecordOf, get_last_notified, h2, update_last_notified, hl]

theorem liveliness_call_fields (r : StatelessReader) (call : LivelinessCall) :
    (liveliness_call r call).history = r.history ∧
    (liveliness_call r call).last_notified = r.last_notified ∧
    (liveliness_call r call).total_unread_ = r.total_unread_ ∧
    (liveliness_call r call).listener_log = r.listener_log ∧
    (liveliness_call r call).matched_writers_ = r.matched_writers_ ∧
    (liveliness_call r call).has_listener = r.has_listener := by
  unfold liveliness_call
  split <;> (try split) <;> simp

/-- The change that `processDataMsg` hands to `change_received`: the metadata and the payload
of the received change. -/
theorem processDataMsg_cases (r : StatelessReader) (c : CacheChange_t) (env : DataEnv)
    (hacc : acceptMsgFrom r c.writerGUID c.kind = true)
    (hres : env.reserve_cache_ok = true)
    (hpay : (if r.matched_writers_.any
                (fun writer => decide (writer.guid = c.writerGUID) && writer.is_datasharing)
             then env.datasharing_pool_ok else env.get_payload_ok) = true) :
    ∃ c2 : CacheChange_t,
      c2.writerGUID = c.writerGUID ∧ c2.sequenceNumber = c.sequenceNumber ∧
      c2.kind = c.kind ∧ c2.serializedPayload = c.serializedPayload ∧
      processDataMsg r c env =
        (if !(change_received r c2 env.received_change_ok).1 then
          (false, (change_received r c2 env.received_change_ok).2)
         else (true, assert_writer_liveliness
            (change_received r c2 env.received_change_ok).2 c.writerGUID)) := by
  refine ⟨reserved_copy c, rfl, rfl, rfl, rfl, ?_⟩
  unfold processDataMsg
  simp only [hacc, hres, if_true, Bool.not_true]
  cases hds : r.matched_writers_.any
      (fun writer => decide (writer.guid = c.writerGUID) && writer.is_datasharing)
  · simp only [hds, Bool.false_eq_true, if_false] at hpay
    simp only [hpay, Bool.false_and, Bool.not_false, Bool.true_and, Bool.not_true,
      Bool.false_eq_true, if_false]
  · simp only [hds, if_true] at hpay
    simp only [hpay, Bool.true_and, Bool.not_true, Bool.false_and,
      Bool.false_eq_true, if_false]

/-- C6: for an accepted change `c` given to `processDataMsg` while the cache reservation and
the payload copy succeed: (1) when `c.sequenceNumber <= last_notified[c.writerGUID]` the
history, `last_notified`, the unread counter and the listener record are unchanged;
(2) the history changes only if `c.sequenceNumber > last_notified[c.writerGUID]`, and then
it gains exactly one change carrying c's writer, sequence number and payload,
`last_notified[c.writerGUID]` becomes `c.sequenceNumber`, the unread counter grows by one and
the listener (when there is one) is notified once with that change; (3) a fresh change that
the history accepts is inserted. -/
theorem processDataMsg_ingests (r : StatelessReader) (c : CacheChange_t) (env : DataEnv)
    (hacc : acceptMsgFrom r c.writerGUID c.kind = true)
    (hres : env.reserve_cache_ok = true)
    (hpay : (if r.matched_writers_.any
                (fun writer => decide (writer.guid = c.writerGUID) && writer.is_datasharing)
             then env.datasharing_pool_ok else env.get_payload_ok) = true) :
    (c.sequenceNumber ≤ r.last_notified c.writerGUID →
      (processDataMsg r c env).2.history = r.history ∧
      (processDataMsg r c env).2.last_notified = r.last_notified ∧
      (processDataMsg r c env).2.total_unread_ = r.total_unread_ ∧
      (processDataMsg r c env).2.listener_log = r.listener_log) ∧
    ((processDataMsg r c env).2.history ≠ r.history →
      r.last_notified c.writerGUID < c.sequenceNumber ∧
      ∃ c2 : CacheChange_t,
        c2.writerGUID = c.writerGUID ∧ c2.sequenceNumber = c.sequenceNumber ∧
        c2.serializedPayload = c.serializedPayload ∧
        (processDataMsg r c env).2.history = r.history ++ [c2] ∧
        (processDataMsg r c env).2.last_notified c.writerGUID = c.sequenceNumber ∧
        (∀ g : GUID_t, g ≠ c.writerGUID →
          (processDataMsg r c env).2.last_notified g = r.last_notified g) ∧
        (processDataMsg r c env).2.total_unread_ = r.total_unread_ + 1 ∧
        (processDataMsg r c env).2.listener_log
          = r.listener_log ++ (if r.has_listener then [c2] else [])) ∧
    (r.last_notified c.writerGUID < c.sequenceNumber → env.received_change_ok = true →
      (processDataMsg r c env).1 = true ∧
      (processDataMsg r c env).2.history ≠ r.history) := by
  obtain ⟨c2, hw, hs, _, hp, heq⟩ := processDataMsg_cases r c env hacc hres hpay
  have fresh_facts : r.last_notified c.writerGUID < c.sequenceNumber →
      env.received_change_ok = true →
      (processDataMsg r c env).1 = true ∧
      (processDataMsg r c env).2.history = r.history ++ [c2] ∧
      (processDataMsg r c env).2.last_notified
        = (fun g => if g = c.writerGUID then c.sequenceNumber else r.last_notified g) ∧
      (processDataMsg r c env).2.total_unread_ = r.total_unread_ + 1 ∧
      (processDataMsg r c env).2.listener_log
        = r.listener_log ++ (if r.has_listener then [c2] else []) := by
    intro hlt hok
    have hlt2 : r.last_notified c2.writerGUID < c2.sequenceNumber := by rw [hw, hs]; exact hlt
    obtain ⟨f1, f2, f3, f4, f5, _, _⟩ := change_received_fresh r c2 hlt2
    rw [heq, hok]
    simp only [f1, Bool.not_true, Bool.false_eq_true, if_false, assert_writer_liveliness]
    obtain ⟨l1, l2, l3, l4, _, _⟩ := liveliness_call_fields (change_received r c2 true).2
      (LivelinessCall.assert_liveliness c.writerGUID)
    rw [l1, l2, l3, l4, f2, f3, f4, f5, hw, hs]
    exact ⟨trivial, rfl, rfl, rfl, rfl⟩
  have stale_facts : (c.sequenceNumber ≤ r.last_notified c.writerGUID ∨
      env.received_change_ok = false) → processDataMsg r c env = (false, r) := by
    intro h
    rcases h with h | h
    · have h2 : c2.sequenceNumber ≤ r.last_notified c2.writerGUID := by rw [hw, hs]; exact h
      rw [heq, change_received_stale r c2 _ h2]; simp
    · rw [heq, h, change_received_refused]; simp
  refine ⟨?_, ?_, ?_⟩
  · intro h
    rw [stale_facts (Or.inl h)]
    exact ⟨rfl, rfl, rfl, rfl⟩
  · intro hne
    have hlt : r.last_notified c.writerGUID < c.sequenceNumber := by
      by_contra hcon
      exact hne (by rw [stale_facts (Or.inl (not_lt.mp hcon))])
    have hok : env.received_change_ok = true := by
      cases hb : env.received_change_ok
      · exact absurd (by rw [stale_facts (Or.inr hb)]) hne
      · rfl
    obtain ⟨_, g2, g3, g4, g5⟩ := fresh_facts hlt hok
    refine ⟨hlt, c2, hw, hs, hp, g2, ?_, ?_, g4, g5⟩
    · rw [g3]; simp
    · intro g hg; rw [g3]; simp [hg]
  · intro hlt hok
    obtain ⟨g1, g2, _⟩ := fresh_facts hlt hok
    refine ⟨g1, ?_⟩
    rw [g2]; simp

/-- Witness of `processDataMsg_ingests`: sequence number 1 from an unknown writer on a fresh
reader that accepts unknown writers. -/
theorem processDataMsg_ingests_witness :
    (processDataMsg sampleReader (sampleChange 1) okDataEnv).1 = true ∧
    (processDataMsg sampleReader (sampleChange 1) okDataEnv).2.history ≠ sampleReader.history :=
  (processDataMsg_ingests sampleReader (sampleChange 1) okDataEnv
    (by decide) (by decide) (by decide)).2.2 (by decide) (by decide)

/-! ### Order of delivery -/

theorem matched_writer_add_delivery (r : StatelessReader) (wdata : WriterProxyData)
    (env : MatchEnv) :
    (matched_writer_add r wdata env).2.listener_log = r.listener_log ∧
    (matched_writer_add r wdata env).2.last_notified = r.last_notified := by
  unfold matched_writer_add
  simp only [liveliness_call, add_persistence_guid]
  repeat' split
  all_goals exact ⟨rfl, rfl⟩

theorem change_received_keeps_order (r : StatelessReader) (c : CacheChange_t) (ok : Bool)
    (h1 : StrictlyIncreasingPerWriter r.listener_log)
    (h2 : DeliveredBelowRecord r.listener_log r.last_notified) :
    StrictlyIncreasingPerWriter (change_received r c ok).2.listener_log ∧
    DeliveredBelowRecord (change_received r c ok).2.listener_log
      (change_received r c ok).2.last_notified := by
  by_cases hs : c.sequenceNumber ≤ r.last_notified c.writerGUID
  · rw [change_received_stale r c ok hs]; exact ⟨h1, h2⟩
  · cases ok with
    | false => rw [change_received_refused]; exact ⟨h1, h2⟩
    | true =>
      have hlt : r.last_notified c.writerGUID < c.sequenceNumber := not_le.mp hs
      obtain ⟨_, _, f3, _, f5, _, _⟩ := change_received_fresh r c hlt
      rw [f3, f5]
      have hbelow : ∀ a ∈ r.listener_log,
          a.sequenceNumber ≤ (if a.writerGUID = c.writerGUID then c.sequenceNumber
            else r.last_notified a.writerGUID) := by
        intro a ha
        by_cases hg : a.writerGUID = c.writerGUID
        · rw [if_pos hg]
          have := h2 a ha
          rw [hg] at this
          exact le_of_lt (lt_of_le_of_lt this hlt)
        · rw [if_neg hg]; exact h2 a ha
      cases r.has_listener with
      | false =>
        simp only [Bool.false_eq_true, if_false, List.append_nil]
        exact ⟨h1, hbelow⟩
      | true =>
        simp only [if_true]
        constructor
        · unfold StrictlyIncreasingPerWriter
          rw [List.pairwise_append]
          refine ⟨h1, List.pairwise_singleton _ _, ?_⟩
          intro a ha b hb hab
          rw [List.mem_singleton] at hb
          subst hb
          have := h2 a ha
          rw [hab] at this
          exact lt_of_le_of_lt this hlt
        · intro a ha
          rcases List.mem_append.mp ha with ha | ha
          · exact hbelow a ha
          · rw [List.mem_singleton] at ha
            subst ha
            simp

theorem processDataMsg_delivery (r : StatelessReader) (c : CacheChange_t) (env : DataEnv) :
    (processDataMsg r c env).2 = r ∨
    ∃ (c2 : CacheChange_t) (ok : Bool),
      (processDataMsg r c env).2.listener_log = (change_received r c2 ok).2.listener_log ∧
      (processDataMsg r c env).2.last_notified = (change_received r c2 ok).2.last_notified := by
  unfold processDataMsg
  split
  · split
    · exact Or.inl rfl
    · simp only
      split
      · exact Or.inl rfl
      · split
        · exact Or.inl rfl
        · right
          refine ⟨reserved_copy c, env.received_change_ok, ?_⟩
          split
          · exact ⟨rfl, rfl⟩
          · have := liveliness_call_fields
              (change_received r (reserved_copy c) env.received_change_ok).2
              (LivelinessCall.assert_liveliness c.writerGUID)
            exact ⟨this.2.2.2.1, this.2.1⟩
  · exact Or.inl rfl

theorem processDataFragMsg_keeps_order (r : StatelessReader) (c : CacheChange_t)
    (sampleSize start count : Nat) (env : FragEnv)
    (h1 : StrictlyIncreasingPerWriter r.listener_log)
    (h2 : DeliveredBelowRecord r.listener_log r.last_notified) :
    StrictlyIncreasingPerWriter
      (processDataFragMsg r c sampleSize start count env).2.listener_log ∧
    DeliveredBelowRecord (processDataFragMsg r c sampleSize start count env).2.listener_log
      (processDataFragMsg r c sampleSize start count env).2.last_notified := by
  unfold processDataFragMsg
  simp only [assert_writer_liveliness]
  split
  · split
    · split
      · exact ⟨h1, h2⟩
      · split
        · rw [(liveliness_call_fields _ _).2.2.2.1, (liveliness_call_fields _ _).2.1]
          exact change_received_keeps_order _ _ _ h1 h2
        · rw [(liveliness_call_fields _ _).2.2.2.1, (liveliness_call_fields _ _).2.1]
          exact ⟨h1, h2⟩
    · rw [(liveliness_call_fields _ _).2.2.2.1, (liveliness_call_fields _ _).2.1]
      exact ⟨h1, h2⟩
  · exact ⟨h1, h2⟩

theorem ReaderOp.apply_keeps_order (r : StatelessReader) (op : ReaderOp)
    (h1 : StrictlyIncreasingPerWriter r.listener_log)
    (h2 : DeliveredBelowRecord r.listener_log r.last_notified) :
    StrictlyIncreasingPerWriter (op.apply r).listener_log ∧
    DeliveredBelowRecord (op.apply r).listener_log (op.apply r).last_notified := by
  cases op with
  | matched_writer_add wdata env =>
    obtain ⟨e1, e2⟩ := matched_writer_add_delivery r wdata env
    simp only [ReaderOp.apply, e1, e2]
    exact ⟨h1, h2⟩
  | processDataMsg c env =>
    simp only [ReaderOp.apply]
    rcases processDataMsg_delivery r c env with h | ⟨c2, ok, e1, e2⟩
    · rw [h]; exact ⟨h1, h2⟩
    · rw [e1, e2]; exact change_received_keeps_order r c2 ok h1 h2
  | processDataFragMsg c sampleSize start count env =>
    simp only [ReaderOp.apply]
    exact processDataFragMsg_keeps_order r c sampleSize start count env h1 h2

theorem runOps_keeps_order (ops : List ReaderOp) :
    ∀ r : StatelessReader,
      StrictlyIncreasingPerWriter r.listener_log →
      DeliveredBelowRecord r.listener_log r.last_notified →
      StrictlyIncreasingPerWriter (runOps r ops).listener_log ∧
      DeliveredBelowRecord (runOps r ops).listener_log (runOps r ops).last_notified := by
  induction ops with
  | nil => intro r h1 h2; exact ⟨h1, h2⟩
  | cons op ops ih =>
    intro r h1 h2
    obtain ⟨g1, g2⟩ := ReaderOp.apply_keeps_order r op h1 h2
    exact ih (op.apply r) g1 g2

/-- C1: starting from a reader whose listener has not been called yet, after every sequence
of `matched_writer_add`, `processDataMsg` and `processDataFragMsg` calls the changes handed
to the listener are, writer by writer, in strictly increasing sequence-number order: a change
delivered after `(W, s)` and coming from W has a sequence number greater than `s`. -/
theorem deliveries_strictly_increasing (r : StatelessReader) (ops : List ReaderOp)
    (h : r.listener_log = []) :
    ∀ (before after : List CacheChange_t) (a b : CacheChange_t),
      (runOps r ops).listener_log = before ++ a :: after → b ∈ after →
      b.writerGUID = a.writerGUID → a.sequenceNumber < b.sequenceNumber := by
  intro before after a b hlog hb hw
  have hp := (runOps_keeps_order ops r (by rw [h]; exact List.Pairwise.nil)
    (by rw [h]; intro c hc; cases hc)).1
  unfold StrictlyIncreasingPerWriter at hp
  rw [hlog, List.pairwise_append] at hp
  exact (List.pairwise_cons.mp hp.2.1).1 b hb hw.symm

/-- Witness of `deliveries_strictly_increasing`: sequence numbers 1, 3 and then a late 2 are
offered; 1 and 3 are delivered, in that order. -/
theorem deliveries_strictly_increasing_witness :
    sampleReader.listener_log = [] ∧
    (runOps sampleReader
      [ReaderOp.processDataMsg (sampleChange 1) okDataEnv,
       ReaderOp.processDataMsg (sampleChange 3) okDataEnv,
       ReaderOp.processDataMsg (sampleChange 2) okDataEnv]).listener_log
      = [reserved_copy (sampleChange 1), reserved_copy (sampleChange 3)] ∧
    (reserved_copy (sampleChange 1)).sequenceNumber
      < (reserved_copy (sampleChange 3)).sequenceNumber :=
  ⟨rfl, by decide,
    deliveries_strictly_increasing sampleReader
      [ReaderOp.processDataMsg (sampleChange 1) okDataEnv,
       ReaderOp.processDataMsg (sampleChange 3) okDataEnv,
       ReaderOp.processDataMsg (sampleChange 2) okDataEnv] rfl
      [] [reserved_copy (sampleChange 3)] (reserved_copy (sampleChange 1))
      (reserved_copy (sampleChange 3)) (by decide) (by simp) rfl⟩

/-! ### Fragment reassembly -/

theorem add_fragments_missing (c : CacheChange_t) (K : Nat) (cov : List Nat)
    (start count : Nat) (h : c.missing_fragments = still_missing K cov) :
    (add_fragments c start count).2.missing_fragments
      = still_missing K (cov ++ List.range' start count) ∧
    (add_fragments c start count).1
      = (still_missing K (cov ++ List.range' start count)).isEmpty := by
  have key : c.missing_fragments.filter
      (fun k => !(decide (start ≤ k) && decide (k < start + count)))
      = still_missing K (cov ++ List.range' start count) := by
    rw [h]
    unfold still_missing
    rw [List.filter_filter]
    apply List.filter_congr
    intro k _
    by_cases h3 : k ∈ cov <;> by_cases h1 : start ≤ k <;> by_cases h2 : k < start + count <;>
      simp [List.mem_range'_1, h1, h2, h3]
  simp only [add_fragments, key, and_self]

theorem setFragmentSize_fresh (c : CacheChange_t) (F : Nat) (hF : 0 < F) :
    (setFragmentSize c F true).missing_fragments
      = still_missing (fragment_total c.serializedPayload.length F) [] ∧
    (setFragmentSize c F true).sequenceNumber = c.sequenceNumber ∧
    (setFragmentSize c F true).writerGUID = c.writerGUID ∧
    (setFragmentSize c F true).serializedPayload = c.serializedPayload := by
  simp [setFragmentSize, hF, still_missing, fragment_total]

/-- What `process_fragment` does with one submessage of the sample under reassembly. -/
theorem process_fragment_step (W : GUID_t) (s : SequenceNumber_t) (N F : Nat) (hF : 0 < F)
    (cov : List Nat) (slot : Option CacheChange_t) (call : FragCall)
    (hslot : SlotReady W s N (fragment_total N F) cov slot)
    (hcall : GoodFragCall W s N F call) :
    ∃ wc : CacheChange_t,
      wc.sequenceNumber = s ∧ wc.writerGUID = W ∧ wc.serializedPayload.length = N ∧
      wc.missing_fragments = still_missing (fragment_total N F)
        (cov ++ List.range' call.fragmentStartingNum call.fragmentsInSubmessage) ∧
      process_fragment slot call.incomingChange N call.fragmentStartingNum
          call.fragmentsInSubmessage call.env
        = (if (still_missing (fragment_total N F)
                (cov ++ List.range' call.fragmentStartingNum call.fragmentsInSubmessage)).isEmpty
           then (none, some wc) else (some wc, none)) := by
  obtain ⟨hw, hs, hf, _, ⟨m, hm, hNm⟩, _⟩ := hcall
  -- the change on which the fragment is applied
  have apply_on : ∀ wc0 : CacheChange_t,
      wc0.sequenceNumber = s → wc0.writerGUID = W → wc0.serializedPayload.length = N →
      wc0.missing_fragments = still_missing (fragment_total N F) cov →
      ∃ wc : CacheChange_t,
        wc.sequenceNumber = s ∧ wc.writerGUID = W ∧ wc.serializedPayload.length = N ∧
        wc.missing_fragments = still_missing (fragment_total N F)
          (cov ++ List.range' call.fragmentStartingNum call.fragmentsInSubmessage) ∧
        (if (add_fragments wc0 call.fragmentStartingNum call.fragmentsInSubmessage).1
         then ((none : Option CacheChange_t),
            some (add_fragments wc0 call.fragmentStartingNum call.fragmentsInSubmessage).2)
         else (some (add_fragments wc0 call.fragmentStartingNum call.fragmentsInSubmessage).2,
            (none : Option CacheChange_t)))
        = (if (still_missing (fragment_total N F)
                (cov ++ List.range' call.fragmentStartingNum call.fragmentsInSubmessage)).isEmpty
           then (none, some wc) else (some wc, none)) := by
    intro wc0 h1 h2 h3 h4
    obtain ⟨a1, a2⟩ := add_fragments_missing wc0 _ cov call.fragmentStartingNum
      call.fragmentsInSubmessage h4
    refine ⟨(add_fragments wc0 call.fragmentStartingNum call.fragmentsInSubmessage).2,
      ?_, ?_, ?_, a1, ?_⟩
    · simpa [add_fragments] using h1
    · simpa [add_fragments] using h2
    · simpa [add_fragments] using h3
    · rw [a2]
  -- a change freshly set up for the sample, in a buffer `base`
  have fresh_on : ∀ base : CacheChange_t,
      let c1 := copy_not_memcpy base call.incomingChange
      let c2 := { c1 with serializedPayload := { c1.serializedPayload with length := N } }
      (setFragmentSize c2 call.incomingChange.fragment_size true).sequenceNumber = s ∧
      (setFragmentSize c2 call.incomingChange.fragment_size true).writerGUID = W ∧
      (setFragmentSize c2 call.incomingChange.fragment_size true).serializedPayload.length = N ∧
      (setFragmentSize c2 call.incomingChange.fragment_size true).missing_fragments
        = still_missing (fragment_total N F) [] := by
    intro base
    simp only
    rw [hf]
    obtain ⟨b1, b2, b3, b4⟩ := setFragmentSize_fresh
      { copy_not_memcpy base call.incomingChange with
        serializedPayload :=
          { (copy_not_memcpy base call.incomingChange).serializedPayload with length := N } }
      F hF
    refine ⟨?_, ?_, ?_, ?_⟩
    · rw [b2]; simpa [copy_not_memcpy] using hs
    · rw [b3]; simpa [copy_not_memcpy] using hw
    · rw [b4]
    · rw [b1]
  rcases hslot with ⟨hcov, hold⟩ | ⟨wc0, hsome, h1, h2, h3, h4⟩
  · subst hcov
    cases slot with
    | none =>
      obtain ⟨f1, f2, f3, f4⟩ := fresh_on (reserved_change m)
      have hlt : ¬ m < N := Nat.not_lt.mpr hNm
      simp only [process_fragment, hm, hlt, if_false]
      exact apply_on _ f1 f2 f3 f4
    | some old =>
      have holdlt := hold old rfl
      by_cases hfit : N ≤ old.serializedPayload.max_size
      · obtain ⟨f1, f2, f3, f4⟩ := fresh_on old
        simp only [process_fragment, hs, holdlt, hfit, if_true]
        exact apply_on _ f1 f2 f3 f4
      · obtain ⟨f1, f2, f3, f4⟩ := fresh_on (reserved_change m)
        have hlt : ¬ m < N := Nat.not_lt.mpr hNm
        simp only [process_fragment, hs, holdlt, hfit, if_true, if_false, hm, hlt]
        exact apply_on _ f1 f2 f3 f4
  · subst hsome
    have hnlt : ¬ wc0.sequenceNumber < s := by rw [h1]; exact lt_irrefl s
    simp only [process_fragment, hs, hnlt, if_false]
    exact apply_on wc0 h1 h2 h3 h4

theorem find?_set_fragmented_change (W : GUID_t) (x : Option CacheChange_t)
    (ws : List RemoteWriterInfo_t) (w : RemoteWriterInfo_t)
    (h : ws.find? (fun writer => decide (writer.guid = W)) = some w) :
    (set_fragmented_change W x ws).find? (fun writer => decide (writer.guid = W))
      = some { w with fragmented_change := x } := by
  induction ws with
  | nil => simp at h
  | cons a ws ih =>
    by_cases ha : a.guid = W
    · simp only [List.find?_cons, ha, decide_True] at h
      cases h
      simp [set_fragmented_change, ha, List.find?_cons]
    · simp only [List.find?_cons, ha, decide_False] at h
      simp [set_fragmented_change, ha, List.find?_cons, ih h]

/-- One `processDataFragMsg` call for a submessage of the sample under reassembly: either
fragments are still missing and the reader keeps reassembling, or the sample is complete and
it is inserted in the history and handed to the listener. -/
theorem processDataFragMsg_step (r0 r : StatelessReader) (W : GUID_t) (s : SequenceNumber_t)
    (N F : Nat) (hF : 0 < F) (cov : List Nat) (call : FragCall)
    (hlast : r0.last_notified W < s)
    (hstate : Reassembling r0 r W s N (fragment_total N F) cov)
    (hcall : GoodFragCall W s N F call) :
    (still_missing (fragment_total N F)
        (cov ++ List.range' call.fragmentStartingNum call.fragmentsInSubmessage) ≠ [] →
      Reassembling r0
        (processDataFragMsg r call.incomingChange N call.fragmentStartingNum
          call.fragmentsInSubmessage call.env).2
        W s N (fragment_total N F)
        (cov ++ List.range' call.fragmentStartingNum call.fragmentsInSubmessage)) ∧
    (still_missing (fragment_total N F)
        (cov ++ List.range' call.fragmentStartingNum call.fragmentsInSubmessage) = [] →
      ∃ c : CacheChange_t,
        c.sequenceNumber = s ∧ c.writerGUID = W ∧ c.serializedPayload.length = N ∧
        (processDataFragMsg r call.incomingChange N call.fragmentStartingNum
          call.fragmentsInSubmessage call.env).2.history = r0.history ++ [c] ∧
        (processDataFragMsg r call.incomingChange N call.fragmentStartingNum
          call.fragmentsInSubmessage call.env).2.listener_log
          = r0.listener_log ++ (if r0.has_listener then [c] else [])) := by
  obtain ⟨e1, e2, e3, e4, e5, w, hfind, hslot⟩ := hstate
  obtain ⟨wc, p1, p2, p3, p4, hpf⟩ :=
    process_fragment_step W s N F hF cov w.fragmented_change call hslot hcall
  obtain ⟨hw, hs, _, _, _, hok⟩ := hcall
  have hupper : thereIsUpperRecordOf r W s = false := by
    simp [thereIsUpperRecordOf, get_last_notified, e3, hlast]
  have hany : w.fragmented_change.any (fun wc => decide (wc.sequenceNumber > s)) = false := by
    rcases hslot with ⟨_, hold⟩ | ⟨wc0, hsome, h1, _⟩
    · cases hfc : w.fragmented_change with
      | none => rfl
      | some old =>
        have := hold old hfc
        simp [Option.any, le_of_lt this]
    · rw [hsome]; simp [Option.any, h1]
  unfold processDataFragMsg
  simp only [hw, hs, hfind, hupper, hany, hpf, Bool.not_false, if_true, Bool.false_eq_true,
    if_false, assert_writer_liveliness]
  constructor
  · intro hne
    have hne2 : (still_missing (fragment_total N F)
        (cov ++ List.range' call.fragmentStartingNum call.fragmentsInSubmessage)).isEmpty
        = false := by
      cases hm : still_missing (fragment_total N F)
        (cov ++ List.range' call.fragmentStartingNum call.fragmentsInSubmessage) with
      | nil => exact absurd hm hne
      | cons a l => rfl
    simp only [hne2, Bool.false_eq_true, if_false]
    obtain ⟨l1, l2, l3, l4, l5, l6⟩ := liveliness_call_fields
      { r with matched_writers_ := set_fragmented_change W (some wc) r.matched_writers_ }
      (LivelinessCall.assert_liveliness W)
    refine ⟨l1.trans e1, l4.trans e2, l2.trans e3, l3.trans e4, l6.trans e5, ?_⟩
    refine ⟨{ w with fragmented_change := some wc }, ?_, ?_⟩
    · rw [l5]
      exact find?_set_fragmented_change W (some wc) r.matched_writers_ w hfind
    · right
      exact ⟨wc, rfl, p1, p2, p3, p4⟩
  · intro hemp
    simp only [hemp, List.isEmpty_nil, if_true]
    have hlt : ({ r with
          matched_writers_ := set_fragmented_change W none r.matched_writers_ } :
        StatelessReader).last_notified wc.writerGUID < wc.sequenceNumber := by
      rw [p1, p2]
      show r.last_notified W < s
      rw [e3]; exact hlast
    obtain ⟨_, f2, _, _, f5, _, _⟩ := change_received_fresh _ wc hlt
    obtain ⟨l1, _, _, l4, _, _⟩ := liveliness_call_fields
      (change_received
        { r with matched_writers_ := set_fragmented_change W none r.matched_writers_ }
        wc call.env.received_change_ok).2
      (LivelinessCall.assert_liveliness W)
    refine ⟨wc, p1, p2, p3, ?_, ?_⟩
    · rw [l1, hok, f2]
      show r.history ++ [wc] = r0.history ++ [wc]
      rw [e1]
    · rw [l4, hok, f5]
      show r.listener_log ++ (if r.has_listener = true then [wc] else [])
        = r0.listener_log ++ (if r0.has_listener = true then [wc] else [])
      rw [e2, e5]

theorem runOps_append (r : StatelessReader) (a b : List ReaderOp) :
    runOps r (a ++ b) = runOps (runOps r a) b := by
  simp [runOps, List.foldl_append]

theorem fragOps_concat (N : Nat) (pre : List FragCall) (c : FragCall) :
    fragOps N (pre ++ [c]) = fragOps N pre ++
      [ReaderOp.processDataFragMsg c.incomingChange N c.fragmentStartingNum
        c.fragmentsInSubmessage c.env] := by
  simp [fragOps]

theorem fragments_of_concat (pre : List FragCall) (c : FragCall) :
    fragments_of (pre ++ [c])
      = fragments_of pre ++ List.range' c.fragmentStartingNum c.fragmentsInSubmessage := by
  simp [fragments_of, List.flatMap_append]

theorem still_missing_mono (K : Nat) (a b : List Nat) (h : still_missing K (a ++ b) ≠ []) :
    still_missing K a ≠ [] := by
  obtain ⟨k, hk⟩ := List.exists_mem_of_ne_nil _ h
  unfold still_missing at hk ⊢
  rw [List.mem_filter] at hk
  intro hnil
  have : k ∈ (List.range' 1 K).filter (fun k => decide (k ∉ a)) := by
    rw [List.mem_filter]
    refine ⟨hk.1, ?_⟩
    have := hk.2
    simp only [List.mem_append, not_or, decide_eq_true_eq] at this
    simpa using this.1
  rw [hnil] at this
  cases this

/-- While fragments of the sample are missing, the reader keeps reassembling. -/
theorem runOps_reassembling (r0 : StatelessReader) (W : GUID_t) (s : SequenceNumber_t)
    (N F : Nat) (hF : 0 < F) (hlast : r0.last_notified W < s)
    (hinit : Reassembling r0 r0 W s N (fragment_total N F) []) (pre : List FragCall) :
    (∀ c ∈ pre, GoodFragCall W s N F c) →
    still_missing (fragment_total N F) (fragments_of pre) ≠ [] →
    Reassembling r0 (runOps r0 (fragOps N pre)) W s N (fragment_total N F)
      (fragments_of pre) := by
  induction pre using List.reverseRecOn with
  | nil => intro _ _; exact hinit
  | append_singleton pre c ih =>
    intro hgood hmiss
    rw [fragments_of_concat] at hmiss ⊢
    have hpre := ih (fun x hx => hgood x (List.mem_append_left _ hx))
      (still_missing_mono _ _ _ hmiss)
    rw [fragOps_concat, runOps_append]
    exact (processDataFragMsg_step r0 (runOps r0 (fragOps N pre)) W s N F hF
      (fragments_of pre) c hlast hpre (hgood c (by simp))).1 hmiss

theorem fragments_of_append (a b : List FragCall) :
    fragments_of (a ++ b) = fragments_of a ++ fragments_of b := by
  simp [fragments_of, List.flatMap_append]

theorem still_missing_of_pending (N F : Nat) (W : GUID_t) (s : SequenceNumber_t)
    (pre post : List FragCall)
    (hgood : ∀ c ∈ pre ++ post, GoodFragCall W s N F c)
    (hperm : (fragments_of (pre ++ post)).Perm (List.range' 1 (fragment_total N F)))
    (hpost : post ≠ []) :
    still_missing (fragment_total N F) (fragments_of pre) ≠ [] := by
  cases post with
  | nil => exact absurd rfl hpost
  | cons c post =>
    have hc := hgood c (by simp)
    obtain ⟨_, _, _, hcount, _, _⟩ := hc
    have hmem : c.fragmentStartingNum ∈ fragments_of (c :: post) := by
      simp only [fragments_of, List.flatMap_cons, List.mem_append]
      left
      rw [List.mem_range'_1]
      omega
    have hnodup : (fragments_of (pre ++ c :: post)).Nodup :=
      hperm.nodup_iff.mpr (List.nodup_range' 1 _)
    rw [fragments_of_append] at hnodup hperm
    have hdisj := (List.nodup_append.mp hnodup).2.2
    have hnot : c.fragmentStartingNum ∉ fragments_of pre := fun h => hdisj h hmem
    have hin : c.fragmentStartingNum ∈ List.range' 1 (fragment_total N F) :=
      hperm.subset (List.mem_append_right _ hmem)
    intro hnil
    have : c.fragmentStartingNum ∈ still_missing (fragment_total N F) (fragments_of pre) := by
      unfold still_missing
      rw [List.mem_filter]
      exact ⟨hin, by simpa using hnot⟩
    rw [hnil] at this
    cases this

theorem still_missing_of_all (K : Nat) (cov : List Nat) (hperm : cov.Perm (List.range' 1 K)) :
    still_missing K cov = [] := by
  unfold still_missing
  rw [List.filter_eq_nil_iff]
  intro k hk
  simpa using hperm.symm.subset hk

/-- C5 (as amended): for a matched non-datasharing writer W with no fragmented change of
sequence number >= s in progress, a sample `(W, s)` of N > 0 bytes split into fragments of
size F > 0, with s above the last notified sequence number of W, a listener, and pools and
history that accept: whatever the order in which the DATA_FRAG submessages (each carrying a
run of at least one fragment, together carrying every fragment once) are passed to
`processDataFragMsg`, no call before the last one notifies the listener or inserts into the
history, and after the last call the listener has been notified exactly once, with a change of
writer W, sequence number s and payload length N, which is also the one change inserted. -/
theorem fragments_reassembled_once (r : StatelessReader) (W : GUID_t) (s : SequenceNumber_t)
    (N F : Nat) (calls : List FragCall) (w : RemoteWriterInfo_t)
    (hN : 0 < N) (hF : 0 < F)
    (hmatched : r.matched_writers_.find? (fun writer => decide (writer.guid = W)) = some w)
    (_hnds : w.is_datasharing = false)
    (hslot : ∀ wc, w.fragmented_change = some wc → wc.sequenceNumber < s)
    (hlast : r.last_notified W < s)
    (hlistener : r.has_listener = true)
    (hcalls : ∀ c ∈ calls, GoodFragCall W s N F c)
    (hperm : (fragments_of calls).Perm (List.range' 1 (fragment_total N F))) :
    (∀ pre post : List FragCall, calls = pre ++ post → post ≠ [] →
      (runOps r (fragOps N pre)).listener_log = r.listener_log ∧
      (runOps r (fragOps N pre)).history = r.history) ∧
    ∃ c : CacheChange_t,
      c.writerGUID = W ∧ c.sequenceNumber = s ∧ c.serializedPayload.length = N ∧
      (runOps r (fragOps N calls)).listener_log = r.listener_log ++ [c] ∧
      (runOps r (fragOps N calls)).history = r.history ++ [c] := by
  have hinit : Reassembling r r W s N (fragment_total N F) [] :=
    ⟨rfl, rfl, rfl, rfl, rfl, w, hmatched, Or.inl ⟨rfl, hslot⟩⟩
  have hprefix : ∀ pre post : List FragCall, calls = pre ++ post → post ≠ [] →
      Reassembling r (runOps r (fragOps N pre)) W s N (fragment_total N F)
        (fragments_of pre) := by
    intro pre post hsplit hpost
    subst hsplit
    exact runOps_reassembling r W s N F hF hlast hinit pre
      (fun x hx => hcalls x (List.mem_append_left _ hx))
      (still_missing_of_pending N F W s pre post hcalls hperm hpost)
  refine ⟨fun pre post hsplit hpost => ?_, ?_⟩
  · obtain ⟨e1, e2, _⟩ := hprefix pre post hsplit hpost
    exact ⟨e2, e1⟩
  · have hK : 0 < fragment_total N F := by
      unfold fragment_total
      apply Nat.div_pos <;> omega
    have hne : calls ≠ [] := by
      intro hnil
      subst hnil
      have := hperm.length_eq
      simp [fragments_of] at this
      omega
    obtain ⟨pre, last, hsplit⟩ : ∃ pre last, calls = pre ++ [last] := by
      rcases List.eq_nil_or_concat calls with h | ⟨pre, last, h⟩
      · exact absurd h hne
      · exact ⟨pre, last, by simpa using h⟩
    have hpre := hprefix pre [last] hsplit (by simp)
    have hall : still_missing (fragment_total N F)
        (fragments_of pre ++ List.range' last.fragmentStartingNum last.fragmentsInSubmessage)
        = [] := by
      apply still_missing_of_all
      rw [← fragments_of_concat, ← hsplit]
      exact hperm
    obtain ⟨c, c1, c2, c3, c4, c5⟩ :=
      (processDataFragMsg_step r (runOps r (fragOps N pre)) W s N F hF (fragments_of pre) last
        hlast hpre (hcalls last (by rw [hsplit]; simp))).2 hall
    refine ⟨c, c2, c1, c3, ?_, ?_⟩
    · rw [hsplit, fragOps_concat, runOps_append]
      simp only [runOps, List.foldl_cons, List.foldl_nil, ReaderOp.apply] at c5 ⊢
      rw [c5, hlistener]; rfl
    · rw [hsplit, fragOps_concat, runOps_append]
      simp only [runOps, List.foldl_cons, List.foldl_nil, ReaderOp.apply] at c4 ⊢
      exact c4

/-- Witness of `fragments_reassembled_once`: sample 4 of 10 bytes in fragments of 4 bytes,
passed in the order 3, 1, 2. -/
theorem fragments_reassembled_once_witness :
    ∃ c : CacheChange_t,
      c.writerGUID = sampleWriter ∧ c.sequenceNumber = 4 ∧ c.serializedPayload.length = 10 ∧
      (runOps matchedReader (fragOps 10
        [sampleFragCall 4 4 3 10, sampleFragCall 4 4 1 10, sampleFragCall 4 4 2 10])).listener_log
        = matchedReader.listener_log ++ [c] ∧
      (runOps matchedReader (fragOps 10
        [sampleFragCall 4 4 3 10, sampleFragCall 4 4 1 10, sampleFragCall 4 4 2 10])).history
        = matchedReader.history ++ [c] :=
  (fragments_reassembled_once matchedReader sampleWriter 4 10 4
    [sampleFragCall 4 4 3 10, sampleFragCall 4 4 1 10, sampleFragCall 4 4 2 10]
    { guid := sampleWriter, persistence_guid := ⟨[], 0⟩, has_manual_topic_liveliness := false,
      is_datasharing := false, fragmented_change := none }
    (by decide) (by decide) (by decide) rfl (by intro wc h; cases h) (by decide) rfl
    (by
      intro c hc
      simp only [List.mem_cons, List.mem_singleton, List.not_mem_nil, or_false] at hc
      rcases hc with rfl | rfl | rfl <;>
        exact ⟨rfl, rfl, rfl, le_refl 1, ⟨10, rfl, le_refl 10⟩, rfl⟩)
    (by decide)).2

/-- C5 (counterexample): W is matched and not data-sharing, sample 4 (10 bytes, one fragment
of 10 bytes) is above the last notified sequence number 0 and the pools have room, but a
fragmented change of sequence number 9 is in progress for W: the only DATA_FRAG of sample 4
is dropped and the listener is never notified. -/
theorem fragment_behind_pending_sample_dropped :
    busyReader.last_notified sampleWriter < 4 ∧
    (fragments_of [sampleFragCall 4 10 1 10]).Perm (List.range' 1 (fragment_total 10 10)) ∧
    (runOps busyReader (fragOps 10 [sampleFragCall 4 10 1 10])).listener_log = [] ∧
    (runOps busyReader (fragOps 10 [sampleFragCall 4 10 1 10])).history = [] := by
  decide

/-! ### The server list: slots -/

theorem server_list_matches_sep (slot rest : List Char) (h : ';' ∉ slot) :
    server_list_matches (slot ++ ';' :: rest) = slot :: server_list_matches rest := by
  induction slot with
  | nil => simp [server_list_matches]
  | cons c cs ih =>
    have hc : c ≠ ';' := fun e => h (by simp [e])
    have hcs : ';' ∉ cs := fun e => h (List.mem_cons_of_mem _ e)
    simp [server_list_matches, hc, ih hcs]

theorem server_list_matches_last (slot : List Char) (h : ';' ∉ slot) (hne : slot ≠ []) :
    server_list_matches slot = [slot] := by
  induction slot with
  | nil => exact absurd rfl hne
  | cons c cs ih =>
    have hc : c ≠ ';' := fun e => h (by simp [e])
    have hcs : ';' ∉ cs := fun e => h (List.mem_cons_of_mem _ e)
    cases cs with
    | nil => simp [server_list_matches, hc]
    | cons d ds => rw [server_list_matches, if_neg hc, ih hcs (by simp)]

theorem process_slot_nil (env : ServerListEnv) (st : ServerListState) :
    process_slot env st [] = some st := by
  simp [process_slot, match_ROS2_ADDRESS_PATTERN]

/-- Parsing the joined string and parsing the slots one by one give the same records. -/
theorem parse_slots_join (env : ServerListEnv) (slots : List (List Char)) :
    ∀ st : ServerListState, (∀ slot ∈ slots, ';' ∉ slot) →
      (parse_slots env (server_list_matches (joinSlots slots)) st).map (fun x => x.attributes)
        = (parse_slots env slots st).map (fun x => x.attributes) := by
  induction slots with
  | nil => intro st _; rfl
  | cons slot rest ih =>
    intro st h
    have hslot : ';' ∉ slot := h slot (by simp)
    cases rest with
    | nil =>
      by_cases hne : slot = []
      · subst hne
        simp [joinSlots, server_list_matches, parse_slots, process_slot_nil]
      · simp [joinSlots, server_list_matches_last slot hslot hne]
    | cons next rest =>
      simp only [joinSlots, server_list_matches_sep slot _ hslot, parse_slots]
      cases process_slot env st slot with
      | none => rfl
      | some st1 =>
        exact ih _ (fun x hx => h x (List.mem_cons_of_mem _ hx))

/-- The result of `load_environment_server_info` on a non-empty joined string, in terms of the
slots. -/
theorem load_join (env : ServerListEnv) (slots : List (List Char))
    (attributes : RemoteServerList_t) (h : ∀ slot ∈ slots, ';' ∉ slot)
    (hne : joinSlots slots ≠ []) :
    load_environment_server_info env (joinSlots slots) attributes =
      (match parse_slots env slots (initial_state env) with
       | none => (false, [])
       | some st => if st.attributes = [] then (false, []) else (true, st.attributes)) := by
  have key := parse_slots_join env slots (initial_state env) h
  unfold load_environment_server_info
  simp only [hne, if_false]
  cases h1 : parse_slots env (server_list_matches (joinSlots slots)) (initial_state env) <;>
    cases h2 : parse_slots env slots (initial_state env) <;>
    simp only [h1, h2, Option.map_some', Option.map_none', Option.some.injEq] at key
  · rfl
  · cases key
  · cases key
  · simp only [key]

theorem joinSlots_ne_nil (slots : List (List Char)) (h : ∃ slot ∈ slots, slot ≠ []) :
    joinSlots slots ≠ [] := by
  induction slots with
  | nil => obtain ⟨x, hx, _⟩ := h; cases hx
  | cons slot rest ih =>
    cases rest with
    | nil =>
      obtain ⟨x, hx, hne⟩ := h
      simp only [List.mem_singleton] at hx
      subst hx
      simpa [joinSlots] using hne
    | cons next rest => simp [joinSlots]

/-- A slot leaves the slot number alone; an empty slot leaves everything alone, a non-empty
slot adds one record whose prefix is the default prefix of the slot number. -/
theorem process_slot_some (env : ServerListEnv) (st st1 : ServerListState)
    (slot : List Char) (h : process_slot env st slot = some st1) :
    st1.server_id = st.server_id ∧
    ((slot = [] ∧ st1 = st) ∨
     (slot ≠ [] ∧ ∃ att : RemoteServerAttributes,
        st1.attributes = st.attributes ++ [att] ∧
        get_server_client_default_guidPrefix (st.server_id : Int) = some att.guidPrefix)) := by
  unfold process_slot at h
  split at h
  · rename_i address_match port_match hm
    have hne : slot ≠ [] := by
      intro e; subst e; simp [match_ROS2_ADDRESS_PATTERN] at hm
    simp only at h
    split at h
    · cases h
    · split at h
      · cases h
      · split at h
        · cases h
        · rename_i guidPrefix hg
          simp only [Option.some.injEq] at h
          subst h
          exact ⟨rfl, Or.inr ⟨hne, _, rfl, hg⟩⟩
  · split at h
    · cases h
    · rename_i hn
      simp only [Option.some.injEq] at h
      subst h
      exact ⟨rfl, Or.inl ⟨by simpa using hn, rfl⟩⟩

/-! ### The server list: failures -/

theorem parse_slots_beyond (env : ServerListEnv) (slot : List Char) (hne : slot ≠ []) :
    ∀ (slots : List (List Char)) (st : ServerListState) (i : Nat),
      slots[i]? = some slot → 256 ≤ st.server_id + i → parse_slots env slots st = none := by
  intro slots
  induction slots with
  | nil => intro st i h _; simp at h
  | cons first rest ih =>
    intro st i h hi
    simp only [parse_slots]
    cases hp : process_slot env st first with
    | none => rfl
    | some st1 =>
      obtain ⟨hid, hcase⟩ := process_slot_some env st st1 first hp
      simp only
      cases i with
      | zero =>
        simp only [List.getElem?_cons_zero, Option.some.injEq] at h
        subst h
        rcases hcase with ⟨he, _⟩ | ⟨_, att, _, hg⟩
        · exact absurd he hne
        · have hbig : ¬ ((st.server_id : Int) < 256) := by omega
          simp [get_server_client_default_guidPrefix, hbig] at hg
      | succ j =>
        simp only [List.getElem?_cons_succ] at h
        exact ih _ j h (by simp only [hid]; omega)

/-- C8 (as amended): when some slot at a zero-based position of 256 or more is not empty,
`load_environment_server_info` fails: it returns false (and the output list is empty). -/
theorem slot_beyond_255_rejected (env : ServerListEnv) (slots : List (List Char))
    (attributes : RemoteServerList_t) (i : Nat) (slot : List Char)
    (hsep : ∀ s ∈ slots, ';' ∉ s) (hi : 256 ≤ i) (hslot : slots[i]? = some slot)
    (hne : slot ≠ []) :
    load_environment_server_info env (joinSlots slots) attributes = (false, []) := by
  have hmem : slot ∈ slots := List.getElem?_mem hslot
  rw [load_join env slots attributes hsep (joinSlots_ne_nil slots ⟨slot, hmem, hne⟩),
    parse_slots_beyond env slot hne slots (initial_state env) i hslot (by omega)]

/-- Witness of `slot_beyond_255_rejected`: 256 empty slots followed by `1.2.3.4`. -/
theorem slot_beyond_255_rejected_witness :
    load_environment_server_info sampleEnv
      (joinSlots (List.replicate 256 [] ++ ["1.2.3.4".toList])) [] = (false, []) :=
  slot_beyond_255_rejected sampleEnv (List.replicate 256 [] ++ ["1.2.3.4".toList]) [] 256
    "1.2.3.4".toList
    (by
      intro s hs
      rcases List.mem_append.mp hs with h | h
      · rw [(List.mem_replicate.mp h).2]; exact List.not_mem_nil _
      · rw [List.mem_singleton.mp h]; decide)
    (le_refl 256)
    (by
      rw [List.getElem?_append_right (by rw [List.length_replicate]), List.length_replicate]
      rfl)
    (by decide)

set_option maxRecDepth 20000 in
/-- C8 (counterexample): the list `1.2.3.4` followed by 300 separators has 300 slots, all but
the first one empty, and `load_environment_server_info` returns true on it. -/
theorem many_empty_slots_accepted :
    256 < (server_list_matches ("1.2.3.4".toList ++ List.replicate 300 ';')).length ∧
    (load_environment_server_info sampleEnv
      ("1.2.3.4".toList ++ List.replicate 300 ';') []).1 = true := by
  decide

theorem dropWhile_port_field (port : List Char) (address : List Char) :
    (match (address ++ ':' :: port).dropWhile isAddressChar with
      | ':' :: r => r
      | r => r).all Char.isDigit = true →
    (match (address ++ ':' :: port).dropWhile isAddressChar with
      | ':' :: r => r
      | r => r) = port := by
  induction address with
  | nil =>
    intro _
    have : isAddressChar ':' = false := by decide
    simp [List.dropWhile_cons, this]
  | cons c cs ih =>
    by_cases hc : isAddressChar c = true
    · simpa [List.dropWhile_cons, hc] using ih
    · intro hall
      exfalso
      rw [List.cons_append, List.dropWhile_cons_of_neg hc] at hall
      by_cases hcolon : c = ':'
      · subst hcolon
        simp only [List.all_append, List.all_cons, Bool.and_eq_true] at hall
        exact absurd hall.2.1 (by decide)
      · have hnd : c.isDigit = false := by
          cases hd : c.isDigit
          · rfl
          · exact absurd (by simp [isAddressChar, hd]) hc
        have : (match c :: (cs ++ ':' :: port) with
            | ':' :: r => r
            | r => r) = c :: (cs ++ ':' :: port) := by
          split
          · rename_i r heq
            exact absurd (List.cons.inj heq).1 hcolon
          · rfl
        rw [this] at hall
        simp [hnd] at hall

theorem set_slot_port_big (env : ServerListEnv) (locator : Locator_t) (port : List Char)
    (hbig : 65535 < digitsValue port) : set_slot_port env locator (some port) = none := by
  unfold set_slot_port stoi
  by_cases hfit : digitsValue port ≤ 2147483647
  · have : ((digitsValue port : Nat) : Int) > 65535 := by omega
    simp only [hfit, if_true, this]
  · simp only [hfit, if_false]

theorem process_slot_big_port (env : ServerListEnv) (st : ServerListState)
    (address port : List Char) (hne : port ≠ [])
    (hbig : 65535 < digitsValue port) :
    process_slot env st (address ++ ':' :: port) = none := by
  unfold process_slot
  split
  · rename_i address_match port_match hm
    have hport : port_match = some port := by
      unfold match_ROS2_ADDRESS_PATTERN at hm
      simp only [List.append_eq_nil, and_false, if_false, reduceCtorEq] at hm
      split at hm
      · rename_i hall
        have := dropWhile_port_field port address hall
        simp only [Option.some.injEq, Prod.mk.injEq] at hm
        rw [this] at hm
        simpa [hne] using hm.2.symm
      · cases hm
    subst hport
    simp only
    split
    · rfl
    · rw [set_slot_port_big env _ port hbig]
  · simp

theorem parse_slots_fail (env : ServerListEnv) (slot : List Char)
    (hfail : ∀ st : ServerListState, process_slot env st slot = none) :
    ∀ (slots : List (List Char)) (st : ServerListState),
      slot ∈ slots → parse_slots env slots st = none := by
  intro slots
  induction slots with
  | nil => intro st h; cases h
  | cons first rest ih =>
    intro st h
    simp only [parse_slots]
    cases hp : process_slot env st first with
    | none => rfl
    | some st1 =>
      rcases List.mem_cons.mp h with h | h
      · rw [← h, hfail st] at hp
        cases hp
      · exact ih _ h

/-- C9: when some slot of the list is `address:port` with `port` a decimal number greater than
65535 (of any length, so also beyond the range of an int), `load_environment_server_info`
returns false, whatever the address and the other slots are. -/
theorem oversized_port_rejected (env : ServerListEnv) (slots : List (List Char))
    (attributes : RemoteServerList_t) (address port : List Char)
    (hsep : ∀ s ∈ slots, ';' ∉ s) (hmem : address ++ ':' :: port ∈ slots)
    (hne : port ≠ []) (_hd : port.all Char.isDigit = true) (hbig : 65535 < digitsValue port) :
    (load_environment_server_info env (joinSlots slots) attributes).1 = false := by
  rw [load_join env slots attributes hsep
      (joinSlots_ne_nil slots ⟨_, hmem, by simp⟩),
    parse_slots_fail env _ (fun st => process_slot_big_port env st address port hne hbig)
      slots (initial_state env) hmem]

/-- Witness of `oversized_port_rejected`: a good slot, then one with a port that does not fit
an int. -/
theorem oversized_port_rejected_witness :
    (load_environment_server_info sampleEnv
      (joinSlots ["1.2.3.4:5000".toList, "9.9.9.9:99999999999".toList]) []).1 = false :=
  oversized_port_rejected sampleEnv ["1.2.3.4:5000".toList, "9.9.9.9:99999999999".toList] []
    "9.9.9.9".toList "99999999999".toList (by decide) (by decide) (by decide) (by decide)
    (by decide)

theorem server_list_matches_separators (n : Nat) :
    server_list_matches (List.replicate n ';') = List.replicate n [] := by
  induction n with
  | zero => rfl
  | succ n ih => simp [List.replicate_succ, server_list_matches, ih]

theorem parse_slots_empty (env : ServerListEnv) (n : Nat) :
    ∀ st : ServerListState,
      ∃ st1, parse_slots env (List.replicate n []) st = some st1 ∧
        st1.attributes = st.attributes := by
  induction n with
  | zero => intro st; exact ⟨st, rfl, rfl⟩
  | succ n ih =>
    intro st
    obtain ⟨st1, h1, h2⟩ := ih { st with server_id := st.server_id + 1 }
    exact ⟨st1, by simp [List.replicate_succ, parse_slots, process_slot_nil, h1], h2⟩

/-- C10: `load_environment_server_info` never succeeds with an empty result: it returns false
for the empty string and for every string made of `;` separators only, and whenever it returns
true the output list is not empty. -/
theorem load_never_empty (env : ServerListEnv) :
    (∀ attributes : RemoteServerList_t,
      (load_environment_server_info env [] attributes).1 = false) ∧
    (∀ (n : Nat) (attributes : RemoteServerList_t),
      (load_environment_server_info env (List.replicate n ';') attributes).1 = false) ∧
    (∀ (list : List Char) (attributes : RemoteServerList_t),
      (load_environment_server_info env list attributes).1 = true →
      (load_environment_server_info env list attributes).2 ≠ []) := by
  refine ⟨fun attributes => rfl, ?_, ?_⟩
  · intro n attributes
    unfold load_environment_server_info
    split
    · rfl
    · obtain ⟨st1, h1, h2⟩ := parse_slots_empty env n (initial_state env)
      rw [server_list_matches_separators, h1]
      simp only
      rw [if_pos (by rw [h2]; rfl)]
  · intro list attributes h
    unfold load_environment_server_info at h ⊢
    split at h
    · cases h
    · split at h
      · cases h
      · split at h
        · cases h
        · rename_i hne
          split
          · rename_i hl; contradiction
          · simp only [*]
            simpa using hne

/-- Witness of `load_never_empty`: the list `1.2.3.4` is accepted and yields a record. -/
theorem load_never_empty_witness :
    (load_environment_server_info sampleEnv "1.2.3.4".toList []).2 ≠ [] :=
  (load_never_empty sampleEnv).2.2 "1.2.3.4".toList [] (by decide)

/-! ### The server list: well-formed lists -/

theorem splitDots_all (p : Char → Bool) (s : List Char) :
    (∀ f ∈ splitDots s, f.all p = true) → ∀ c ∈ s, c = '.' ∨ p c = true := by
  induction s with
  | nil => intro _ c hc; cases hc
  | cons a as ih =>
    intro h c hc
    by_cases ha : a = '.'
    · simp only [splitDots, ha, if_true, List.mem_cons] at h
      rcases List.mem_cons.mp hc with e | e
      · exact Or.inl (e.trans ha)
      · exact ih (fun f hf => h f (Or.inr hf)) c e
    · simp only [splitDots, ha, if_false] at h
      cases hs : splitDots as with
      | nil =>
        rw [hs] at h
        have h1 := h [a] (by simp)
        rcases List.mem_cons.mp hc with e | e
        · right; rw [e]; simpa using h1
        · exact ih (by rw [hs]; intro f hf; cases hf) c e
      | cons g gs =>
        rw [hs] at h
        have h1 := h (a :: g) (by simp)
        simp only [List.all_cons, Bool.and_eq_true] at h1
        rcases List.mem_cons.mp hc with e | e
        · right; rw [e]; exact h1.1
        · refine ih ?_ c e
          rw [hs]
          intro f hf
          rcases List.mem_cons.mp hf with e2 | e2
          · rw [e2]; exact h1.2
          · exact h f (by simp [e2])

theorem parseOctet_digits (f : List Char) (n : Nat) (h : parseOctet f = some n) :
    f.all Char.isDigit = true := by
  unfold parseOctet at h
  split at h
  · rename_i hc; exact hc.2.1
  · cases h

theorem isIPv4_chars (address : List Char) (h : isIPv4 address = true) :
    address ≠ [] ∧ ∀ c ∈ address, c = '.' ∨ c.isDigit = true := by
  unfold isIPv4 parseIPv4 at h
  split at h
  · rename_i a b c d heq
    constructor
    · intro e
      subst e
      simp [splitDots, parseOctet] at heq
    · apply splitDots_all
      intro f hf
      have hm : parseOctet f ∈ (splitDots address).map parseOctet := List.mem_map_of_mem _ hf
      rw [heq] at hm
      simp only [List.mem_cons, List.mem_singleton, List.not_mem_nil, or_false] at hm
      rcases hm with e | e | e | e <;> exact parseOctet_digits f _ e
  · simp at h

theorem isIPv4_address_chars (address : List Char) (h : isIPv4 address = true) :
    ∀ c ∈ address, isAddressChar c = true := by
  intro c hc
  rcases (isIPv4_chars address h).2 c hc with e | e
  · subst e; decide
  · simp [isAddressChar, e]

theorem digit_ne_separators (c : Char) (h : c.isDigit = true) : c ≠ ';' ∧ c ≠ ':' := by
  constructor <;> (intro e; subst e; exact absurd h (by decide))

theorem ValidItem_no_separator (slot : List Char) (h : ValidItem slot) :
    ';' ∉ slot ∧ slot ≠ [] := by
  obtain ⟨address, hip, hcase⟩ := h
  have haddr : ';' ∉ address := by
    intro hmem
    exact absurd (isIPv4_address_chars address hip _ hmem) (by decide)
  have hne := (isIPv4_chars address hip).1
  rcases hcase with e | ⟨port, e, _, hd, _, _⟩
  · subst e; exact ⟨haddr, hne⟩
  · subst e
    refine ⟨?_, by simp⟩
    intro hmem
    rcases List.mem_append.mp hmem with h1 | h1
    · exact haddr h1
    · rcases List.mem_cons.mp h1 with h2 | h2
      · exact absurd h2 (by decide)
      · exact (digit_ne_separators _ (List.all_eq_true.mp hd _ h2)).1 rfl

theorem match_valid_item (address : List Char) (hne : address ≠ [])
    (hchars : ∀ c ∈ address, isAddressChar c = true) :
    match_ROS2_ADDRESS_PATTERN address = some (some address, none) ∧
    ∀ port : List Char, port ≠ [] → port.all Char.isDigit = true →
      match_ROS2_ADDRESS_PATTERN (address ++ ':' :: port) = some (some address, some port) := by
  have hcolon : ¬ isAddressChar ':' = true := by decide
  constructor
  · have h1 : address.takeWhile isAddressChar = address :=
      List.takeWhile_eq_self_iff.mpr hchars
    have h2 : address.dropWhile isAddressChar = [] := List.dropWhile_eq_nil_iff.mpr hchars
    simp [match_ROS2_ADDRESS_PATTERN, hne, h1, h2]
  · intro port hp hd
    have h1 : (address ++ ':' :: port).takeWhile isAddressChar = address := by
      rw [List.takeWhile_append_of_pos hchars, List.takeWhile_cons_of_neg hcolon]
      simp
    have h2 : (address ++ ':' :: port).dropWhile isAddressChar = ':' :: port := by
      rw [List.dropWhile_append_of_pos hchars, List.dropWhile_cons_of_neg hcolon]
    simp [match_ROS2_ADDRESS_PATTERN, h1, h2, hne, hp, hd]

theorem default_guidPrefix_of_lt (i : Nat) (h : i < 256) :
    get_server_client_default_guidPrefix (i : Int) = some (prefix_of_server i) := by
  have h1 : (0 : Int) ≤ i ∧ (i : Int) < 256 := by omega
  have h2 : ((i : Int) % 256).toNat = i := by omega
  simp only [get_server_client_default_guidPrefix, h1, and_self, if_true, h2, prefix_of_server]

theorem set_slot_port_valid (env : ServerListEnv) (locator : Locator_t) (port : List Char)
    (h1 : 1 ≤ digitsValue port) (h2 : digitsValue port ≤ 65535) :
    ∃ l, set_slot_port env locator (some port) = some l := by
  have hfit : digitsValue port ≤ 2147483647 := by omega
  have hle : ¬ ((digitsValue port : Nat) : Int) > 65535 := by omega
  have hmod : (((digitsValue port : Nat) : Int) % 65536).toNat ≠ 0 := by omega
  simp [set_slot_port, stoi, hfit, hle, setPhysicalPort, hmod]

/-- A valid item in a slot numbered below 256 adds one record with the prefix of the slot. -/
theorem process_slot_valid (env : ServerListEnv) (st : ServerListState) (slot : List Char)
    (hv : ValidItem slot) (hid : st.server_id < 256) :
    ∃ st1, process_slot env st slot = some st1 := by
  obtain ⟨address, hip, hcase⟩ := hv
  obtain ⟨quad, hq⟩ := Option.isSome_iff_exists.mp hip
  obtain ⟨m1, m2⟩ := match_valid_item address (isIPv4_chars address hip).1
    (isIPv4_address_chars address hip)
  have hmatch : ∃ pm, match_ROS2_ADDRESS_PATTERN slot = some (some address, pm) ∧
      ∀ locator, ∃ l, set_slot_port env locator pm = some l := by
    rcases hcase with e | ⟨port, e, hp, hd, h1, h2⟩
    · exact ⟨none, by rw [e]; exact m1, fun locator => ⟨_, rfl⟩⟩
    · exact ⟨some port, by rw [e]; exact m2 port hp hd,
        fun locator => set_slot_port_valid env locator port h1 h2⟩
  obtain ⟨pm, hm, hport⟩ := hmatch
  unfold process_slot
  simp only [hm, Option.getD_some, hip, Bool.not_true, Bool.false_eq_true, if_false, setIPv4, hq,
    default_guidPrefix_of_lt st.server_id hid]
  split
  · rename_i heq
    obtain ⟨l, hl⟩ := hport _
    rw [hl] at heq
    cases heq
  · exact ⟨_, rfl⟩

theorem parse_slots_valid (env : ServerListEnv) (slots : List (List Char)) :
    ∀ st : ServerListState,
      (∀ s ∈ slots, s = [] ∨ ValidItem s) → st.server_id + slots.length ≤ 256 →
      ∃ st1, parse_slots env slots st = some st1 ∧
        st1.attributes.map (fun a => a.guidPrefix) =
          st.attributes.map (fun a => a.guidPrefix) ++
            ((slots.enumFrom st.server_id).filter (fun p => decide (p.2 ≠ []))).map
              (fun p => prefix_of_server p.1) := by
  induction slots with
  | nil => intro st _ _; exact ⟨st, rfl, by simp⟩
  | cons slot rest ih =>
    intro st hv hlen
    simp only [List.length_cons] at hlen
    have hrest : ∀ s ∈ rest, s = [] ∨ ValidItem s := fun s hs => hv s (List.mem_cons_of_mem _ hs)
    rcases hv slot (by simp) with he | hvalid
    · subst he
      obtain ⟨st1, h1, h2⟩ := ih { st with server_id := st.server_id + 1 } hrest
        (by simp only; omega)
      refine ⟨st1, by simp only [parse_slots, process_slot_nil, h1], ?_⟩
      rw [h2]
      simp
    · obtain ⟨st0, h0⟩ := process_slot_valid env st slot hvalid (by omega)
      obtain ⟨hid, hcase⟩ := process_slot_some env st st0 slot h0
      have hne := (ValidItem_no_separator slot hvalid).2
      rcases hcase with ⟨he, _⟩ | ⟨_, att, hatt, hg⟩
      · exact absurd he hne
      · obtain ⟨st1, h1, h2⟩ := ih { st0 with server_id := st0.server_id + 1 } hrest
          (by simp only [hid]; omega)
        refine ⟨st1, by simp only [parse_slots, h0, h1], ?_⟩
        rw [default_guidPrefix_of_lt st.server_id (by omega)] at hg
        rw [h2]
        simp only [hatt, hid, List.map_append, List.map_cons, List.map_nil, List.enumFrom_cons,
          List.filter_cons, hne, ne_eq, not_false_eq_true, decide_True, if_true,
          List.append_assoc, List.singleton_append]
        rw [← Option.some.inj hg]

/-- C7: for a list of at most 256 slots separated by `;` in which every non-empty slot is a
dotted-quad IPv4 item `address[:port]` with a port in 1..65535 and at least one slot is not
empty, `load_environment_server_info` returns true and outputs one record per non-empty slot,
in slot order; the record of the slot at zero-based position i carries the default GUID prefix
with octet index 2 equal to i (empty slots yield no record but count as positions). -/
theorem valid_list_parsed (env : ServerListEnv) (slots : List (List Char))
    (attributes : RemoteServerList_t)
    (hlen : slots.length ≤ 256)
    (hvalid : ∀ s ∈ slots, s = [] ∨ ValidItem s)
    (hsome : ∃ s ∈ slots, s ≠ []) :
    (load_environment_server_info env (joinSlots slots) attributes).1 = true ∧
    (load_environment_server_info env (joinSlots slots) attributes).2.map
        (fun a => a.guidPrefix) = expected_prefixes slots := by
  have hsep : ∀ s ∈ slots, ';' ∉ s := by
    intro s hs
    rcases hvalid s hs with e | e
    · rw [e]; exact List.not_mem_nil _
    · exact (ValidItem_no_separator s e).1
  obtain ⟨st1, h1, h2⟩ := parse_slots_valid env slots (initial_state env) hvalid
    (by simpa [initial_state] using hlen)
  have h3 : st1.attributes.map (fun a => a.guidPrefix) = expected_prefixes slots := by
    rw [h2]; simp [initial_state, expected_prefixes, List.enum]
  have hne : st1.attributes ≠ [] := by
    intro e
    rw [e] at h3
    obtain ⟨s, hs, hsne⟩ := hsome
    obtain ⟨i, hi⟩ := List.getElem?_of_mem hs
    have : (i, s) ∈ slots.enum.filter (fun p => decide (p.2 ≠ [])) := by
      rw [List.mem_filter]
      exact ⟨List.mk_mem_enum_iff_getElem?.mpr hi, by simpa using hsne⟩
    have h4 : expected_prefixes slots ≠ [] := by
      unfold expected_prefixes
      intro e2
      rw [List.map_eq_nil_iff] at e2
      rw [e2] at this
      cases this
    exact h4 h3.symm
  rw [load_join env slots attributes hsep (joinSlots_ne_nil slots hsome), h1]
  simp only [hne, if_false]
  exact ⟨trivial, h3⟩

/-- Witness of `valid_list_parsed`: the list `1.2.3.4:5000;;9.9.9.9` yields the records of
server ids 0 and 2. -/
theorem valid_list_parsed_witness :
    (load_environment_server_info sampleEnv "1.2.3.4:5000;;9.9.9.9".toList []).1 = true ∧
    (load_environment_server_info sampleEnv "1.2.3.4:5000;;9.9.9.9".toList []).2.map
        (fun a => a.guidPrefix)
      = [[0x44, 0x53, 0, 0x5f, 0x45, 0x50, 0x52, 0x4f, 0x53, 0x49, 0x4d, 0x41],
         [0x44, 0x53, 2, 0x5f, 0x45, 0x50, 0x52, 0x4f, 0x53, 0x49, 0x4d, 0x41]] :=
  valid_list_parsed sampleEnv ["1.2.3.4:5000".toList, [], "9.9.9.9".toList] []
    (by decide)
    (by
      intro s hs
      simp only [List.mem_cons, List.mem_singleton, List.not_mem_nil, or_false] at hs
      rcases hs with rfl | rfl | rfl
      · exact Or.inr ⟨"1.2.3.4".toList, by decide,
          Or.inr ⟨"5000".toList, rfl, by decide, by decide, by decide, by decide⟩⟩
      · exact Or.inl rfl
      · exact Or.inr ⟨"9.9.9.9".toList, by decide, Or.inl rfl⟩)
    ⟨"9.9.9.9".toList, by decide, by decide⟩

/-! ### The server list: ports and addresses of the records -/

/-- The sub-matches of the address pattern are the text before and after the colon. -/
theorem match_address_fields (slot : List Char) (g1 g2 : Option (List Char))
    (h : match_ROS2_ADDRESS_PATTERN slot = some (g1, g2)) :
    g1.getD [] = slot_address slot ∧
    g2 = (if slot_port_field slot = [] then none else some (slot_port_field slot)) := by
  have hsplit := List.takeWhile_append_dropWhile isAddressChar slot
  have hcolon : ∀ c ∈ slot.takeWhile isAddressChar, decide (c ≠ ':') = true := by
    intro c hc
    have := List.mem_takeWhile_imp hc
    have hne : c ≠ ':' := by
      intro e; subst e; exact absurd this (by decide)
    simpa using hne
  unfold match_ROS2_ADDRESS_PATTERN at h
  split at h
  · cases h
  · simp only at h
    split at h
    · rename_i hall
      simp only [Option.some.injEq, Prod.mk.injEq] at h
      obtain ⟨h1, h2⟩ := h
      have hg1 : g1.getD [] = slot.takeWhile isAddressChar := by
        rw [← h1]
        by_cases ha : List.takeWhile isAddressChar slot = []
        · rw [if_pos ha, ha]; rfl
        · rw [if_neg ha]; rfl
      unfold slot_address slot_port_field
      rw [← hsplit, List.takeWhile_append_of_pos hcolon, List.dropWhile_append_of_pos hcolon, hg1]
      cases hrest : slot.dropWhile isAddressChar with
      | nil =>
        rw [hrest] at h2 hall
        simp only [List.takeWhile_nil, List.append_nil, List.dropWhile_nil, if_true]
        exact ⟨trivial, by simpa using h2.symm⟩
      | cons c r =>
        rw [hrest] at h2 hall
        have hnot : isAddressChar c = false := by
          have := List.head_dropWhile_not isAddressChar slot (by rw [hrest]; simp)
          simpa [hrest] using this
        by_cases hc : c = ':'
        · subst hc
          simp only [ne_eq, not_true_eq_false, decide_False, Bool.false_eq_true,
            not_false_eq_true, List.takeWhile_cons_of_neg, List.append_nil,
            List.dropWhile_cons_of_neg, true_and]
          simpa using h2.symm
        · exfalso
          have hmatch : (match c :: r with
              | ':' :: r => r
              | r => r) = c :: r := by
            split
            · rename_i r2 heq
              exact absurd (List.cons.inj heq).1 hc
            · rfl
          rw [hmatch] at hall
          simp only [List.all_cons, Bool.and_eq_true] at hall
          have : isAddressChar c = true := by simp [isAddressChar, hall.1]
          rw [hnot] at this
          cases this
    · cases h

theorem set_slot_port_result (env : ServerListEnv) (locator result : Locator_t)
    (g2 : Option (List Char)) (h : set_slot_port env locator g2 = some result) :
    result.address = locator.address ∧
    (g2 = none → result.port = env.DEFAULT_ROS2_SERVER_PORT) ∧
    (∀ digits, g2 = some digits → result.port = digitsValue digits) := by
  unfold set_slot_port at h
  cases g2 with
  | none =>
    simp only [Option.some.injEq] at h
    subst h
    exact ⟨rfl, fun _ => rfl, fun _ hd => (by cases hd)⟩
  | some digits =>
    simp only [stoi] at h
    split at h
    · cases h
    · rename_i port hport
      split at hport
      · simp only [Option.some.injEq] at hport
        subst hport
        split at h
        · cases h
        · rename_i hle
          split at h
          · cases h
          · simp only [Option.some.injEq] at h
            subst h
            refine ⟨rfl, fun hd => (by cases hd), fun d hd => ?_⟩
            simp only [Option.some.injEq] at hd
            subst hd
            simp only [setPhysicalPort]
            omega
      · cases hport

/-- The record that a non-empty slot adds: one unicast locator, never the "any" address, with
the port and the address the slot gives. -/
theorem process_slot_record (env : ServerListEnv) (st st1 : ServerListState)
    (slot : List Char) (h : process_slot env st slot = some st1) (hne : slot ≠ []) :
    ∃ (att : RemoteServerAttributes) (loc : Locator_t),
      st1.attributes = st.attributes ++ [att] ∧
      att.metatrafficUnicastLocatorList = [loc] ∧
      loc.port = slot_port env.DEFAULT_ROS2_SERVER_PORT slot ∧
      isAny loc = false ∧
      (parseIPv4 (slot_address slot) = some [0, 0, 0, 0] → loc.address = loopback_address) := by
  unfold process_slot at h
  split at h
  · rename_i g1 g2 hm
    obtain ⟨hg1, hg2⟩ := match_address_fields slot g1 g2 hm
    simp only at h
    split at h
    · cases h
    · rename_i located hloc
      split at h
      · cases h
      · rename_i server_locator hport
        split at h
        · cases h
        · rename_i guidPrefix hg
          simp only [Option.some.injEq] at h
          subst h
          obtain ⟨haddr, hp1, hp2⟩ := set_slot_port_result env _ _ _ hport
          refine ⟨_, server_locator, rfl, rfl, ?_, ?_, ?_⟩
          · unfold slot_port
            by_cases hf : slot_port_field slot = []
            · simp only [hf, if_true] at hg2 ⊢
              exact hp1 hg2
            · simp only [hf, if_false] at hg2 ⊢
              exact hp2 _ hg2
          · unfold isAny
            rw [haddr]
            split
            · rfl
            · rename_i hany
              simpa [isAny] using hany
          · intro hzero
            rw [haddr]
            have hip : isIPv4 (slot_address slot) = true := by simp [isIPv4, hzero]
            rw [hg1] at hloc
            simp only [hip, Bool.not_true, Bool.false_eq_true, if_false, setIPv4, hzero,
              Option.some.injEq] at hloc
            subst hloc
            simp [isAny, loopback_address]
  · split at h
    · cases h
    · rename_i hn
      exact absurd (by simpa using hn) hne

/-- The records of a parse correspond, in order, to the non-empty slots; each pair satisfies
whatever `process_slot` guarantees of a non-empty slot and the record it adds. -/
theorem parse_slots_records (env : ServerListEnv)
    (R : List Char → RemoteServerAttributes → Prop)
    (hR : ∀ (st st1 : ServerListState) (slot : List Char) (att : RemoteServerAttributes),
      process_slot env st slot = some st1 → slot ≠ [] →
      st1.attributes = st.attributes ++ [att] → R slot att)
    (slots : List (List Char)) :
    ∀ st st1 : ServerListState, parse_slots env slots st = some st1 →
      ∃ recs, st1.attributes = st.attributes ++ recs ∧
        List.Forall₂ R (slots.filter (fun s => decide (s ≠ []))) recs := by
  induction slots with
  | nil =>
    intro st st1 h
    simp only [parse_slots, Option.some.injEq] at h
    subst h
    exact ⟨[], by simp, by simp⟩
  | cons slot rest ih =>
    intro st st1 h
    simp only [parse_slots] at h
    split at h
    · cases h
    · rename_i st0 h0
      obtain ⟨recs, hrecs, hall⟩ := ih _ st1 h
      obtain ⟨_, hcase⟩ := process_slot_some env st st0 slot h0
      rcases hcase with ⟨he, hst⟩ | ⟨hne, att, hatt, _⟩
      · subst he
        subst hst
        exact ⟨recs, hrecs, by simpa using hall⟩
      · refine ⟨att :: recs, ?_, ?_⟩
        · rw [hrecs]; simp only [hatt, List.append_assoc, List.singleton_append]
        · simp only [List.filter_cons, hne, ne_eq, not_false_eq_true, decide_True, if_true]
          exact List.Forall₂.cons (hR st st0 slot att h0 hne hatt) hall

/-- The output of a successful call in terms of the slots. -/
theorem load_success_records (env : ServerListEnv)
    (R : List Char → RemoteServerAttributes → Prop)
    (hR : ∀ (st st1 : ServerListState) (slot : List Char) (att : RemoteServerAttributes),
      process_slot env st slot = some st1 → slot ≠ [] →
      st1.attributes = st.attributes ++ [att] → R slot att)
    (slots : List (List Char)) (attributes : RemoteServerList_t)
    (hsep : ∀ s ∈ slots, ';' ∉ s)
    (hok : (load_environment_server_info env (joinSlots slots) attributes).1 = true) :
    List.Forall₂ R (slots.filter (fun s => decide (s ≠ [])))
      (load_environment_server_info env (joinSlots slots) attributes).2 := by
  have hne : joinSlots slots ≠ [] := by
    intro e
    rw [e] at hok
    simp [load_environment_server_info] at hok
  rw [load_join env slots attributes hsep hne] at hok ⊢
  generalize hp : parse_slots env slots (initial_state env) = res at hok ⊢
  cases res with
  | none => exact absurd hok (by simp)
  | some st1 =>
    dsimp only at hok ⊢
    obtain ⟨recs, hrecs, hall⟩ := parse_slots_records env R hR slots _ st1 hp
    by_cases hnonempty : st1.attributes = []
    · simp only [hnonempty, if_true] at hok
      cases hok
    · simp only [hnonempty, if_false]
      rw [hrecs]
      simpa [initial_state] using hall

theorem forall₂_map_eq {α β γ : Type} (f : α → γ) (g : β → γ) (l1 : List α) (l2 : List β)
    (h : List.Forall₂ (fun a b => g b = f a) l1 l2) : l2.map g = l1.map f := by
  induction h with
  | nil => rfl
  | cons hab _ ih => simp [hab, ih]

/-- C11: for every successfully parsed list, the records correspond in order to the non-empty
slots, and the unicast locator of each record has the port of its slot: the number after the
colon when the slot gives one, the default discovery-server port when it gives none,
whatever ports the earlier slots gave. -/
theorem record_ports (env : ServerListEnv) (slots : List (List Char))
    (attributes : RemoteServerList_t) (hsep : ∀ s ∈ slots, ';' ∉ s)
    (hok : (load_environment_server_info env (joinSlots slots) attributes).1 = true) :
    (load_environment_server_info env (joinSlots slots) attributes).2.map
        (fun att => att.metatrafficUnicastLocatorList.map (fun loc => loc.port))
      = (slots.filter (fun s => decide (s ≠ []))).map
          (fun s => [slot_port env.DEFAULT_ROS2_SERVER_PORT s]) := by
  apply forall₂_map_eq
  apply load_success_records env _ _ slots attributes hsep hok
  intro st st1 slot att h hne hatt
  obtain ⟨att2, loc, h1, h2, h3, _, _⟩ := process_slot_record env st st1 slot h hne
  have : att = att2 := by
    rw [hatt] at h1
    simpa using List.append_cancel_left h1
  subst this
  simp [h2, h3]

/-- Witness of `record_ports`: an explicit port, an empty slot, an omitted port and another
explicit port. -/
theorem record_ports_witness :
    (load_environment_server_info sampleEnv "1.2.3.4:5000;;9.9.9.9;8.8.8.8:77".toList []).2.map
        (fun att => att.metatrafficUnicastLocatorList.map (fun loc => loc.port))
      = [[5000], [11811], [77]] :=
  record_ports sampleEnv
    ["1.2.3.4:5000".toList, [], "9.9.9.9".toList, "8.8.8.8:77".toList] []
    (by decide) (by decide)

/-- C12: for every successfully parsed list, the records correspond in order to the non-empty
slots; no unicast locator of a record carries the "any" address, and a slot whose address is
the "any" address `0.0.0.0` yields a record whose unicast locator address is `127.0.0.1`. -/
theorem any_address_becomes_loopback (env : ServerListEnv) (slots : List (List Char))
    (attributes : RemoteServerList_t) (hsep : ∀ s ∈ slots, ';' ∉ s)
    (hok : (load_environment_server_info env (joinSlots slots) attributes).1 = true) :
    List.Forall₂
      (fun slot att => ∃ loc : Locator_t,
        att.metatrafficUnicastLocatorList = [loc] ∧ isAny loc = false ∧
        (parseIPv4 (slot_address slot) = some [0, 0, 0, 0] → loc.address = loopback_address))
      (slots.filter (fun s => decide (s ≠ [])))
      (load_environment_server_info env (joinSlots slots) attributes).2 := by
  apply load_success_records env _ _ slots attributes hsep hok
  intro st st1 slot att h hne hatt
  obtain ⟨att2, loc, h1, h2, _, h4, h5⟩ := process_slot_record env st st1 slot h hne
  have : att = att2 := by
    rw [hatt] at h1
    simpa using List.append_cancel_left h1
  subst this
  exact ⟨loc, h2, h4, h5⟩

/-- Witness of `any_address_becomes_loopback`: the list `0.0.0.0:5000;1.2.3.4`. -/
theorem any_address_becomes_loopback_witness :
    List.Forall₂
      (fun slot att => ∃ loc : Locator_t,
        att.metatrafficUnicastLocatorList = [loc] ∧ isAny loc = false ∧
        (parseIPv4 (slot_address slot) = some [0, 0, 0, 0] → loc.address = loopback_address))
      ["0.0.0.0:5000".toList, "1.2.3.4".toList]
      (load_environment_server_info sampleEnv "0.0.0.0:5000;1.2.3.4".toList []).2 :=
  any_address_becomes_loopback sampleEnv ["0.0.0.0:5000".toList, "1.2.3.4".toList] []
    (by decide) (by decide)

/-! ### The default GUID prefix of a server -/

theorem default_guidPrefix_value (id : Int) (h0 : 0 ≤ id) (h1 : id ≤ 255) :
    get_server_client_default_guidPrefix id =
      some [0x44, 0x53, id.toNat, 0x5f, 0x45, 0x50, 0x52, 0x4f, 0x53, 0x49, 0x4d, 0x41] := by
  have hr : 0 ≤ id ∧ id < 256 := ⟨h0, by omega⟩
  have hm : (id % 256).toNat = id.toNat := by omega
  simp only [get_server_client_default_guidPrefix, hr, and_self, if_true, hm,
    DEFAULT_ROS2_SERVER_GUIDPREFIX]
  rfl

/-- C13: `get_server_client_default_guidPrefix(id, guid)` returns true if and only if
0 <= id <= 255; when it returns true, `guid` is the template
`44.53.00.5f.45.50.52.4f.53.49.4d.41` with octet index 2 replaced by `id` and the other eleven
octets unchanged; distinct ids in range give distinct prefixes. -/
theorem default_guidPrefix_spec :
    (∀ id : Int, (get_server_client_default_guidPrefix id).isSome = true ↔
      (0 ≤ id ∧ id ≤ 255)) ∧
    (∀ id : Int, 0 ≤ id → id ≤ 255 →
      get_server_client_default_guidPrefix id =
        some [0x44, 0x53, id.toNat, 0x5f, 0x45, 0x50, 0x52, 0x4f, 0x53, 0x49, 0x4d, 0x41]) ∧
    (∀ i j : Int, 0 ≤ i → i ≤ 255 → 0 ≤ j → j ≤ 255 →
      get_server_client_default_guidPrefix i = get_server_client_default_guidPrefix j →
      i = j) := by
  refine ⟨?_, default_guidPrefix_value, ?_⟩
  · intro id
    constructor
    · intro h
      by_cases hr : 0 ≤ id ∧ id < 256
      · exact ⟨hr.1, by omega⟩
      · simp [get_server_client_default_guidPrefix, hr] at h
    · intro h
      rw [default_guidPrefix_value id h.1 h.2]
      rfl
  · intro i j hi0 hi1 hj0 hj1 h
    rw [default_guidPrefix_value i hi0 hi1, default_guidPrefix_value j hj0 hj1] at h
    simp only [Option.some.injEq, List.cons.injEq, true_and, and_true] at h
    omega

/-- Witness of `default_guidPrefix_spec`: the prefix of server id 7. -/
theorem default_guidPrefix_spec_witness :
    get_server_client_default_guidPrefix 7 =
      some [0x44, 0x53, 7, 0x5f, 0x45, 0x50, 0x52, 0x4f, 0x53, 0x49, 0x4d, 0x41] :=
  default_guidPrefix_spec.2.1 7 (by decide) (by decide)

/-! ### The client engine: announcements -/

theorem announcement_targets_foldl (serverPing : Bool) (servers : List RemoteServerAttributes) :
    ∀ acc : List GUID_t × List Locator_t,
      servers.foldl
        (fun (acc : List GUID_t × List Locator_t) svr =>
          if svr.proxy = none ∨ serverPing = false then
            (acc.1 ++ [svr.GetPDPReader],
             (acc.2 ++ svr.metatrafficMulticastLocatorList) ++ svr.metatrafficUnicastLocatorList)
          else acc) acc
      = (acc.1 ++ (servers.filter
            (fun svr => decide (svr.proxy = none ∨ serverPing = false))).map
              (fun svr => svr.GetPDPReader),
         acc.2 ++ (servers.filter
            (fun svr => decide (svr.proxy = none ∨ serverPing = false))).flatMap
              (fun svr => svr.metatrafficMulticastLocatorList ++
                svr.metatrafficUnicastLocatorList)) := by
  induction servers with
  | nil => intro acc; simp
  | cons svr rest ih =>
    intro acc
    rw [List.foldl_cons, ih]
    by_cases h : svr.proxy = none ∨ serverPing = false
    · simp [h, List.filter_cons, List.flatMap_cons]
    · simp [h, List.filter_cons]

/-- The targets of a re-announcement: the servers without a proxy, and all servers when
`_serverPing` is not set; each with its multicast and its unicast locators. -/
theorem announcement_targets_eq (servers : List RemoteServerAttributes) (serverPing : Bool) :
    announcement_targets servers serverPing
      = ((servers.filter (fun svr => decide (svr.proxy = none ∨ serverPing = false))).map
            (fun svr => svr.GetPDPReader),
         (servers.filter (fun svr => decide (svr.proxy = none ∨ serverPing = false))).flatMap
            (fun svr => svr.metatrafficMulticastLocatorList ++
              svr.metatrafficUnicastLocatorList)) := by
  unfold announcement_targets
  rw [announcement_targets_foldl]
  simp

/-- A re-announcement with a change in the writer history sends that change once. -/
theorem reannouncement_sent (s : PDPClient) (env : AnnounceEnv) (pPD : CacheChange_t)
    (h : get_min_change s.mp_PDPWriterHistory = some pPD) :
    announceParticipantState s false false env =
      { s with
        sent := s.sent ++
          [{ change := pPD
             remote_readers := (announcement_targets s.m_DiscoveryServers s._serverPing).1
             locators := (announcement_targets s.m_DiscoveryServers s._serverPing).2 }]
        _serverPing := false } := by
  simp [announceParticipantState, PDP.announceParticipantState, h]

theorem get_min_change_of_ne_nil (history : List CacheChange_t) (h : history ≠ []) :
    ∃ pPD, get_min_change history = some pPD := by
  cases history with
  | nil => exact absurd rfl h
  | cons c cs => exact ⟨c, rfl⟩

/-- C14 (as amended): in `announceParticipantState(new_change=false, dispose=false)` with a
non-empty writer history, one message is direct-sent; a configured server is addressed by it
if and only if the server has no live proxy or `_serverPing` is not set, and every addressed
server contributes both its multicast and its unicast metatraffic locators (no server is
addressed at its unicast locators only, and a server with a live proxy is skipped while
`_serverPing` is set). -/
theorem reannouncement_addressing (s : PDPClient) (env : AnnounceEnv)
    (hhist : s.mp_PDPWriterHistory ≠ []) :
    ∃ msg : DirectMessage,
      (announceParticipantState s false false env).sent = s.sent ++ [msg] ∧
      msg.remote_readers =
        (s.m_DiscoveryServers.filter
          (fun svr => decide (svr.proxy = none ∨ s._serverPing = false))).map
          (fun svr => svr.GetPDPReader) ∧
      ∀ loc : Locator_t, loc ∈ msg.locators ↔
        ∃ svr ∈ s.m_DiscoveryServers, (svr.proxy = none ∨ s._serverPing = false) ∧
          (loc ∈ svr.metatrafficMulticastLocatorList ∨
           loc ∈ svr.metatrafficUnicastLocatorList) := by
  obtain ⟨pPD, hp⟩ := get_min_change_of_ne_nil _ hhist
  rw [reannouncement_sent s env pPD hp, announcement_targets_eq]
  refine ⟨_, rfl, rfl, ?_⟩
  intro loc
  simp only [List.mem_flatMap, List.mem_filter, decide_eq_true_eq, List.mem_append]
  constructor
  · rintro ⟨svr, ⟨hs, ht⟩, hl⟩
    exact ⟨svr, hs, ht, hl⟩
  · rintro ⟨svr, hs, ht, hl⟩
    exact ⟨svr, ⟨hs, ht⟩, hl⟩

/-- Witness of `reannouncement_addressing`: one server with a live proxy, no ping. -/
theorem reannouncement_addressing_witness :
    ∃ msg : DirectMessage,
      (announceParticipantState
        (sampleClient [sampleServer (some (sampleServerProxy 3))] false [sampleData])
        false false okAnnounceEnv).sent
        = (sampleClient [sampleServer (some (sampleServerProxy 3))] false [sampleData]).sent
          ++ [msg] ∧
      msg.remote_readers =
        ((sampleClient [sampleServer (some (sampleServerProxy 3))] false
            [sampleData]).m_DiscoveryServers.filter
          (fun svr => decide (svr.proxy = none ∨
            (sampleClient [sampleServer (some (sampleServerProxy 3))] false
              [sampleData])._serverPing = false))).map
          (fun svr => svr.GetPDPReader) ∧
      ∀ loc : Locator_t, loc ∈ msg.locators ↔
        ∃ svr ∈ (sampleClient [sampleServer (some (sampleServerProxy 3))] false
            [sampleData]).m_DiscoveryServers,
          (svr.proxy = none ∨
            (sampleClient [sampleServer (some (sampleServerProxy 3))] false
              [sampleData])._serverPing = false) ∧
          (loc ∈ svr.metatrafficMulticastLocatorList ∨
           loc ∈ svr.metatrafficUnicastLocatorList) :=
  reannouncement_addressing
    (sampleClient [sampleServer (some (sampleServerProxy 3))] false [sampleData])
    okAnnounceEnv (by decide)

/-- C14 (counterexample): the only server has a live proxy and `_serverPing` is not set, so
the claim expects its unicast locators only; the message sent is addressed to its multicast
locator as well. -/
theorem reannouncement_multicast_to_known_server :
    (sampleServer (some (sampleServerProxy 3))).proxy ≠ none ∧
    (sampleClient [sampleServer (some (sampleServerProxy 3))] false [sampleData])._serverPing
      = false ∧
    (announceParticipantState
      (sampleClient [sampleServer (some (sampleServerProxy 3))] false [sampleData])
      false false okAnnounceEnv).sent.map (fun msg => msg.locators)
      = [[sampleMulticast, sampleUnicast]] := by
  decide

/-- C15 (as amended): when `announceParticipantState(new_change=false, dispose=false)`
returns, `_serverPing` is false if the writer history held a change, whether or not any
server was targeted; if the writer history held no change, `_serverPing` keeps the value it
had. -/
theorem serverPing_after_reannouncement (s : PDPClient) (env : AnnounceEnv) :
    (s.mp_PDPWriterHistory ≠ [] →
      (announceParticipantState s false false env)._serverPing = false) ∧
    (s.mp_PDPWriterHistory = [] →
      (announceParticipantState s false false env)._serverPing = s._serverPing) := by
  constructor
  · intro h
    obtain ⟨pPD, hp⟩ := get_min_change_of_ne_nil _ h
    rw [reannouncement_sent s env pPD hp]
  · intro h
    simp [announceParticipantState, PDP.announceParticipantState, h, get_min_change]

/-- Witness of `serverPing_after_reannouncement`: a pinging client with a change in its
history and no server at all. -/
theorem serverPing_after_reannouncement_witness :
    (announceParticipantState (sampleClient [] true [sampleData]) false false
      okAnnounceEnv)._serverPing = false :=
  (serverPing_after_reannouncement (sampleClient [] true [sampleData]) okAnnounceEnv).1
    (by decide)

/-- C15 (counterexample): on a client whose writer history is empty and whose `_serverPing`
is set, the re-announcement returns with `_serverPing` still set. -/
theorem serverPing_kept_without_change :
    (sampleClient [sampleServer none] true []).mp_PDPWriterHistory = [] ∧
    (announceParticipantState (sampleClient [sampleServer none] true []) false false
      okAnnounceEnv)._serverPing = true := by
  decide

/-- C16: for every configured server without a live proxy and either value of `_serverPing`,
a re-announcement `announceParticipantState(new_change=false, dispose=false)` with a non-empty
writer history sends one message that targets the SPDP reader GUID of that server and includes
both its multicast and its unicast metatraffic locators. -/
theorem unknown_server_pinged (s : PDPClient) (env : AnnounceEnv)
    (svr : RemoteServerAttributes)
    (hhist : s.mp_PDPWriterHistory ≠ [])
    (hsvr : svr ∈ s.m_DiscoveryServers) (hproxy : svr.proxy = none) :
    ∃ msg : DirectMessage,
      (announceParticipantState s false false env).sent = s.sent ++ [msg] ∧
      svr.GetPDPReader ∈ msg.remote_readers ∧
      (∀ loc ∈ svr.metatrafficMulticastLocatorList, loc ∈ msg.locators) ∧
      (∀ loc ∈ svr.metatrafficUnicastLocatorList, loc ∈ msg.locators) := by
  obtain ⟨pPD, hp⟩ := get_min_change_of_ne_nil _ hhist
  rw [reannouncement_sent s env pPD hp, announcement_targets_eq]
  have hin : svr ∈ s.m_DiscoveryServers.filter
      (fun svr => decide (svr.proxy = none ∨ s._serverPing = false)) := by
    rw [List.mem_filter]
    exact ⟨hsvr, by simp [hproxy]⟩
  refine ⟨_, rfl, ?_, ?_, ?_⟩
  · exact List.mem_map_of_mem _ hin
  · intro loc hl
    exact List.mem_flatMap.mpr ⟨svr, hin, List.mem_append_left _ hl⟩
  · intro loc hl
    exact List.mem_flatMap.mpr ⟨svr, hin, List.mem_append_right _ hl⟩

/-- Witness of `unknown_server_pinged`: a pinging client and a server not yet discovered. -/
theorem unknown_server_pinged_witness :
    ∃ msg : DirectMessage,
      (announceParticipantState (sampleClient [sampleServer none] true [sampleData])
        false false okAnnounceEnv).sent
        = (sampleClient [sampleServer none] true [sampleData]).sent ++ [msg] ∧
      (sampleServer none).GetPDPReader ∈ msg.remote_readers ∧
      (∀ loc ∈ (sampleServer none).metatrafficMulticastLocatorList, loc ∈ msg.locators) ∧
      (∀ loc ∈ (sampleServer none).metatrafficUnicastLocatorList, loc ∈ msg.locators) :=
  unknown_server_pinged (sampleClient [sampleServer none] true [sampleData]) okAnnounceEnv
    (sampleServer none) (by decide) (by decide) rfl

theorem dispose_targets_foldl (servers : List RemoteServerAttributes) :
    ∀ acc : List GUID_t × List Locator_t,
      servers.foldl
        (fun (acc : List GUID_t × List Locator_t) svr =>
          if svr.proxy ≠ none then
            (acc.1 ++ [svr.GetPDPReader], acc.2 ++ svr.metatrafficUnicastLocatorList)
          else acc) acc
      = (acc.1 ++ (servers.filter (fun svr => decide (svr.proxy ≠ none))).map
            (fun svr => svr.GetPDPReader),
         acc.2 ++ (servers.filter (fun svr => decide (svr.proxy ≠ none))).flatMap
            (fun svr => svr.metatrafficUnicastLocatorList)) := by
  induction servers with
  | nil => intro acc; simp
  | cons svr rest ih =>
    intro acc
    rw [List.foldl_cons, ih]
    by_cases h : svr.proxy = none
    · simp [h, List.filter_cons]
    · simp [h, List.filter_cons, List.flatMap_cons]

/-- The targets of a dispose message: the servers with a proxy, each with its unicast
locators. -/
theorem dispose_targets_eq (servers : List RemoteServerAttributes) :
    dispose_targets servers
      = ((servers.filter (fun svr => decide (svr.proxy ≠ none))).map
            (fun svr => svr.GetPDPReader),
         (servers.filter (fun svr => decide (svr.proxy ≠ none))).flatMap
            (fun svr => svr.metatrafficUnicastLocatorList)) := by
  unfold dispose_targets
  rw [dispose_targets_foldl]
  simp

/-- C17 (as amended): when the PDP writer can allocate the change (`new_change` does not
return null), `announceParticipantState(new_change, dispose=true)` direct-sends one
NOT_ALIVE_DISPOSED_UNREGISTERED change keyed by the local participant key; its remote readers
are exactly the SPDP reader GUIDs of the servers with a live proxy, in list order, and its
locators are exactly the unicast metatraffic locators of those servers: servers without a
proxy are left out and no multicast locator list is used. -/
theorem dispose_addressing (s : PDPClient) (new_change : Bool) (env : AnnounceEnv)
    (hok : env.new_change_ok = true) :
    ∃ msg : DirectMessage,
      (announceParticipantState s new_change true env).sent = s.sent ++ [msg] ∧
      msg.change.kind = ChangeKind_t.NOT_ALIVE_DISPOSED_UNREGISTERED ∧
      msg.change.instanceHandle = s.local_key ∧
      msg.remote_readers =
        (s.m_DiscoveryServers.filter (fun svr => decide (svr.proxy ≠ none))).map
          (fun svr => svr.GetPDPReader) ∧
      ∀ loc : Locator_t, loc ∈ msg.locators ↔
        ∃ svr ∈ s.m_DiscoveryServers, svr.proxy ≠ none ∧
          loc ∈ svr.metatrafficUnicastLocatorList := by
  simp only [announceParticipantState, hok, if_true, dispose_targets_eq]
  refine ⟨_, rfl, rfl, rfl, rfl, ?_⟩
  intro loc
  simp only [List.mem_flatMap, List.mem_filter, decide_eq_true_eq]
  constructor
  · rintro ⟨svr, ⟨hs, ht⟩, hl⟩
    exact ⟨svr, hs, ht, hl⟩
  · rintro ⟨svr, hs, ht, hl⟩
    exact ⟨svr, ⟨hs, ht⟩, hl⟩

/-- Witness of `dispose_addressing`: a known server and an unknown one; only the known one is
told, at its unicast locator. -/
theorem dispose_addressing_witness :
    (announceParticipantState
      (sampleClient [sampleServer (some (sampleServerProxy 3)),
        { sampleServer none with guidPrefix := prefix_of_server 1 }] false [sampleData])
      false true okAnnounceEnv).sent.map (fun msg => (msg.remote_readers, msg.locators))
      = [([(sampleServer none).GetPDPReader], [sampleUnicast])] ∧
    ∃ msg : DirectMessage,
      (announceParticipantState
        (sampleClient [sampleServer (some (sampleServerProxy 3)),
          { sampleServer none with guidPrefix := prefix_of_server 1 }] false [sampleData])
        false true okAnnounceEnv).sent
        = (sampleClient [sampleServer (some (sampleServerProxy 3)),
          { sampleServer none with guidPrefix := prefix_of_server 1 }] false [sampleData]).sent
          ++ [msg] :=
  ⟨by decide,
   (dispose_addressing
      (sampleClient [sampleServer (some (sampleServerProxy 3)),
        { sampleServer none with guidPrefix := prefix_of_server 1 }] false [sampleData])
      false okAnnounceEnv rfl).imp (fun _ h => h.1)⟩

/-- C17 (counterexample): when `new_change` returns no change, the dispose announcement sends
nothing, although a server with a live proxy is configured. -/
theorem dispose_without_change_sends_nothing :
    (sampleServer (some (sampleServerProxy 3))).proxy ≠ none ∧
    (announceParticipantState
      (sampleClient [sampleServer (some (sampleServerProxy 3))] false [sampleData])
      false true { writerPayloadSize := 100, new_change_ok := false }).sent = [] := by
  decide

/-! ### The client engine: acknowledgement -/

/-- C18: `all_servers_acknowledge_PDP()` returns true if and only if the PDP writer history has
a minimum change and `is_acked_by_all` holds of it; it returns false when the history is
empty. -/
theorem all_servers_acknowledge_PDP_iff (s : PDPClient) :
    (all_servers_acknowledge_PDP s = true ↔
      ∃ pPD, get_min_change s.mp_PDPWriterHistory = some pPD ∧
        s.mp_PDPWriter.is_acked_by_all pPD = true) ∧
    (s.mp_PDPWriterHistory = [] → all_servers_acknowledge_PDP s = false) := by
  unfold all_servers_acknowledge_PDP
  constructor
  · cases h : get_min_change s.mp_PDPWriterHistory with
    | none => simp
    | some pPD => simp
  · intro h
    simp [h, get_min_change]

/-- Witness of `all_servers_acknowledge_PDP_iff`: a client with an empty writer history. -/
theorem all_servers_acknowledge_PDP_iff_witness :
    all_servers_acknowledge_PDP (sampleClient [sampleServer none] false []) = false :=
  (all_servers_acknowledge_PDP_iff (sampleClient [sampleServer none] false [])).2 rfl

/-! ### The client engine: loss and return of a server -/

theorem remove_server_proxies_foldl (guidPrefix : GuidPrefix_t)
    (servers : List RemoteServerAttributes) :
    ∀ acc : List RemoteServerAttributes × Bool × Nat,
      servers.foldl
        (fun (acc : List RemoteServerAttributes × Bool × Nat) svr =>
          if svr.guidPrefix = guidPrefix then
            (acc.1 ++ [{ svr with proxy := none }], true, acc.2.2 + 1)
          else (acc.1 ++ [svr], acc.2.1, acc.2.2)) acc
      = (acc.1 ++ servers.map
            (fun svr => if svr.guidPrefix = guidPrefix then { svr with proxy := none }
              else svr),
         acc.2.1 || servers.any (fun svr => decide (svr.guidPrefix = guidPrefix)),
         acc.2.2 + servers.countP (fun svr => decide (svr.guidPrefix = guidPrefix))) := by
  induction servers with
  | nil => intro acc; simp
  | cons svr rest ih =>
    intro acc
    rw [List.foldl_cons, ih]
    by_cases h : svr.guidPrefix = guidPrefix
    · simp [h, List.countP_cons]
      omega
    · simp [h, List.countP_cons]

/-- The loop of `removeRemoteEndpoints`: the proxy of every server with the prefix is cleared,
`is_server` tells whether there is one, and the timer is restarted once per such server. -/
theorem remove_server_proxies_eq (guidPrefix : GuidPrefix_t)
    (servers : List RemoteServerAttributes) :
    remove_server_proxies guidPrefix servers
      = (servers.map
            (fun svr => if svr.guidPrefix = guidPrefix then { svr with proxy := none }
              else svr),
         servers.any (fun svr => decide (svr.guidPrefix = guidPrefix)),
         servers.countP (fun svr => decide (svr.guidPrefix = guidPrefix))) := by
  unfold remove_server_proxies
  rw [remove_server_proxies_foldl]
  simp

theorem assign_foldl (pdata : ParticipantProxyData) (servers : List RemoteServerAttributes) :
    ∀ done : List RemoteServerAttributes,
      servers.foldl
        (fun (done : List RemoteServerAttributes) svr =>
          if svr.guidPrefix = pdata.m_guid.guidPrefix then
            done ++ [{ svr with proxy := some pdata }]
          else done ++ [svr]) done
      = done ++ servers.map
          (fun svr => if svr.guidPrefix = pdata.m_guid.guidPrefix then
            { svr with proxy := some pdata } else svr) := by
  induction servers with
  | nil => intro done; simp
  | cons svr rest ih =>
    intro done
    rw [List.foldl_cons, ih]
    by_cases h : svr.guidPrefix = pdata.m_guid.guidPrefix <;> simp [h]

/-- The servers and the PDP Reader after `assignRemoteEndpoints`. -/
theorem assignRemoteEndpoints_fields (s : PDPClient) (pdata : ParticipantProxyData) :
    (assignRemoteEndpoints s pdata).m_DiscoveryServers
      = s.m_DiscoveryServers.map
          (fun svr => if svr.guidPrefix = pdata.m_guid.guidPrefix then
            { svr with proxy := some pdata } else svr) ∧
    (assignRemoteEndpoints s pdata).mp_PDPReader = s.mp_PDPReader := by
  unfold assignRemoteEndpoints
  simp only [assign_foldl, List.nil_append]
  split <;> exact ⟨rfl, rfl⟩

/-- The PDP Reader after the un-match and re-match of lines 340-356. -/
theorem rematch_writer (r : PDPReader) (wdata : WriterProxyData)
    (hcap : r.matched_writers.length ≤ r.matched_writers_max)
    (hmatched : r.matched_writer_is_matched wdata.guid = true) :
    ((r.matched_writer_remove wdata.guid).2.matched_writer_add wdata).2.matched_writers
      = r.matched_writers.filter (fun w => decide (w.guid ≠ wdata.guid)) ++ [wdata] := by
  have habsent : (r.matched_writers.filter (fun w => decide (w.guid ≠ wdata.guid))).any
      (fun w => decide (w.guid = wdata.guid)) = false := by
    rw [List.any_eq_false]
    intro w hw
    have := (List.mem_filter.mp hw).2
    simpa using this
  have hlt : (r.matched_writers.filter (fun w => decide (w.guid ≠ wdata.guid))).length
      < r.matched_writers.length := by
    rw [List.length_filter_lt_length_iff_exists]
    unfold PDPReader.matched_writer_is_matched at hmatched
    rw [List.any_eq_true] at hmatched
    obtain ⟨w, hw, hg⟩ := hmatched
    exact ⟨w, hw, by simpa using hg⟩
  have hroom : ¬ r.matched_writers_max
      ≤ (r.matched_writers.filter (fun w => decide (w.guid ≠ wdata.guid))).length := by
    omega
  simp only [PDPReader.matched_writer_add, PDPReader.matched_writer_remove,
    PDPReader.matched_writer_is_matched, habsent, hroom, if_false, Bool.false_eq_true]

/-- The servers, the timer and the endpoints after `removeRemoteEndpoints` of a participant
that is a configured server. -/
theorem removeRemoteEndpoints_server (s : PDPClient) (pdata : ParticipantProxyData)
    (hserver : ∃ svr ∈ s.m_DiscoveryServers, svr.guidPrefix = pdata.m_guid.guidPrefix) :
    (removeRemoteEndpoints s pdata).m_DiscoveryServers
      = s.m_DiscoveryServers.map
          (fun svr => if svr.guidPrefix = pdata.m_guid.guidPrefix then
            { svr with proxy := none } else svr) ∧
    (removeRemoteEndpoints s pdata).sync_timer_restarts
      = s.sync_timer_restarts + s.m_DiscoveryServers.countP
          (fun svr => decide (svr.guidPrefix = pdata.m_guid.guidPrefix)) ∧
    (removeRemoteEndpoints s pdata).mp_PDPReader
      = (if pdata.m_availableBuiltinEndpoints &&& DISC_BUILTIN_ENDPOINT_PARTICIPANT_ANNOUNCER ≠ 0
         then
          (PDPReader.matched_writer_add
              (s.mp_PDPReader.matched_writer_remove
                { guidPrefix := pdata.m_guid.guidPrefix, entityId := c_EntityId_SPDPWriter }).2
              { guid := { guidPrefix := pdata.m_guid.guidPrefix,
                          entityId := c_EntityId_SPDPWriter }
                persistence_guid :=
                  { guidPrefix := pdata.persistence_guid.guidPrefix,
                    entityId := c_EntityId_SPDPWriter }
                manual_by_topic_liveliness := false }).2
         else s.mp_PDPReader) ∧
    (removeRemoteEndpoints s pdata).mp_PDPWriter
      = (if pdata.m_availableBuiltinEndpoints &&& DISC_BUILTIN_ENDPOINT_PARTICIPANT_DETECTOR ≠ 0
         then
          (PDPWriter.matched_reader_add
              (s.mp_PDPWriter.matched_reader_remove
                { guidPrefix := pdata.m_guid.guidPrefix, entityId := c_EntityId_SPDPReader }).2
              { guid := { guidPrefix := pdata.m_guid.guidPrefix,
                          entityId := c_EntityId_SPDPReader }
                m_expectsInlineQos := false }).2
         else s.mp_PDPWriter) := by
  have hany : s.m_DiscoveryServers.any
      (fun svr => decide (svr.guidPrefix = pdata.m_guid.guidPrefix)) = true := by
    rw [List.any_eq_true]
    obtain ⟨svr, hs, hp⟩ := hserver
    exact ⟨svr, hs, by simpa using hp⟩
  unfold removeRemoteEndpoints
  simp only [remove_server_proxies_eq, hany, if_true, set_persistence_entity_id]
  by_cases ha : pdata.m_availableBuiltinEndpoints &&&
      DISC_BUILTIN_ENDPOINT_PARTICIPANT_ANNOUNCER ≠ 0
  · by_cases hd : pdata.m_availableBuiltinEndpoints &&&
        DISC_BUILTIN_ENDPOINT_PARTICIPANT_DETECTOR ≠ 0
    · simp only [if_pos ha, if_pos hd]
      exact ⟨trivial, trivial, trivial, trivial⟩
    · simp only [if_pos ha, if_neg hd]
      exact ⟨trivial, trivial, trivial, trivial⟩
  · by_cases hd : pdata.m_availableBuiltinEndpoints &&&
        DISC_BUILTIN_ENDPOINT_PARTICIPANT_DETECTOR ≠ 0
    · simp only [if_neg ha, if_pos hd]
      exact ⟨trivial, trivial, trivial, trivial⟩
    · simp only [if_neg ha, if_neg hd]
      exact ⟨trivial, trivial, trivial, trivial⟩

/-- C19: for a configured server S whose SPDP writer is matched on the PDP Reader (a table
within its capacity): after `removeRemoteEndpoints` of a proxy of S followed by
`assignRemoteEndpoints` of a fresh proxy of S, the PDP Reader's matched set contains the SPDP
writer GUID of S, the entry of S in the server list has its proxy field set to the fresh
proxy, and so has every entry with the prefix of S. -/
theorem server_rediscovered (s : PDPClient) (svr : RemoteServerAttributes)
    (pdata fresh : ParticipantProxyData)
    (hsvr : svr ∈ s.m_DiscoveryServers)
    (hpdata : pdata.m_guid.guidPrefix = svr.guidPrefix)
    (hfresh : fresh.m_guid.guidPrefix = svr.guidPrefix)
    (hmatched : s.mp_PDPReader.matched_writer_is_matched svr.GetPDPWriter = true)
    (hcap : s.mp_PDPReader.matched_writers.length ≤ s.mp_PDPReader.matched_writers_max) :
    PDPReader.matched_writer_is_matched
      (assignRemoteEndpoints (removeRemoteEndpoints s pdata) fresh).mp_PDPReader
      svr.GetPDPWriter = true ∧
    { svr with proxy := some fresh }
      ∈ (assignRemoteEndpoints (removeRemoteEndpoints s pdata) fresh).m_DiscoveryServers ∧
    ∀ svr2 ∈ (assignRemoteEndpoints (removeRemoteEndpoints s pdata) fresh).m_DiscoveryServers,
      svr2.guidPrefix = svr.guidPrefix → svr2.proxy = some fresh := by
  obtain ⟨a1, a2⟩ := assignRemoteEndpoints_fields (removeRemoteEndpoints s pdata) fresh
  obtain ⟨r1, _, r3, _⟩ := removeRemoteEndpoints_server s pdata ⟨svr, hsvr, hpdata.symm⟩
  rw [a1, a2, r1, r3, hfresh, hpdata]
  refine ⟨?_, ?_, ?_⟩
  · by_cases ha : pdata.m_availableBuiltinEndpoints &&&
        DISC_BUILTIN_ENDPOINT_PARTICIPANT_ANNOUNCER ≠ 0
    · rw [if_pos ha]
      have hm : s.mp_PDPReader.matched_writer_is_matched
          ({ guid := { guidPrefix := svr.guidPrefix, entityId := c_EntityId_SPDPWriter }
             persistence_guid := { guidPrefix := pdata.persistence_guid.guidPrefix,
                                   entityId := c_EntityId_SPDPWriter }
             manual_by_topic_liveliness := false } : WriterProxyData).guid = true := hmatched
      have := rematch_writer s.mp_PDPReader _ hcap hm
      unfold PDPReader.matched_writer_is_matched
      rw [this]
      simp [RemoteServerAttributes.GetPDPWriter]
    · rw [if_neg ha]; exact hmatched
  · rw [List.map_map, List.mem_map]
    refine ⟨svr, hsvr, ?_⟩
    simp
  · intro svr2 h2 hp
    rw [List.map_map, List.mem_map] at h2
    obtain ⟨svr0, _, h0⟩ := h2
    subst h0
    by_cases hm : svr0.guidPrefix = svr.guidPrefix
    · simp [hm]
    · simp [hm] at hp

/-- Witness of `server_rediscovered`: server 0 is lost and found again. -/
theorem server_rediscovered_witness :
    PDPReader.matched_writer_is_matched
      (assignRemoteEndpoints
        (removeRemoteEndpoints
          (sampleClient [sampleServer (some (sampleServerProxy 3))] false [sampleData])
          (sampleServerProxy 3))
        (sampleServerProxy 1)).mp_PDPReader
      (sampleServer (some (sampleServerProxy 3))).GetPDPWriter = true ∧
    (assignRemoteEndpoints
      (removeRemoteEndpoints
        (sampleClient [sampleServer (some (sampleServerProxy 3))] false [sampleData])
        (sampleServerProxy 3))
      (sampleServerProxy 1)).m_DiscoveryServers = [sampleServer (some (sampleServerProxy 1))] :=
  ⟨(server_rediscovered
      (sampleClient [sampleServer (some (sampleServerProxy 3))] false [sampleData])
      (sampleServer (some (sampleServerProxy 3))) (sampleServerProxy 3) (sampleServerProxy 1)
      (by decide) rfl rfl (by decide) (by decide)).1,
   by decide⟩

theorem map_clear_of_no_server (guidPrefix : GuidPrefix_t)
    (servers : List RemoteServerAttributes)
    (h : ∀ svr ∈ servers, svr.guidPrefix ≠ guidPrefix) :
    servers.map (fun svr => if svr.guidPrefix = guidPrefix then { svr with proxy := none }
      else svr) = servers ∧
    servers.any (fun svr => decide (svr.guidPrefix = guidPrefix)) = false ∧
    servers.countP (fun svr => decide (svr.guidPrefix = guidPrefix)) = 0 := by
  induction servers with
  | nil => simp
  | cons svr rest ih =>
    have hs := h svr (by simp)
    obtain ⟨i1, i2, i3⟩ := ih (fun x hx => h x (List.mem_cons_of_mem _ hx))
    simp [hs, i1, i2, i3, List.countP_cons]

/-- C20 (as amended): when the GUID prefix of the removed participant is that of a configured
server, the proxy field of every such server is cleared and the sync timer is restarted;
the SPDP writer of the server is un-matched and then matched again on the PDP Reader, with
the prefix of the participant's persistence GUID, when the participant advertises
PARTICIPANT_ANNOUNCER, and its SPDP reader is un-matched and then matched again on the PDP
Writer when the participant advertises PARTICIPANT_DETECTOR (without the bit no matching call
is made on that endpoint). When the prefix is that of no configured server, nothing changes:
no proxy field, no timer restart, no PDP endpoint matching. -/
theorem removeRemoteEndpoints_effect (s : PDPClient) (pdata : ParticipantProxyData) :
    ((∃ svr ∈ s.m_DiscoveryServers, svr.guidPrefix = pdata.m_guid.guidPrefix) →
      (removeRemoteEndpoints s pdata).m_DiscoveryServers
        = s.m_DiscoveryServers.map
            (fun svr => if svr.guidPrefix = pdata.m_guid.guidPrefix then
              { svr with proxy := none } else svr) ∧
      s.sync_timer_restarts < (removeRemoteEndpoints s pdata).sync_timer_restarts ∧
      (removeRemoteEndpoints s pdata).mp_PDPReader.calls
        = s.mp_PDPReader.calls ++
          (if pdata.m_availableBuiltinEndpoints &&&
              DISC_BUILTIN_ENDPOINT_PARTICIPANT_ANNOUNCER ≠ 0 then
            [PDPReaderCall.matched_writer_remove
               { guidPrefix := pdata.m_guid.guidPrefix, entityId := c_EntityId_SPDPWriter },
             PDPReaderCall.matched_writer_add
               { guid := { guidPrefix := pdata.m_guid.guidPrefix,
                           entityId := c_EntityId_SPDPWriter }
                 persistence_guid := { guidPrefix := pdata.persistence_guid.guidPrefix,
                                       entityId := c_EntityId_SPDPWriter }
                 manual_by_topic_liveliness := false }]
           else []) ∧
      (removeRemoteEndpoints s pdata).mp_PDPWriter.calls
        = s.mp_PDPWriter.calls ++
          (if pdata.m_availableBuiltinEndpoints &&&
              DISC_BUILTIN_ENDPOINT_PARTICIPANT_DETECTOR ≠ 0 then
            [PDPWriterCall.matched_reader_remove
               { guidPrefix := pdata.m_guid.guidPrefix, entityId := c_EntityId_SPDPReader },
             PDPWriterCall.matched_reader_add
               { guid := { guidPrefix := pdata.m_guid.guidPrefix,
                           entityId := c_EntityId_SPDPReader }
                 m_expectsInlineQos := false }]
           else [])) ∧
    ((∀ svr ∈ s.m_DiscoveryServers, svr.guidPrefix ≠ pdata.m_guid.guidPrefix) →
      removeRemoteEndpoints s pdata = s) := by
  constructor
  · intro hserver
    obtain ⟨r1, r2, r3, r4⟩ := removeRemoteEndpoints_server s pdata hserver
    refine ⟨r1, ?_, ?_, ?_⟩
    · rw [r2]
      obtain ⟨svr, hs, hp⟩ := hserver
      have : 0 < s.m_DiscoveryServers.countP
          (fun svr => decide (svr.guidPrefix = pdata.m_guid.guidPrefix)) :=
        List.countP_pos_iff.mpr ⟨svr, hs, by simpa using hp⟩
      omega
    · rw [r3]
      split
      · simp only [PDPReader.matched_writer_add, PDPReader.matched_writer_remove]
        split <;> (try split) <;> simp
      · simp
    · rw [r4]
      split
      · simp only [PDPWriter.matched_reader_add, PDPWriter.matched_reader_remove]
        split <;> (try split) <;> simp
      · simp
  · intro hnone
    obtain ⟨m1, m2, m3⟩ := map_clear_of_no_server _ _ hnone
    unfold removeRemoteEndpoints
    simp only [remove_server_proxies_eq, m1, m2, m3, Bool.false_eq_true, if_false,
      Nat.add_zero]

/-- Witness of `removeRemoteEndpoints_effect`: server 0, advertising both PDP endpoints, is
removed. -/
theorem removeRemoteEndpoints_effect_witness :
    (removeRemoteEndpoints
      (sampleClient [sampleServer (some (sampleServerProxy 3))] false [sampleData])
      (sampleServerProxy 3)).m_DiscoveryServers = [sampleServer none] ∧
    0 < (removeRemoteEndpoints
      (sampleClient [sampleServer (some (sampleServerProxy 3))] false [sampleData])
      (sampleServerProxy 3)).sync_timer_restarts :=
  ⟨((removeRemoteEndpoints_effect
      (sampleClient [sampleServer (some (sampleServerProxy 3))] false [sampleData])
      (sampleServerProxy 3)).1
      ⟨sampleServer (some (sampleServerProxy 3)), by decide, rfl⟩).1.trans (by decide),
   ((removeRemoteEndpoints_effect
      (sampleClient [sampleServer (some (sampleServerProxy 3))] false [sampleData])
      (sampleServerProxy 3)).1
      ⟨sampleServer (some (sampleServerProxy 3)), by decide, rfl⟩).2.1⟩

/-- C20 (counterexample): the removed participant has the prefix of server 0 but advertises
neither PARTICIPANT_ANNOUNCER nor PARTICIPANT_DETECTOR: the proxy is cleared and the timer
restarted, but no un-match or match call reaches the PDP Reader or the PDP Writer. -/
theorem server_without_pdp_endpoints_not_rematched :
    (sampleServerProxy 0).m_guid.guidPrefix
      = (sampleServer (some (sampleServerProxy 0))).guidPrefix ∧
    (removeRemoteEndpoints
      (sampleClient [sampleServer (some (sampleServerProxy 0))] false [sampleData])
      (sampleServerProxy 0)).mp_PDPReader.calls = [] ∧
    (removeRemoteEndpoints
      (sampleClient [sampleServer (some (sampleServerProxy 0))] false [sampleData])
      (sampleServerProxy 0)).mp_PDPWriter.calls = [] := by
  decide

/-! ### Matching: the refused calls -/

/-- C21: `matched_writer_add(W)` returns false exactly when W's GUID is already matched, the
capacity of the matched-writer table is exhausted, or (for a data-sharing writer) the
registration with the data-sharing listener fails; whenever it returns false the
matched-writer table and the accept-from-unknown-writers flag are unchanged, and the listener
holds the registrations it held before the call without one for W: a registration made
during the call has been rolled back, and a reader whose listener had no registration for W
is left exactly as it was. -/
theorem matched_writer_add_false_iff (r : StatelessReader) (wdata : WriterProxyData)
    (env : MatchEnv) :
    ((matched_writer_add r wdata env).1 = false ↔
      (matched_writer_is_matched r wdata.guid = true ∨
       r.matched_writers_max ≤ r.matched_writers_.length ∨
       (env.is_datasharing = true ∧ env.add_datasharing_writer_ok = false))) ∧
    ((matched_writer_add r wdata env).1 = false →
      (matched_writer_add r wdata env).2.matched_writers_ = r.matched_writers_ ∧
      (matched_writer_add r wdata env).2.m_acceptMessagesFromUnkownWriters
        = r.m_acceptMessagesFromUnkownWriters ∧
      (matched_writer_add r wdata env).2.datasharing_writers
        = (if matched_writer_is_matched r wdata.guid = false ∧ env.is_datasharing = true ∧
              env.add_datasharing_writer_ok = true
           then r.datasharing_writers.filter (fun g => decide (g ≠ wdata.guid))
           else r.datasharing_writers) ∧
      (wdata.guid ∉ r.datasharing_writers → (matched_writer_add r wdata env).2 = r)) := by
  unfold matched_writer_is_matched
  by_cases hm : r.matched_writers_.any (fun writer => decide (writer.guid = wdata.guid)) = true
  · simp [matched_writer_add, hm]
  · have hm2 : r.matched_writers_.any (fun writer => decide (writer.guid = wdata.guid))
        = false := by simpa using hm
    by_cases hfull : r.matched_writers_max ≤ r.matched_writers_.length
    · cases hd : env.is_datasharing <;> cases hok : env.add_datasharing_writer_ok <;>
        simp [matched_writer_add, hm2, hfull, hd, hok, List.filter_append]
      intro hnot
      have hfilter : r.datasharing_writers.filter (fun g => !decide (g = wdata.guid))
          = r.datasharing_writers := by
        rw [List.filter_eq_self]
        intro g hg
        have : g ≠ wdata.guid := fun h => hnot (h ▸ hg)
        simp [this]
      rw [hfilter]
    · cases hd : env.is_datasharing <;> cases hok : env.add_datasharing_writer_ok <;>
        simp [matched_writer_add, hm2, hfull, hd, hok, liveliness_call, add_persistence_guid]

/-- Witness of `matched_writer_add_false_iff`: a data-sharing writer offered to a reader
whose table is full is refused and its registration with the listener is withdrawn. -/
theorem matched_writer_add_false_iff_witness :
    (matched_writer_add fullReader sampleWriterData sharingMatchEnv).1 = false ∧
    (matched_writer_add fullReader sampleWriterData sharingMatchEnv).2.matched_writers_
      = fullReader.matched_writers_ ∧
    (matched_writer_add fullReader sampleWriterData
        sharingMatchEnv).2.m_acceptMessagesFromUnkownWriters
      = fullReader.m_acceptMessagesFromUnkownWriters ∧
    (matched_writer_add fullReader sampleWriterData sharingMatchEnv).2.datasharing_writers
      = [] :=
  ⟨by decide,
   ((matched_writer_add_false_iff fullReader sampleWriterData sharingMatchEnv).2
      (by decide)).1,
   ((matched_writer_add_false_iff fullReader sampleWriterData sharingMatchEnv).2
      (by decide)).2.1,
   ((matched_writer_add_false_iff fullReader sampleWriterData sharingMatchEnv).2
      (by decide)).2.2.1⟩

/-! ### Admission: changes of unknown writers -/

/-- C22: on a reader whose accept-from-unknown-writers flag is false, `processDataMsg` drops
a change whose writer is neither matched nor carrying the trusted writer entity id: it
returns true and leaves the reader as it was (history, last-notified records, unread count
and listener log unchanged), whatever the pools would have answered, so that no cache is
reserved; whereas an ALIVE change of a writer carrying the trusted entity id passes
`acceptMsgFrom` and, when it is above the last notified sequence number of its writer and the
pools and the history accept, is appended to the history. -/
theorem unknown_writer_dropped (r : StatelessReader) (change : CacheChange_t) (env : DataEnv)
    (hflag : r.m_acceptMessagesFromUnkownWriters = false)
    (hunmatched : matched_writer_is_matched r change.writerGUID = false)
    (huntrusted : change.writerGUID.entityId ≠ r.m_trustedWriterEntityId) :
    processDataMsg r change env = (true, r) ∧
    (∀ trusted : CacheChange_t, trusted.kind = ChangeKind_t.ALIVE →
      trusted.writerGUID.entityId = r.m_trustedWriterEntityId →
      acceptMsgFrom r trusted.writerGUID trusted.kind = true ∧
      (r.last_notified trusted.writerGUID < trusted.sequenceNumber →
        ∃ c : CacheChange_t, c.writerGUID = trusted.writerGUID ∧
          c.sequenceNumber = trusted.sequenceNumber ∧
          (processDataMsg r trusted okDataEnv).1 = true ∧
          (processDataMsg r trusted okDataEnv).2.history = r.history ++ [c])) := by
  unfold matched_writer_is_matched at hunmatched
  constructor
  · have hacc : acceptMsgFrom r change.writerGUID change.kind = false := by
      unfold acceptMsgFrom
      simp [hflag, huntrusted, hunmatched]
    simp [processDataMsg, hacc]
  · intro trusted hkind hid
    have hacc : acceptMsgFrom r trusted.writerGUID trusted.kind = true := by
      unfold acceptMsgFrom
      simp [hkind, hid]
    refine ⟨hacc, fun hfresh => ?_⟩
    obtain ⟨c2, e1, e2, _, _, hcase⟩ := processDataMsg_cases r trusted okDataEnv hacc rfl
      (by simp [okDataEnv])
    have hlt : r.last_notified c2.writerGUID < c2.sequenceNumber := by
      rw [e1, e2]; exact hfresh
    obtain ⟨f1, f2, _⟩ := change_received_fresh r c2 hlt
    have hok : okDataEnv.received_change_ok = true := rfl
    rw [hok] at hcase
    rw [hcase]
    simp only [f1, Bool.not_true, Bool.false_eq_true, if_false, assert_writer_liveliness]
    exact ⟨c2, e1, e2, trivial, by rw [(liveliness_call_fields _ _).1, f2]⟩

/-- Witness of `unknown_writer_dropped`: a change of the unmatched `sampleWriter` offered to
a reader that has matched another writer. -/
theorem unknown_writer_dropped_witness :
    processDataMsg fullReader (sampleChange 1) okDataEnv = (true, fullReader) :=
  (unknown_writer_dropped fullReader (sampleChange 1) okDataEnv rfl (by decide)
    (by decide)).1

/-- C23: a DATA_FRAG submessage whose writer GUID is not in `matched_writers_` makes
`processDataFragMsg` return true and leaves the reader as it was: the matched-writer table
with its fragmented changes, the history, the last-notified records and the unread count are
unchanged, and neither the listener nor the liveliness manager is called. -/
theorem fragment_of_unmatched_writer_ignored (r : StatelessReader)
    (incomingChange : CacheChange_t) (sampleSize fragmentStartingNum fragmentsInSubmessage : Nat)
    (env : FragEnv)
    (hunmatched : matched_writer_is_matched r incomingChange.writerGUID = false) :
    processDataFragMsg r incomingChange sampleSize fragmentStartingNum fragmentsInSubmessage env
      = (true, r) := by
  unfold matched_writer_is_matched at hunmatched
  have hfind : r.matched_writers_.find?
      (fun writer => decide (writer.guid = incomingChange.writerGUID)) = none := by
    rw [List.find?_eq_none]
    intro w hw
    have := (List.any_eq_false.mp hunmatched) w hw
    simpa using this
  unfold processDataFragMsg
  simp only [hfind]

/-- Witness of `fragment_of_unmatched_writer_ignored`: a fragment of the unmatched
`sampleWriter` offered to a reader that has matched another writer. -/
theorem fragment_of_unmatched_writer_ignored_witness :
    processDataFragMsg fullReader (sampleFragCall 4 4 1 10).incomingChange 10 1 1
      (okFragEnv 10) = (true, fullReader) :=
  fragment_of_unmatched_writer_ignored fullReader (sampleFragCall 4 4 1 10).incomingChange
    10 1 1 (okFragEnv 10) (by decide)

/-! ### The accept-from-unknown-writers flag -/

theorem matched_writer_add_accept_flag (r : StatelessReader) (wdata : WriterProxyData)
    (env : MatchEnv) :
    (matched_writer_add r wdata env).2.m_acceptMessagesFromUnkownWriters
      = (if (matched_writer_add r wdata env).1 then false
         else r.m_acceptMessagesFromUnkownWriters) := by
  by_cases hm : r.matched_writers_.any (fun writer => decide (writer.guid = wdata.guid)) = true
  · simp [matched_writer_add, hm]
  · have hm2 : r.matched_writers_.any (fun writer => decide (writer.guid = wdata.guid))
        = false := by simpa using hm
    by_cases hfull : r.matched_writers_max ≤ r.matched_writers_.length <;>
      cases hd : env.is_datasharing <;> cases hok : env.add_datasharing_writer_ok <;>
        simp [matched_writer_add, hm2, hfull, hd, hok, liveliness_call, add_persistence_guid]
    all_goals (split <;> (try split) <;> (try split) <;> simp)

theorem matched_writer_remove_loop_accept_flag (r : StatelessReader) (g : GUID_t) (rbl : Bool)
    (rest : List RemoteWriterInfo_t) :
    ∀ before : List RemoteWriterInfo_t,
      (matched_writer_remove_loop r g rbl before rest).2.m_acceptMessagesFromUnkownWriters
        = r.m_acceptMessagesFromUnkownWriters := by
  induction rest with
  | nil => intro before; rfl
  | cons it rest ih =>
    intro before
    by_cases hg : it.guid = g
    · simp only [matched_writer_remove_loop, hg, if_true]
      split <;> simp [remove_persistence_guid, remove_changes_from]
    · simp only [matched_writer_remove_loop, hg, if_false]
      exact ih _

theorem matched_writer_remove_accept_flag (r : StatelessReader) (g : GUID_t) (rbl : Bool) :
    (matched_writer_remove r g rbl).2.m_acceptMessagesFromUnkownWriters
      = r.m_acceptMessagesFromUnkownWriters := by
  unfold matched_writer_remove
  simp only
  rw [matched_writer_remove_loop_accept_flag]
  simp only [liveliness_call, remove_changes_with_guid]
  split <;> (try split) <;> rfl

theorem liveliness_call_accept_flag (r : StatelessReader) (call : LivelinessCall) :
    (liveliness_call r call).m_acceptMessagesFromUnkownWriters
      = r.m_acceptMessagesFromUnkownWriters := by
  unfold liveliness_call
  split <;> (try split) <;> rfl

theorem change_received_accept_flag (r : StatelessReader) (c : CacheChange_t) (ok : Bool) :
    (change_received r c ok).2.m_acceptMessagesFromUnkownWriters
      = r.m_acceptMessagesFromUnkownWriters := by
  unfold change_received
  simp only [update_last_notified]
  split <;> (try split) <;> (try split) <;> rfl

theorem processDataMsg_accept_flag (r : StatelessReader) (c : CacheChange_t) (env : DataEnv) :
    (processDataMsg r c env).2.m_acceptMessagesFromUnkownWriters
      = r.m_acceptMessagesFromUnkownWriters := by
  unfold processDataMsg
  simp only [assert_writer_liveliness]
  split
  · split
    · rfl
    · split
      · rfl
      · split
        · rfl
        · split
          · exact change_received_accept_flag _ _ _
          · rw [liveliness_call_accept_flag]
            exact change_received_accept_flag _ _ _
  · rfl

theorem processDataFragMsg_accept_flag (r : StatelessReader) (c : CacheChange_t)
    (sampleSize start count : Nat) (env : FragEnv) :
    (processDataFragMsg r c sampleSize start count env).2.m_acceptMessagesFromUnkownWriters
      = r.m_acceptMessagesFromUnkownWriters := by
  unfold processDataFragMsg
  simp only [assert_writer_liveliness]
  split
  · split
    · split
      · rfl
      · rw [liveliness_call_accept_flag]
        split
        · exact change_received_accept_flag _ _ _
        · rfl
    · exact liveliness_call_accept_flag _ _
  · rfl

theorem ReaderCall.apply_accept_flag (r : StatelessReader) (call : ReaderCall)
    (h : r.m_acceptMessagesFromUnkownWriters = false) :
    (ReaderCall.apply r call).m_acceptMessagesFromUnkownWriters = false := by
  cases call with
  | op o =>
    cases o with
    | matched_writer_add wdata env =>
      show (matched_writer_add r wdata env).2.m_acceptMessagesFromUnkownWriters = false
      rw [matched_writer_add_accept_flag]
      split
      · rfl
      · exact h
    | processDataMsg change env =>
      show (processDataMsg r change env).2.m_acceptMessagesFromUnkownWriters = false
      rw [processDataMsg_accept_flag]; exact h
    | processDataFragMsg change sampleSize start count env =>
      show (processDataFragMsg r change sampleSize start count
        env).2.m_acceptMessagesFromUnkownWriters = false
      rw [processDataFragMsg_accept_flag]; exact h
  | matched_writer_remove g rbl =>
    show (FastDDS.matched_writer_remove r g rbl).2.m_acceptMessagesFromUnkownWriters = false
    rw [matched_writer_remove_accept_flag]; exact h

theorem runCalls_accept_flag (calls : List ReaderCall) :
    ∀ r : StatelessReader, r.m_acceptMessagesFromUnkownWriters = false →
      (runCalls r calls).m_acceptMessagesFromUnkownWriters = false := by
  induction calls with
  | nil => intro r h; exact h
  | cons call calls ih =>
    intro r h
    exact ih _ (ReaderCall.apply_accept_flag r call h)

/-- C30: the accept-from-unknown-writers flag is false after a `matched_writer_add` that
succeeds and stays false through every sequence of reader calls that follows it
(`matched_writer_add`, `matched_writer_remove`, `processDataMsg`, `processDataFragMsg`), the
removal of the last matched writer included; and on any reader whose flag is false, none of
these calls sets it back to true. -/
theorem accept_flag_never_restored (r : StatelessReader) (wdata : WriterProxyData)
    (env : MatchEnv) (calls : List ReaderCall)
    (hadd : (matched_writer_add r wdata env).1 = true) :
    (matched_writer_add r wdata env).2.m_acceptMessagesFromUnkownWriters = false ∧
    (runCalls (matched_writer_add r wdata env).2 calls).m_acceptMessagesFromUnkownWriters
      = false ∧
    (∀ (r0 : StatelessReader) (call : ReaderCall),
      r0.m_acceptMessagesFromUnkownWriters = false →
      (ReaderCall.apply r0 call).m_acceptMessagesFromUnkownWriters = false) := by
  have h0 : (matched_writer_add r wdata env).2.m_acceptMessagesFromUnkownWriters = false := by
    rw [matched_writer_add_accept_flag, hadd]; rfl
  exact ⟨h0, runCalls_accept_flag calls _ h0, ReaderCall.apply_accept_flag⟩

/-- Witness of `accept_flag_never_restored`: `sampleWriter` is matched by a reader that
accepted unknown writers and is then removed again; the table is empty and the flag is still
false. -/
theorem accept_flag_never_restored_witness :
    sampleReader.m_acceptMessagesFromUnkownWriters = true ∧
    (runCalls (matched_writer_add sampleReader sampleWriterData plainMatchEnv).2
      [ReaderCall.matched_writer_remove sampleWriter false]).matched_writers_ = [] ∧
    (runCalls (matched_writer_add sampleReader sampleWriterData plainMatchEnv).2
      [ReaderCall.matched_writer_remove sampleWriter false]).m_acceptMessagesFromUnkownWriters
      = false :=
  ⟨rfl, by decide,
   (accept_flag_never_restored sampleReader sampleWriterData plainMatchEnv
      [ReaderCall.matched_writer_remove sampleWriter false] (by decide)).2.1⟩

/-! ### Fragment reassembly: samples larger than the pools -/

/-- The complete set of fragments of a sample, passed to a reader that is ready for it, ends
with one delivery of the sample. -/
theorem reassembly_delivers (r : StatelessReader) (W : GUID_t) (s : SequenceNumber_t)
    (N F : Nat) (calls : List FragCall) (w : RemoteWriterInfo_t)
    (hN : 0 < N) (hF : 0 < F)
    (hmatched : r.matched_writers_.find? (fun writer => decide (writer.guid = W)) = some w)
    (hslot : ∀ wc, w.fragmented_change = some wc → wc.sequenceNumber < s)
    (hlast : r.last_notified W < s)
    (hlistener : r.has_listener = true)
    (hcalls : ∀ c ∈ calls, GoodFragCall W s N F c)
    (hperm : (fragments_of calls).Perm (List.range' 1 (fragment_total N F))) :
    ∃ c : CacheChange_t,
      c.writerGUID = W ∧ c.sequenceNumber = s ∧ c.serializedPayload.length = N ∧
      (runOps r (fragOps N calls)).listener_log = r.listener_log ++ [c] ∧
      (runOps r (fragOps N calls)).history = r.history ++ [c] := by
  have hinit : Reassembling r r W s N (fragment_total N F) [] :=
    ⟨rfl, rfl, rfl, rfl, rfl, w, hmatched, Or.inl ⟨rfl, hslot⟩⟩
  have hK : 0 < fragment_total N F := by
    unfold fragment_total
    apply Nat.div_pos <;> omega
  have hne : calls ≠ [] := by
    intro hnil
    subst hnil
    have := hperm.length_eq
    simp [fragments_of] at this
    omega
  obtain ⟨pre, last, hsplit⟩ : ∃ pre last, calls = pre ++ [last] := by
    rcases List.eq_nil_or_concat calls with h | ⟨pre, last, h⟩
    · exact absurd h hne
    · exact ⟨pre, last, by simpa using h⟩
  subst hsplit
  have hpre := runOps_reassembling r W s N F hF hlast hinit pre
    (fun x hx => hcalls x (List.mem_append_left _ hx))
    (still_missing_of_pending N F W s pre [last] hcalls hperm (by simp))
  have hall : still_missing (fragment_total N F)
      (fragments_of pre ++ List.range' last.fragmentStartingNum last.fragmentsInSubmessage)
      = [] := by
    apply still_missing_of_all
    rw [← fragments_of_concat]
    exact hperm
  obtain ⟨c, c1, c2, c3, c4, c5⟩ :=
    (processDataFragMsg_step r (runOps r (fragOps N pre)) W s N F hF (fragments_of pre) last
      hlast hpre (hcalls last (by simp))).2 hall
  refine ⟨c, c2, c1, c3, ?_, ?_⟩
  · rw [fragOps_concat, runOps_append]
    simp only [runOps, List.foldl_cons, List.foldl_nil, ReaderOp.apply] at c5 ⊢
    rw [c5, hlistener]; rfl
  · rw [fragOps_concat, runOps_append]
    simp only [runOps, List.foldl_cons, List.foldl_nil, ReaderOp.apply] at c4 ⊢
    exact c4

/-- Lines 500-553 for a sample that fits neither the pending buffer nor what the pools can
reserve: the pending change is released and none takes its place. -/
theorem process_fragment_oversized (slot : Option CacheChange_t) (incoming : CacheChange_t)
    (N start count : Nat) (env : FragEnv)
    (hslot : ∀ wc, slot = some wc →
      wc.sequenceNumber < incoming.sequenceNumber ∧ wc.serializedPayload.max_size < N)
    (hcap : ∀ m, env.reserveCache = some m → m < N) :
    process_fragment slot incoming N start count env = (none, none) := by
  cases slot with
  | none =>
    cases hres : env.reserveCache with
    | none => simp only [process_fragment, hres]
    | some m =>
      have := hcap m hres
      simp only [process_fragment, hres, this, if_true]
  | some wc =>
    obtain ⟨h1, h2⟩ := hslot wc rfl
    cases hres : env.reserveCache with
    | none => simp only [process_fragment, hres, h1, if_true, Nat.not_le.mpr h2, if_false]
    | some m =>
      have := hcap m hres
      simp only [process_fragment, hres, h1, if_true, Nat.not_le.mpr h2, if_false, this]


/-- C24 (as amended): a matched writer W sends a DATA_FRAG of a sample with a sequence number
above its last notified one, while no fragmented change with that or a greater sequence
number is in progress for W, and the sampleSize exceeds both the payload capacity the reader
can reserve and the capacity of the pending buffer (if any). After the call W has no
in-progress fragmented change (the slot is null) and nothing has been inserted in the history
or handed to the listener; and a later sample of W with a greater sequence number and a size
within capacity, passed as a complete set of fragments to a reader with a listener and a
history that accepts, is reassembled and delivered: it is the one change added to the
history and to the listener log. -/
theorem oversized_sample_released (r : StatelessReader) (W : GUID_t)
    (s later : SequenceNumber_t) (N start count : Nat) (incoming : CacheChange_t)
    (env : FragEnv) (w : RemoteWriterInfo_t) (N2 F2 : Nat) (calls : List FragCall)
    (hW : incoming.writerGUID = W) (hs : incoming.sequenceNumber = s)
    (hmatched : r.matched_writers_.find? (fun writer => decide (writer.guid = W)) = some w)
    (hlast : r.last_notified W < s)
    (hslot : ∀ wc, w.fragmented_change = some wc →
      wc.sequenceNumber < s ∧ wc.serializedPayload.max_size < N)
    (hcap : ∀ m, env.reserveCache = some m → m < N)
    (hlistener : r.has_listener = true)
    (hlater : s < later) (hN2 : 0 < N2) (hF2 : 0 < F2)
    (hcalls : ∀ c ∈ calls, GoodFragCall W later N2 F2 c)
    (hperm : (fragments_of calls).Perm (List.range' 1 (fragment_total N2 F2))) :
    (∃ w1, (processDataFragMsg r incoming N start count env).2.matched_writers_.find?
        (fun writer => decide (writer.guid = W)) = some w1 ∧ w1.fragmented_change = none) ∧
    (processDataFragMsg r incoming N start count env).2.history = r.history ∧
    (processDataFragMsg r incoming N start count env).2.listener_log = r.listener_log ∧
    (processDataFragMsg r incoming N start count env).2.last_notified = r.last_notified ∧
    (processDataFragMsg r incoming N start count env).2.total_unread_ = r.total_unread_ ∧
    ∃ c : CacheChange_t,
      c.writerGUID = W ∧ c.sequenceNumber = later ∧ c.serializedPayload.length = N2 ∧
      (runOps (processDataFragMsg r incoming N start count env).2
        (fragOps N2 calls)).listener_log = r.listener_log ++ [c] ∧
      (runOps (processDataFragMsg r incoming N start count env).2
        (fragOps N2 calls)).history = r.history ++ [c] := by
  have hupper : thereIsUpperRecordOf r W s = false := by
    simp [thereIsUpperRecordOf, get_last_notified, hlast]
  have hany : w.fragmented_change.any (fun wc => decide (wc.sequenceNumber > s)) = false := by
    cases hfc : w.fragmented_change with
    | none => rfl
    | some old =>
      have := (hslot old hfc).1
      simp [Option.any, le_of_lt this]
  have hpf := process_fragment_oversized w.fragmented_change incoming N start count env
    (by rw [hs]; exact hslot) hcap
  have hcall : (processDataFragMsg r incoming N start count env).2
      = liveliness_call
          { r with matched_writers_ := set_fragmented_change W none r.matched_writers_ }
          (LivelinessCall.assert_liveliness W) := by
    unfold processDataFragMsg
    simp only [hW, hs, hmatched, hupper, hany, hpf, Bool.not_false, if_true,
      Bool.false_eq_true, if_false, assert_writer_liveliness]
  obtain ⟨l1, l2, l3, l4, l5, l6⟩ := liveliness_call_fields
    { r with matched_writers_ := set_fragmented_change W none r.matched_writers_ }
    (LivelinessCall.assert_liveliness W)
  have hfind : (processDataFragMsg r incoming N start count env).2.matched_writers_.find?
      (fun writer => decide (writer.guid = W))
      = some { w with fragmented_change := none } := by
    rw [hcall, l5]
    exact find?_set_fragmented_change W none r.matched_writers_ w hmatched
  rw [hcall] at hfind ⊢
  refine ⟨⟨_, hfind, rfl⟩, l1, l4, l2, l3, ?_⟩
  have hdel := reassembly_delivers _ W later N2 F2 calls { w with fragmented_change := none }
    hN2 hF2 hfind (by intro wc hwc; cases hwc)
    (by rw [l2]; exact lt_trans hlast hlater) (by rw [l6]; exact hlistener) hcalls hperm
  rw [l1, l4] at hdel
  exact hdel

/-- Witness of `oversized_sample_released`: a fragment of sample 4 announcing 1000 bytes to
a reader whose pools reserve 10 bytes, followed by sample 5 of 10 bytes in fragments of 4
bytes passed in the order 3, 1, 2. -/
theorem oversized_sample_released_witness :
    (processDataFragMsg matchedReader (sampleFragCall 4 10 1 10).incomingChange 1000 1 1
        (okFragEnv 10)).2.history = matchedReader.history ∧
    ∃ c : CacheChange_t,
      c.writerGUID = sampleWriter ∧ c.sequenceNumber = 5 ∧ c.serializedPayload.length = 10 ∧
      (runOps (processDataFragMsg matchedReader (sampleFragCall 4 10 1 10).incomingChange
          1000 1 1 (okFragEnv 10)).2
        (fragOps 10 [sampleFragCall 5 4 3 10, sampleFragCall 5 4 1 10,
          sampleFragCall 5 4 2 10])).listener_log = matchedReader.listener_log ++ [c] ∧
      (runOps (processDataFragMsg matchedReader (sampleFragCall 4 10 1 10).incomingChange
          1000 1 1 (okFragEnv 10)).2
        (fragOps 10 [sampleFragCall 5 4 3 10, sampleFragCall 5 4 1 10,
          sampleFragCall 5 4 2 10])).history = matchedReader.history ++ [c] :=
  have h := oversized_sample_released matchedReader sampleWriter 4 5 1000 1 1
    (sampleFragCall 4 10 1 10).incomingChange (okFragEnv 10)
    { guid := sampleWriter, persistence_guid := ⟨[], 0⟩, has_manual_topic_liveliness := false,
      is_datasharing := false, fragmented_change := none }
    10 4 [sampleFragCall 5 4 3 10, sampleFragCall 5 4 1 10, sampleFragCall 5 4 2 10]
    rfl rfl rfl (by decide) (by intro wc h; cases h)
    (by intro m hm; cases hm; decide) rfl (by decide) (by decide) (by decide)
    (by
      intro c hc
      simp only [List.mem_cons, List.mem_singleton, List.not_mem_nil, or_false] at hc
      rcases hc with rfl | rfl | rfl <;>
        exact ⟨rfl, rfl, rfl, le_refl 1, ⟨10, rfl, le_refl 10⟩, rfl⟩)
    (by decide)
  ⟨h.2.1, h.2.2.2.2.2⟩

/-- C24 (counterexample): a fragmented change of sequence number 9 is in progress for the
matched writer W when W sends a DATA_FRAG of sample 4 announcing 1000 bytes, more than the
10 bytes the pools reserve and more than the 20 bytes of the pending buffer: the call
returns before anything is released and W's slot still holds the change of sample 9. -/
theorem oversized_fragment_keeps_pending_sample :
    (okFragEnv 10).reserveCache = some 10 ∧
    (processDataFragMsg busyReader (sampleFragCall 4 10 1 10).incomingChange 1000 1 1
        (okFragEnv 10)).1 = true ∧
    (processDataFragMsg busyReader (sampleFragCall 4 10 1 10).incomingChange 1000 1 1
        (okFragEnv 10)).2.matched_writers_.map
      (fun writer => writer.fragmented_change.map
        (fun wc => (wc.sequenceNumber, wc.serializedPayload.max_size)))
      = [some (9, 20)] := by
  decide

/-! ### The client engine: the advertised participant data -/

theorem or_and_two_pow (x m k : Nat) :
    (x ||| m) &&& 2 ^ k = if m.testBit k then 2 ^ k else x &&& 2 ^ k := by
  apply Nat.eq_of_testBit_eq
  intro i
  cases hm : m.testBit k
  · simp only [Bool.false_eq_true, if_false, Nat.testBit_and, Nat.testBit_or,
      Nat.testBit_two_pow]
    by_cases hi : k = i
    · subst hi; simp [hm]
    · simp [hi]
  · simp only [if_true, Nat.testBit_and, Nat.testBit_or, Nat.testBit_two_pow]
    by_cases hi : k = i
    · subst hi; simp [hm]
    · simp [hi]

/-- The four EDP bits of an endpoint set to which the configured pairs have been added. -/
theorem endpoint_pair_bits (x : Nat) (f1 f2 : Bool) :
    (x ||| ((if f1 then DISC_BUILTIN_ENDPOINT_PUBLICATION_ANNOUNCER |||
                DISC_BUILTIN_ENDPOINT_SUBSCRIPTION_DETECTOR else 0) |||
            (if f2 then DISC_BUILTIN_ENDPOINT_PUBLICATION_DETECTOR |||
                DISC_BUILTIN_ENDPOINT_SUBSCRIPTION_ANNOUNCER else 0)))
        &&& DISC_BUILTIN_ENDPOINT_PUBLICATION_ANNOUNCER
      = (if f1 then DISC_BUILTIN_ENDPOINT_PUBLICATION_ANNOUNCER
         else x &&& DISC_BUILTIN_ENDPOINT_PUBLICATION_ANNOUNCER) ∧
    (x ||| ((if f1 then DISC_BUILTIN_ENDPOINT_PUBLICATION_ANNOUNCER |||
                DISC_BUILTIN_ENDPOINT_SUBSCRIPTION_DETECTOR else 0) |||
            (if f2 then DISC_BUILTIN_ENDPOINT_PUBLICATION_DETECTOR |||
                DISC_BUILTIN_ENDPOINT_SUBSCRIPTION_ANNOUNCER else 0)))
        &&& DISC_BUILTIN_ENDPOINT_SUBSCRIPTION_DETECTOR
      = (if f1 then DISC_BUILTIN_ENDPOINT_SUBSCRIPTION_DETECTOR
         else x &&& DISC_BUILTIN_ENDPOINT_SUBSCRIPTION_DETECTOR) ∧
    (x ||| ((if f1 then DISC_BUILTIN_ENDPOINT_PUBLICATION_ANNOUNCER |||
                DISC_BUILTIN_ENDPOINT_SUBSCRIPTION_DETECTOR else 0) |||
            (if f2 then DISC_BUILTIN_ENDPOINT_PUBLICATION_DETECTOR |||
                DISC_BUILTIN_ENDPOINT_SUBSCRIPTION_ANNOUNCER else 0)))
        &&& DISC_BUILTIN_ENDPOINT_PUBLICATION_DETECTOR
      = (if f2 then DISC_BUILTIN_ENDPOINT_PUBLICATION_DETECTOR
         else x &&& DISC_BUILTIN_ENDPOINT_PUBLICATION_DETECTOR) ∧
    (x ||| ((if f1 then DISC_BUILTIN_ENDPOINT_PUBLICATION_ANNOUNCER |||
                DISC_BUILTIN_ENDPOINT_SUBSCRIPTION_DETECTOR else 0) |||
            (if f2 then DISC_BUILTIN_ENDPOINT_PUBLICATION_DETECTOR |||
                DISC_BUILTIN_ENDPOINT_SUBSCRIPTION_ANNOUNCER else 0)))
        &&& DISC_BUILTIN_ENDPOINT_SUBSCRIPTION_ANNOUNCER
      = (if f2 then DISC_BUILTIN_ENDPOINT_SUBSCRIPTION_ANNOUNCER
         else x &&& DISC_BUILTIN_ENDPOINT_SUBSCRIPTION_ANNOUNCER) := by
  have e2 := or_and_two_pow x
    ((if f1 then DISC_BUILTIN_ENDPOINT_PUBLICATION_ANNOUNCER |||
        DISC_BUILTIN_ENDPOINT_SUBSCRIPTION_DETECTOR else 0) |||
     (if f2 then DISC_BUILTIN_ENDPOINT_PUBLICATION_DETECTOR |||
        DISC_BUILTIN_ENDPOINT_SUBSCRIPTION_ANNOUNCER else 0)) 2
  have e3 := or_and_two_pow x
    ((if f1 then DISC_BUILTIN_ENDPOINT_PUBLICATION_ANNOUNCER |||
        DISC_BUILTIN_ENDPOINT_SUBSCRIPTION_DETECTOR else 0) |||
     (if f2 then DISC_BUILTIN_ENDPOINT_PUBLICATION_DETECTOR |||
        DISC_BUILTIN_ENDPOINT_SUBSCRIPTION_ANNOUNCER else 0)) 3
  have e4 := or_and_two_pow x
    ((if f1 then DISC_BUILTIN_ENDPOINT_PUBLICATION_ANNOUNCER |||
        DISC_BUILTIN_ENDPOINT_SUBSCRIPTION_DETECTOR else 0) |||
     (if f2 then DISC_BUILTIN_ENDPOINT_PUBLICATION_DETECTOR |||
        DISC_BUILTIN_ENDPOINT_SUBSCRIPTION_ANNOUNCER else 0)) 4
  have e5 := or_and_two_pow x
    ((if f1 then DISC_BUILTIN_ENDPOINT_PUBLICATION_ANNOUNCER |||
        DISC_BUILTIN_ENDPOINT_SUBSCRIPTION_DETECTOR else 0) |||
     (if f2 then DISC_BUILTIN_ENDPOINT_PUBLICATION_DETECTOR |||
        DISC_BUILTIN_ENDPOINT_SUBSCRIPTION_ANNOUNCER else 0)) 5
  cases f1 <;> cases f2 <;>
    simp [DISC_BUILTIN_ENDPOINT_PUBLICATION_ANNOUNCER, DISC_BUILTIN_ENDPOINT_SUBSCRIPTION_DETECTOR,
      DISC_BUILTIN_ENDPOINT_PUBLICATION_DETECTOR, DISC_BUILTIN_ENDPOINT_SUBSCRIPTION_ANNOUNCER]
      at e2 e3 e4 e5 ⊢ <;>
    exact ⟨e2, e5, e3, e4⟩

/-- The endpoint set after `initializeParticipantProxyData`: the set the base class left, with
the bits of every configured pair added. -/
theorem initializeParticipantProxyData_endpoints (cfg : DiscoverySettings)
    (participant_data : ParticipantProxyData) :
    (initializeParticipantProxyData cfg participant_data).2.m_availableBuiltinEndpoints
      = participant_data.m_availableBuiltinEndpoints |||
        ((if cfg.use_PublicationWriterANDSubscriptionReader then
            DISC_BUILTIN_ENDPOINT_PUBLICATION_ANNOUNCER |||
              DISC_BUILTIN_ENDPOINT_SUBSCRIPTION_DETECTOR
          else 0) |||
         (if cfg.use_PublicationReaderANDSubscriptionWriter then
            DISC_BUILTIN_ENDPOINT_PUBLICATION_DETECTOR |||
              DISC_BUILTIN_ENDPOINT_SUBSCRIPTION_ANNOUNCER
          else 0)) := by
  unfold initializeParticipantProxyData
  cases cfg.use_PublicationWriterANDSubscriptionReader <;>
    cases cfg.use_PublicationReaderANDSubscriptionWriter <;>
    simp [Nat.lor_assoc]

/-- C25 (as amended): for every configuration, `initializeParticipantProxyData` adds to
`m_availableBuiltinEndpoints` the bits of each pair whose flag is configured, independently
for the two pairs (both pairs when both flags are on, none when both are off): the bits
PUBLICATION_ANNOUNCER and SUBSCRIPTION_DETECTOR are set when
use_PublicationWriterANDSubscriptionReader is configured, the bits PUBLICATION_DETECTOR and
SUBSCRIPTION_ANNOUNCER are set when use_PublicationReaderANDSubscriptionWriter is configured,
and a bit of a pair whose flag is off is left as the base class set it. -/
theorem builtin_endpoints_advertised (cfg : DiscoverySettings)
    (participant_data : ParticipantProxyData) :
    (initializeParticipantProxyData cfg participant_data).2.m_availableBuiltinEndpoints
        &&& DISC_BUILTIN_ENDPOINT_PUBLICATION_ANNOUNCER
      = (if cfg.use_PublicationWriterANDSubscriptionReader then
          DISC_BUILTIN_ENDPOINT_PUBLICATION_ANNOUNCER
         else participant_data.m_availableBuiltinEndpoints
           &&& DISC_BUILTIN_ENDPOINT_PUBLICATION_ANNOUNCER) ∧
    (initializeParticipantProxyData cfg participant_data).2.m_availableBuiltinEndpoints
        &&& DISC_BUILTIN_ENDPOINT_SUBSCRIPTION_DETECTOR
      = (if cfg.use_PublicationWriterANDSubscriptionReader then
          DISC_BUILTIN_ENDPOINT_SUBSCRIPTION_DETECTOR
         else participant_data.m_availableBuiltinEndpoints
           &&& DISC_BUILTIN_ENDPOINT_SUBSCRIPTION_DETECTOR) ∧
    (initializeParticipantProxyData cfg participant_data).2.m_availableBuiltinEndpoints
        &&& DISC_BUILTIN_ENDPOINT_PUBLICATION_DETECTOR
      = (if cfg.use_PublicationReaderANDSubscriptionWriter then
          DISC_BUILTIN_ENDPOINT_PUBLICATION_DETECTOR
         else participant_data.m_availableBuiltinEndpoints
           &&& DISC_BUILTIN_ENDPOINT_PUBLICATION_DETECTOR) ∧
    (initializeParticipantProxyData cfg participant_data).2.m_availableBuiltinEndpoints
        &&& DISC_BUILTIN_ENDPOINT_SUBSCRIPTION_ANNOUNCER
      = (if cfg.use_PublicationReaderANDSubscriptionWriter then
          DISC_BUILTIN_ENDPOINT_SUBSCRIPTION_ANNOUNCER
         else participant_data.m_availableBuiltinEndpoints
           &&& DISC_BUILTIN_ENDPOINT_SUBSCRIPTION_ANNOUNCER) := by
  rw [initializeParticipantProxyData_endpoints]
  exact endpoint_pair_bits _ _ _

/-- C25 (counterexample): with both flags configured, as in the settings of a client that
uses both pairs of EDP endpoints, `initializeParticipantProxyData` advertises both pairs and
not exactly one of them: all four bits are set in an endpoint set that was empty. -/
theorem both_pairs_advertised :
    sampleSettings.use_PublicationWriterANDSubscriptionReader = true ∧
    sampleSettings.use_PublicationReaderANDSubscriptionWriter = true ∧
    (initializeParticipantProxyData sampleSettings
        (sampleServerProxy 0)).2.m_availableBuiltinEndpoints
      = ((DISC_BUILTIN_ENDPOINT_PUBLICATION_ANNOUNCER |||
          DISC_BUILTIN_ENDPOINT_SUBSCRIPTION_DETECTOR) |||
          DISC_BUILTIN_ENDPOINT_PUBLICATION_DETECTOR) |||
          DISC_BUILTIN_ENDPOINT_SUBSCRIPTION_ANNOUNCER ∧
    (initializeParticipantProxyData sampleSettings
        (sampleServerProxy 0)).2.m_availableBuiltinEndpoints = 0x3c := by
  decide

/-- C26: for every configuration, a discovery protocol other than CLIENT or SUPER_CLIENT
included, `initializeParticipantProxyData` produces the participant data with the
discovery-server version property appended as the last advertised property; with another
discovery protocol in the configuration the endpoint bits and the properties produced are
the same, and the only trace of a protocol that is neither CLIENT nor SUPER_CLIENT is the
logged error. -/
theorem ds_version_property_appended (cfg : DiscoverySettings)
    (participant_data : ParticipantProxyData) (protocol : DiscoveryProtocol_t) :
    (initializeParticipantProxyData cfg participant_data).2.m_properties
      = participant_data.m_properties ++
        [(cfg.parameter_property_ds_version, cfg.parameter_property_current_ds_version)] ∧
    (initializeParticipantProxyData cfg participant_data).2.m_properties.getLast?
      = some (cfg.parameter_property_ds_version, cfg.parameter_property_current_ds_version) ∧
    (initializeParticipantProxyData { cfg with discoveryProtocol := protocol }
        participant_data).2 = (initializeParticipantProxyData cfg participant_data).2 ∧
    ((initializeParticipantProxyData { cfg with discoveryProtocol := protocol }
        participant_data).1 = true ↔
      (protocol ≠ DiscoveryProtocol_t.CLIENT ∧ protocol ≠ DiscoveryProtocol_t.SUPER_CLIENT)) := by
  have hprops : (initializeParticipantProxyData cfg participant_data).2.m_properties
      = participant_data.m_properties ++
        [(cfg.parameter_property_ds_version, cfg.parameter_property_current_ds_version)] := by
    unfold initializeParticipantProxyData
    cases cfg.use_PublicationWriterANDSubscriptionReader <;>
      cases cfg.use_PublicationReaderANDSubscriptionWriter <;> rfl
  refine ⟨hprops, ?_, rfl, ?_⟩
  · rw [hprops, List.getLast?_append]
    rfl
  · simp [initializeParticipantProxyData]

/-! ### The client engine: the proxy fields of the server list -/

theorem removeRemoteEndpoints_servers (s : PDPClient) (pdata : ParticipantProxyData) :
    (removeRemoteEndpoints s pdata).m_DiscoveryServers
      = s.m_DiscoveryServers.map
          (fun svr => if svr.guidPrefix = pdata.m_guid.guidPrefix then
            { svr with proxy := none } else svr) := by
  unfold removeRemoteEndpoints
  simp only [remove_server_proxies_eq]
  split
  · split <;> split <;> rfl
  · rfl

theorem assignRemoteEndpoints_keeps_own (s : PDPClient) (pdata : ParticipantProxyData)
    (h : ProxiesOfOwnServer s.m_DiscoveryServers) :
    ProxiesOfOwnServer (assignRemoteEndpoints s pdata).m_DiscoveryServers := by
  rw [(assignRemoteEndpoints_fields s pdata).1]
  intro svr hsvr proxy hproxy
  obtain ⟨old, hold, rfl⟩ := List.mem_map.mp hsvr
  by_cases hp : old.guidPrefix = pdata.m_guid.guidPrefix
  · rw [if_pos hp] at hproxy ⊢
    cases hproxy
    exact hp.symm
  · simp only [hp, if_false] at hproxy ⊢
    exact h old hold proxy hproxy

theorem removeRemoteEndpoints_keeps_own (s : PDPClient) (pdata : ParticipantProxyData)
    (h : ProxiesOfOwnServer s.m_DiscoveryServers) :
    ProxiesOfOwnServer (removeRemoteEndpoints s pdata).m_DiscoveryServers := by
  rw [removeRemoteEndpoints_servers]
  intro svr hsvr proxy hproxy
  obtain ⟨old, hold, rfl⟩ := List.mem_map.mp hsvr
  by_cases hp : old.guidPrefix = pdata.m_guid.guidPrefix
  · simp only [hp, if_true] at hproxy
    cases hproxy
  · simp only [hp, if_false] at hproxy ⊢
    exact h old hold proxy hproxy

theorem runServerListOps_keeps_own (ops : List ServerListOp) :
    ∀ s : PDPClient, ProxiesOfOwnServer s.m_DiscoveryServers →
      ProxiesOfOwnServer (runServerListOps s ops).m_DiscoveryServers := by
  induction ops with
  | nil => intro s h; exact h
  | cons op ops ih =>
    intro s h
    cases op with
    | assignRemoteEndpoints pdata => exact ih _ (assignRemoteEndpoints_keeps_own s pdata h)
    | removeRemoteEndpoints pdata => exact ih _ (removeRemoteEndpoints_keeps_own s pdata h)

/-- C27: starting from a server list in which every non-null proxy field points at a proxy
with the GUID prefix of its server (as when no server has been discovered yet), every
sequence of `assignRemoteEndpoints` and `removeRemoteEndpoints` calls leads to a server list
with the same property; and after `removeRemoteEndpoints(pdata)` no proxy field still points
at `pdata`, nor at any proxy with the GUID prefix of `pdata`. -/
theorem proxies_never_stale (s : PDPClient) (ops : List ServerListOp)
    (pdata : ParticipantProxyData)
    (hinit : ProxiesOfOwnServer s.m_DiscoveryServers) :
    ProxiesOfOwnServer (runServerListOps s ops).m_DiscoveryServers ∧
    (∀ svr ∈ (removeRemoteEndpoints (runServerListOps s ops) pdata).m_DiscoveryServers,
      svr.proxy ≠ some pdata ∧
      ∀ proxy, svr.proxy = some proxy →
        proxy.m_guid.guidPrefix ≠ pdata.m_guid.guidPrefix) := by
  have hreach := runServerListOps_keeps_own ops s hinit
  refine ⟨hreach, ?_⟩
  intro svr hsvr
  rw [removeRemoteEndpoints_servers] at hsvr
  obtain ⟨old, hold, rfl⟩ := List.mem_map.mp hsvr
  have hkey : ∀ proxy,
      (if old.guidPrefix = pdata.m_guid.guidPrefix then { old with proxy := none }
        else old).proxy = some proxy →
      proxy.m_guid.guidPrefix ≠ pdata.m_guid.guidPrefix := by
    intro proxy hproxy
    by_cases hp : old.guidPrefix = pdata.m_guid.guidPrefix
    · simp only [hp, if_true] at hproxy
      cases hproxy
    · simp only [hp, if_false] at hproxy
      rw [hreach old hold proxy hproxy]
      exact hp
  exact ⟨fun hsome => hkey pdata hsome rfl, hkey⟩

/-- Witness of `proxies_never_stale`: server 0 is discovered by a client that knew no proxy,
and is then removed. -/
theorem proxies_never_stale_witness :
    (runServerListOps (sampleClient [sampleServer none] false [])
        [ServerListOp.assignRemoteEndpoints (sampleServerProxy 3)]).m_DiscoveryServers
      = [sampleServer (some (sampleServerProxy 3))] ∧
    ∀ svr ∈ (removeRemoteEndpoints
        (runServerListOps (sampleClient [sampleServer none] false [])
          [ServerListOp.assignRemoteEndpoints (sampleServerProxy 3)])
        (sampleServerProxy 3)).m_DiscoveryServers,
      svr.proxy ≠ some (sampleServerProxy 3) :=
  ⟨by decide,
   fun svr hsvr =>
    ((proxies_never_stale (sampleClient [sampleServer none] false [])
      [ServerListOp.assignRemoteEndpoints (sampleServerProxy 3)] (sampleServerProxy 3)
      (by
        intro svr hsvr proxy hproxy
        simp only [sampleClient, List.mem_singleton] at hsvr
        subst hsvr
        cases hproxy)).2 svr hsvr).1⟩

/-! ### The client engine: admission of participants -/

theorem is_server_foldl (g : GuidPrefix_t) (servers : List RemoteServerAttributes) :
    ∀ b : Bool,
      servers.foldl
        (fun (is_server : Bool) svr => if svr.guidPrefix = g then true else is_server) b
      = (b || servers.any (fun svr => decide (svr.guidPrefix = g))) := by
  induction servers with
  | nil => intro b; simp
  | cons svr rest ih =>
    intro b
    rw [List.foldl_cons, ih]
    by_cases h : svr.guidPrefix = g <;> simp [h]

/-- C28: for every participant data admitted with `createParticipantProxyData` (the store
returns an entry), the entry is flagged as a server if and only if the GUID prefix of the
data equals the prefix of some configured RemoteServer; the lease timer of the entry has been
updated to the lease duration of the data and restarted (once) if and only if the entry is
a server, and the timer of a non-server entry has been neither updated nor started. The
entry holds a copy of the data, marked alive, and is the one added to the store. -/
theorem admitted_entry_flag_and_lease (s : PDPClient) (participant_data : ParticipantProxyData)
    (add_ok : Bool) (entry : ParticipantProxy)
    (hadmitted : (createParticipantProxyData s participant_data add_ok).1 = some entry) :
    (entry.is_server = true ↔
      ∃ svr ∈ s.m_DiscoveryServers, svr.guidPrefix = participant_data.m_guid.guidPrefix) ∧
    ((entry.lease_interval = some participant_data.m_leaseDuration ∧
        entry.lease_timer_restarts = 1) ↔ entry.is_server = true) ∧
    (entry.is_server = false →
      entry.lease_interval = none ∧ entry.lease_timer_restarts = 0) ∧
    entry.data = { participant_data with isAlive := true } ∧
    (createParticipantProxyData s participant_data add_ok).2.participant_proxies
      = s.participant_proxies ++ [entry] := by
  have hany : (s.m_DiscoveryServers.any
      (fun svr => decide (svr.guidPrefix = participant_data.m_guid.guidPrefix)) = true) ↔
      ∃ svr ∈ s.m_DiscoveryServers, svr.guidPrefix = participant_data.m_guid.guidPrefix := by
    simp [List.any_eq_true]
  cases hok : add_ok with
  | false =>
    rw [hok] at hadmitted
    simp [createParticipantProxyData, add_participant_proxy_data] at hadmitted
  | true =>
    rw [hok] at hadmitted
    cases hsrv : s.m_DiscoveryServers.any
        (fun svr => decide (svr.guidPrefix = participant_data.m_guid.guidPrefix)) with
    | false =>
      simp only [createParticipantProxyData, add_participant_proxy_data, is_server_foldl,
        hsrv, Bool.false_or, if_true, Bool.false_eq_true, if_false, Option.some.injEq]
        at hadmitted ⊢
      subst hadmitted
      rw [hsrv] at hany
      simp only [Bool.false_eq_true, false_iff] at hany
      simp [hany]
    | true =>
      simp only [createParticipantProxyData, add_participant_proxy_data, is_server_foldl,
        hsrv, Bool.false_or, if_true, Option.some.injEq] at hadmitted ⊢
      subst hadmitted
      rw [hsrv] at hany
      simp only [true_iff] at hany
      simp [hany]

/-- Witness of `admitted_entry_flag_and_lease`: a client configured with server 0 admits a
participant with another GUID prefix; the entry is no server and its lease timer has not been
started. -/
theorem admitted_entry_flag_and_lease_witness :
    (createParticipantProxyData (sampleClient [sampleServer none] false [])
        sampleClientProxy true).1
      = some { data := { sampleClientProxy with isAlive := true }, is_server := false,
               lease_interval := none, lease_timer_restarts := 0 } ∧
    (({ data := { sampleClientProxy with isAlive := true }, is_server := false,
        lease_interval := none, lease_timer_restarts := 0 } : ParticipantProxy).is_server = true ↔
      ∃ svr ∈ (sampleClient [sampleServer none] false []).m_DiscoveryServers,
        svr.guidPrefix = sampleClientProxy.m_guid.guidPrefix) :=
  ⟨by decide,
   (admitted_entry_flag_and_lease (sampleClient [sampleServer none] false [])
      sampleClientProxy true
      { data := { sampleClientProxy with isAlive := true }, is_server := false,
        lease_interval := none, lease_timer_restarts := 0 }
      (by decide)).1⟩

/-! ### The client engine: matching the EDP endpoints of the servers -/

theorem match_servers_foldl (s : PDPClient) (servers : List RemoteServerAttributes) :
    ∀ acc : Bool × List ParticipantProxyData,
      servers.foldl
        (fun (acc : Bool × List ParticipantProxyData) svr =>
          let all := acc.1 && decide (svr.proxy ≠ none)
          match svr.proxy with
          | some proxy =>
            if !EDP.areRemoteEndpointsMatched s proxy then (all, acc.2 ++ [proxy])
            else (all, acc.2)
          | none => (all, acc.2)) acc
      = (acc.1 && servers.all (fun svr => decide (svr.proxy ≠ none)),
         acc.2 ++ (servers.filterMap (fun svr => svr.proxy)).filter
           (fun proxy => !EDP.areRemoteEndpointsMatched s proxy)) := by
  induction servers with
  | nil => intro acc; simp
  | cons svr rest ih =>
    intro acc
    rw [List.foldl_cons, ih]
    cases hp : svr.proxy with
    | none => simp [hp]
    | some proxy =>
      cases hm : EDP.areRemoteEndpointsMatched s proxy <;>
        simp [hp, hm, List.filter_cons]

/-- C29: `match_servers_EDP_endpoints()` returns true if and only if every configured server
has a non-null proxy (so it returns true for an empty server list); the calls of the EDP's
`assignRemoteEndpoints` it makes are, in server order, the proxies of the servers that have
one and whose EDP endpoints the EDP reports as not matched; and it leaves the server list,
proxy fields included, as it was. -/
theorem match_servers_EDP_endpoints_spec (s : PDPClient) :
    ((match_servers_EDP_endpoints s).1 = true ↔
      ∀ svr ∈ s.m_DiscoveryServers, svr.proxy ≠ none) ∧
    (match_servers_EDP_endpoints s).2.edp_assigned
      = s.edp_assigned ++
        (s.m_DiscoveryServers.filterMap (fun svr => svr.proxy)).filter
          (fun proxy => !EDP.areRemoteEndpointsMatched s proxy) ∧
    (match_servers_EDP_endpoints s).2.m_DiscoveryServers = s.m_DiscoveryServers := by
  unfold match_servers_EDP_endpoints
  simp only [match_servers_foldl, Bool.true_and, and_true]
  simp [List.all_eq_true]

/-! ### Fragment reassembly: a pending sample and a fragment of another one -/

/-- C31: for a matched writer whose in-progress fragmented change has a sequence number
greater than that of an incoming DATA_FRAG, itself above the last notified sequence number,
`processDataFragMsg` returns true and leaves the reader as it was: the in-progress change
with its received fragments, the history, the last-notified records and the unread counter
are unchanged. -/
theorem fragment_of_older_sample_dropped (r : StatelessReader) (incomingChange : CacheChange_t)
    (sampleSize fragmentStartingNum fragmentsInSubmessage : Nat) (env : FragEnv)
    (w : RemoteWriterInfo_t) (wc : CacheChange_t)
    (hmatched : r.matched_writers_.find?
      (fun writer => decide (writer.guid = incomingChange.writerGUID)) = some w)
    (hpending : w.fragmented_change = some wc)
    (hgreater : incomingChange.sequenceNumber < wc.sequenceNumber)
    (hfresh : r.last_notified incomingChange.writerGUID < incomingChange.sequenceNumber) :
    processDataFragMsg r incomingChange sampleSize fragmentStartingNum fragmentsInSubmessage env
      = (true, r) := by
  have hupper : thereIsUpperRecordOf r incomingChange.writerGUID incomingChange.sequenceNumber
      = false := by
    simp [thereIsUpperRecordOf, get_last_notified, hfresh]
  unfold processDataFragMsg
  simp only [hmatched, hupper, hpending, Option.any, Bool.not_false, if_true, gt_iff_lt,
    hgreater, decide_True]

/-- Witness of `fragment_of_older_sample_dropped`: fragment 1 of sample 4 arrives while
sample 9 is under reassembly. -/
theorem fragment_of_older_sample_dropped_witness :
    processDataFragMsg busyReader (sampleFragCall 4 10 1 10).incomingChange 10 1 1
      (okFragEnv 10) = (true, busyReader) :=
  fragment_of_older_sample_dropped busyReader (sampleFragCall 4 10 1 10).incomingChange
    10 1 1 (okFragEnv 10)
    { guid := sampleWriter, persistence_guid := ⟨[], 0⟩, has_manual_topic_liveliness := false,
      is_datasharing := false,
      fragmented_change := some
        { kind := ChangeKind_t.ALIVE, writerGUID := sampleWriter, sequenceNumber := 9,
          serializedPayload := ⟨20, 20⟩, isRead := false,
          fragment_size := 10, fragment_count := 2, missing_fragments := [2] } }
    { kind := ChangeKind_t.ALIVE, writerGUID := sampleWriter, sequenceNumber := 9,
      serializedPayload := ⟨20, 20⟩, isRead := false,
      fragment_size := 10, fragment_count := 2, missing_fragments := [2] }
    rfl rfl (by decide) (by decide)

theorem add_fragments_sequenceNumber (c : CacheChange_t) (start count : Nat) :
    (add_fragments c start count).2.sequenceNumber = c.sequenceNumber ∧
    (add_fragments c start count).2.serializedPayload = c.serializedPayload := ⟨rfl, rfl⟩

theorem reused_change_fields (wc incoming : CacheChange_t) (N : Nat) :
    (reused_change wc incoming N).sequenceNumber = incoming.sequenceNumber ∧
    (reused_change wc incoming N).serializedPayload.max_size = wc.serializedPayload.max_size ∧
    (reused_change wc incoming N).serializedPayload.length = N := ⟨rfl, rfl, rfl⟩

/-- Lines 500-553 when the pending change is older than the incoming sample: the buffer is
reused when the sample fits it, and otherwise the outcome is that of an empty slot. -/
theorem process_fragment_older (wc incoming : CacheChange_t) (N start count : Nat)
    (env : FragEnv) (holder : wc.sequenceNumber < incoming.sequenceNumber) :
    (N ≤ wc.serializedPayload.max_size →
      process_fragment (some wc) incoming N start count env
        = (if (add_fragments (reused_change wc incoming N) start count).1 then
            (none, some (add_fragments (reused_change wc incoming N) start count).2)
           else (some (add_fragments (reused_change wc incoming N) start count).2, none))) ∧
    (wc.serializedPayload.max_size < N →
      process_fragment (some wc) incoming N start count env
        = process_fragment none incoming N start count env) := by
  constructor
  · intro hfit
    simp only [process_fragment, holder, if_true, hfit, reused_change]
  · intro hbig
    simp only [process_fragment, holder, if_true, Nat.not_le.mpr hbig, if_false]

/-- Every change that lines 500-553 leave in the slot or hand over as completed carries the
sequence number of the incoming fragment, when the pending change is not a newer one. -/
theorem process_fragment_sequenceNumber (slot : Option CacheChange_t) (incoming : CacheChange_t)
    (N start count : Nat) (env : FragEnv)
    (hslot : ∀ wc, slot = some wc → wc.sequenceNumber ≤ incoming.sequenceNumber) :
    ∀ c, ((process_fragment slot incoming N start count env).1 = some c ∨
          (process_fragment slot incoming N start count env).2 = some c) →
      c.sequenceNumber = incoming.sequenceNumber := by
  have hnone : ∀ c, ((process_fragment none incoming N start count env).1 = some c ∨
      (process_fragment none incoming N start count env).2 = some c) →
      c.sequenceNumber = incoming.sequenceNumber := by
    intro c hc
    cases hres : env.reserveCache with
    | none => simp [process_fragment, hres] at hc
    | some m =>
      by_cases hm : m < N
      · simp [process_fragment, hres, hm] at hc
      · simp only [process_fragment, hres, hm, if_false] at hc
        split at hc
        · rcases hc with hc | hc
          · cases hc
          · cases hc; rfl
        · rcases hc with hc | hc
          · cases hc; rfl
          · cases hc
  cases slot with
  | none => exact hnone
  | some wc =>
    intro c hc
    rcases lt_or_eq_of_le (hslot wc rfl) with hlt | heq
    · obtain ⟨hfit, hbig⟩ := process_fragment_older wc incoming N start count env hlt
      by_cases hN : N ≤ wc.serializedPayload.max_size
      · rw [hfit hN] at hc
        split at hc
        · rcases hc with hc | hc
          · cases hc
          · cases hc; rfl
        · rcases hc with hc | hc
          · cases hc; rfl
          · cases hc
      · rw [hbig (Nat.not_le.mp hN)] at hc
        exact hnone c hc
    · have hnlt : ¬ wc.sequenceNumber < incoming.sequenceNumber := by
        rw [heq]; exact lt_irrefl _
      simp only [process_fragment, hnlt, if_false] at hc
      split at hc
      · rcases hc with hc | hc
        · cases hc
        · cases hc; exact heq
      · rcases hc with hc | hc
        · cases hc; exact heq
        · cases hc

theorem change_received_appends (r : StatelessReader) (c : CacheChange_t) (ok : Bool) :
    ((change_received r c ok).2.history = r.history ∨
     (change_received r c ok).2.history = r.history ++ [c]) ∧
    ((change_received r c ok).2.listener_log = r.listener_log ∨
     (change_received r c ok).2.listener_log = r.listener_log ++ [c]) ∧
    (change_received r c ok).2.matched_writers_ = r.matched_writers_ := by
  unfold change_received
  simp only [update_last_notified]
  split
  · split
    · split
      · exact ⟨Or.inr rfl, Or.inr rfl, rfl⟩
      · exact ⟨Or.inr rfl, Or.inl rfl, rfl⟩
    · exact ⟨Or.inl rfl, Or.inl rfl, rfl⟩
  · exact ⟨Or.inl rfl, Or.inl rfl, rfl⟩


/-- A `processDataFragMsg` call that reaches lines 500-553: the slot of the writer receives
their first result, and what the call adds to the history or hands to the listener is their
second result. -/
theorem processDataFragMsg_outcome (r : StatelessReader) (incoming : CacheChange_t)
    (N start count : Nat) (env : FragEnv) (w : RemoteWriterInfo_t)
    (res1 res2 : Option CacheChange_t)
    (hmatched : r.matched_writers_.find?
      (fun writer => decide (writer.guid = incoming.writerGUID)) = some w)
    (hupper : thereIsUpperRecordOf r incoming.writerGUID incoming.sequenceNumber = false)
    (hany : w.fragmented_change.any
      (fun wc => decide (wc.sequenceNumber > incoming.sequenceNumber)) = false)
    (hres : process_fragment w.fragmented_change incoming N start count env = (res1, res2)) :
    (processDataFragMsg r incoming N start count env).1 = true ∧
    (processDataFragMsg r incoming N start count env).2.matched_writers_.find?
        (fun writer => decide (writer.guid = incoming.writerGUID))
      = some { w with fragmented_change := res1 } ∧
    (∀ c ∈ (processDataFragMsg r incoming N start count env).2.history,
      c ∈ r.history ∨ res2 = some c) ∧
    (∀ c ∈ (processDataFragMsg r incoming N start count env).2.listener_log,
      c ∈ r.listener_log ∨ res2 = some c) := by
  have hfind := find?_set_fragmented_change incoming.writerGUID res1 r.matched_writers_ w
    hmatched
  unfold processDataFragMsg
  simp only [hmatched, hupper, hany, Bool.not_false, if_true, Bool.false_eq_true, if_false,
    hres, assert_writer_liveliness]
  cases res2 with
  | none =>
    simp only
    rw [(liveliness_call_fields _ _).1, (liveliness_call_fields _ _).2.2.2.1,
      (liveliness_call_fields _ _).2.2.2.2.1]
    exact ⟨trivial, hfind, fun c hc => Or.inl hc, fun c hc => Or.inl hc⟩
  | some cc =>
    simp only
    rw [(liveliness_call_fields _ _).1, (liveliness_call_fields _ _).2.2.2.1,
      (liveliness_call_fields _ _).2.2.2.2.1]
    obtain ⟨a1, a2, a3⟩ := change_received_appends
      { r with matched_writers_ := set_fragmented_change incoming.writerGUID res1 r.matched_writers_ }
      cc env.received_change_ok
    refine ⟨trivial, ?_, ?_, ?_⟩
    · rw [a3]; exact hfind
    · intro c hc
      rcases a1 with h | h
      · rw [h] at hc; exact Or.inl hc
      · rw [h] at hc
        rcases List.mem_append.mp hc with h1 | h1
        · exact Or.inl h1
        · exact Or.inr (by rw [List.mem_singleton.mp h1])
    · intro c hc
      rcases a2 with h | h
      · rw [h] at hc; exact Or.inl hc
      · rw [h] at hc
        rcases List.mem_append.mp hc with h1 | h1
        · exact Or.inl h1
        · exact Or.inr (by rw [List.mem_singleton.mp h1])

/-- C32 (as amended): for a matched writer whose in-progress fragmented change has a sequence
number smaller than that of an incoming DATA_FRAG, itself above the last notified sequence
number, `processDataFragMsg` abandons the in-progress sample: what lines 500-553 make of the
slot is what the writer's slot holds afterwards, nothing or one change carrying the incoming
sequence number, and a change that the call adds to the history or hands to the listener
carries the incoming sequence number, so the abandoned change is not delivered; the buffer of
the pending change is reused for the incoming sample (same `max_size`, length `sampleSize`,
the pools are not asked) if and only if `sampleSize <= max_size` of the buffer, and otherwise
the pending change is released and the call proceeds as for an empty slot, reserving a
fresh change. -/
theorem older_pending_sample_abandoned (r : StatelessReader) (incomingChange : CacheChange_t)
    (sampleSize fragmentStartingNum fragmentsInSubmessage : Nat) (env : FragEnv)
    (w : RemoteWriterInfo_t) (wc : CacheChange_t)
    (hmatched : r.matched_writers_.find?
      (fun writer => decide (writer.guid = incomingChange.writerGUID)) = some w)
    (hpending : w.fragmented_change = some wc)
    (holder : wc.sequenceNumber < incomingChange.sequenceNumber)
    (hfresh : r.last_notified incomingChange.writerGUID < incomingChange.sequenceNumber) :
    (processDataFragMsg r incomingChange sampleSize fragmentStartingNum
      fragmentsInSubmessage env).1 = true ∧
    (∃ w1, (processDataFragMsg r incomingChange sampleSize fragmentStartingNum
          fragmentsInSubmessage env).2.matched_writers_.find?
          (fun writer => decide (writer.guid = incomingChange.writerGUID)) = some w1 ∧
      w1.fragmented_change = (process_fragment (some wc) incomingChange sampleSize
        fragmentStartingNum fragmentsInSubmessage env).1 ∧
      ∀ c, w1.fragmented_change = some c →
        c.sequenceNumber = incomingChange.sequenceNumber) ∧
    (∀ c ∈ (processDataFragMsg r incomingChange sampleSize fragmentStartingNum
          fragmentsInSubmessage env).2.history,
      c ∈ r.history ∨ c.sequenceNumber = incomingChange.sequenceNumber) ∧
    (∀ c ∈ (processDataFragMsg r incomingChange sampleSize fragmentStartingNum
          fragmentsInSubmessage env).2.listener_log,
      c ∈ r.listener_log ∨ c.sequenceNumber = incomingChange.sequenceNumber) ∧
    (sampleSize ≤ wc.serializedPayload.max_size →
      process_fragment (some wc) incomingChange sampleSize fragmentStartingNum
          fragmentsInSubmessage env
        = (if (add_fragments (reused_change wc incomingChange sampleSize)
                fragmentStartingNum fragmentsInSubmessage).1 then
            (none, some (add_fragments (reused_change wc incomingChange sampleSize)
                fragmentStartingNum fragmentsInSubmessage).2)
           else (some (add_fragments (reused_change wc incomingChange sampleSize)
                fragmentStartingNum fragmentsInSubmessage).2, none)) ∧
      (reused_change wc incomingChange sampleSize).serializedPayload.max_size
        = wc.serializedPayload.max_size) ∧
    (wc.serializedPayload.max_size < sampleSize →
      process_fragment (some wc) incomingChange sampleSize fragmentStartingNum
          fragmentsInSubmessage env
        = process_fragment none incomingChange sampleSize fragmentStartingNum
          fragmentsInSubmessage env) := by
  have hupper : thereIsUpperRecordOf r incomingChange.writerGUID incomingChange.sequenceNumber
      = false := by
    simp [thereIsUpperRecordOf, get_last_notified, hfresh]
  have hany : w.fragmented_change.any
      (fun wc => decide (wc.sequenceNumber > incomingChange.sequenceNumber)) = false := by
    rw [hpending]
    simp [Option.any, le_of_lt holder]
  have hseq := process_fragment_sequenceNumber (some wc) incomingChange sampleSize
    fragmentStartingNum fragmentsInSubmessage env
    (by intro x hx; cases hx; exact le_of_lt holder)
  obtain ⟨hfit, hbig⟩ := process_fragment_older wc incomingChange sampleSize
    fragmentStartingNum fragmentsInSubmessage env holder
  obtain ⟨o1, o2, o3, o4⟩ := processDataFragMsg_outcome r incomingChange sampleSize
    fragmentStartingNum fragmentsInSubmessage env w
    (process_fragment (some wc) incomingChange sampleSize fragmentStartingNum
      fragmentsInSubmessage env).1
    (process_fragment (some wc) incomingChange sampleSize fragmentStartingNum
      fragmentsInSubmessage env).2
    hmatched hupper hany (by rw [hpending])
  refine ⟨o1, ⟨_, o2, rfl, fun c hc => hseq c (Or.inl hc)⟩, ?_, ?_,
    fun h => ⟨hfit h, rfl⟩, hbig⟩
  · intro c hc
    rcases o3 c hc with h | h
    · exact Or.inl h
    · exact Or.inr (hseq c (Or.inr h))
  · intro c hc
    rcases o4 c hc with h | h
    · exact Or.inl h
    · exact Or.inr (hseq c (Or.inr h))


/-- Witness of `older_pending_sample_abandoned`: fragment 1 of sample 12 (20 bytes in
fragments of 10) arrives while sample 9 is under reassembly in a buffer of 20 bytes. -/
theorem older_pending_sample_abandoned_witness :
    (processDataFragMsg busyReader (sampleFragCall 12 10 1 20).incomingChange 20 1 1
      (okFragEnv 20)).1 = true ∧
    (processDataFragMsg busyReader (sampleFragCall 12 10 1 20).incomingChange 20 1 1
        (okFragEnv 20)).2.matched_writers_.map
      (fun writer => writer.fragmented_change.map (fun wc => wc.sequenceNumber))
      = [some 12] :=
  ⟨(older_pending_sample_abandoned busyReader (sampleFragCall 12 10 1 20).incomingChange
      20 1 1 (okFragEnv 20)
      { guid := sampleWriter, persistence_guid := ⟨[], 0⟩, has_manual_topic_liveliness := false,
        is_datasharing := false,
        fragmented_change := some
          { kind := ChangeKind_t.ALIVE, writerGUID := sampleWriter, sequenceNumber := 9,
            serializedPayload := ⟨20, 20⟩, isRead := false,
            fragment_size := 10, fragment_count := 2, missing_fragments := [2] } }
      { kind := ChangeKind_t.ALIVE, writerGUID := sampleWriter, sequenceNumber := 9,
        serializedPayload := ⟨20, 20⟩, isRead := false,
        fragment_size := 10, fragment_count := 2, missing_fragments := [2] }
      rfl rfl (by decide) (by decide)).1,
   by decide⟩

/-- C32 (counterexample): sample 9 of the matched writer is under reassembly when the
complete sample 10 is received, which makes 10 the last notified sequence number; a
DATA_FRAG of sample 10 that arrives afterwards has a greater sequence number than the
in-progress change, yet the in-progress sample is not abandoned: the slot still holds the
change of sample 9. -/
theorem stale_fragment_keeps_older_pending_sample :
    overtakenReader.last_notified sampleWriter = 10 ∧
    overtakenReader.matched_writers_.map
      (fun writer => writer.fragmented_change.map (fun wc => wc.sequenceNumber))
      = [some 9] ∧
    (processDataFragMsg overtakenReader (sampleFragCall 10 10 1 20).incomingChange 20 1 1
      (okFragEnv 20)).1 = true ∧
    (processDataFragMsg overtakenReader (sampleFragCall 10 10 1 20).incomingChange 20 1 1
        (okFragEnv 20)).2.matched_writers_.map
      (fun writer => writer.fragmented_change.map (fun wc => wc.sequenceNumber))
      = [some 9] := by
  decide

/-! ### Un-matching: the table of matched writers -/

theorem matched_writer_remove_loop_table (r : StatelessReader) (g : GUID_t) (rbl : Bool)
    (rest : List RemoteWriterInfo_t) :
    ∀ before : List RemoteWriterInfo_t,
      (matched_writer_remove_loop r g rbl before rest).1
        = rest.any (fun it => decide (it.guid = g)) ∧
      (matched_writer_remove_loop r g rbl before rest).2.matched_writers_
        = (if rest.any (fun it => decide (it.guid = g)) then
            before ++ rest.eraseP (fun it => decide (it.guid = g))
           else r.matched_writers_) := by
  induction rest with
  | nil => intro before; exact ⟨rfl, rfl⟩
  | cons it rest ih =>
    intro before
    by_cases hg : it.guid = g
    · simp only [matched_writer_remove_loop, hg, if_true, List.any_cons, decide_True,
        Bool.true_or, List.eraseP_cons_of_pos]
      exact ⟨trivial, trivial⟩
    · obtain ⟨i1, i2⟩ := ih (before ++ [it])
      simp only [matched_writer_remove_loop, hg, if_false, List.any_cons, decide_False,
        Bool.false_or, i1, i2]
      refine ⟨trivial, ?_⟩
      split
      · rw [List.eraseP_cons_of_neg (by simpa using hg)]
        simp
      · rfl

theorem eraseP_guid_eq_filter (g : GUID_t) (ws : List RemoteWriterInfo_t)
    (h : (ws.map (fun w => w.guid)).Nodup) :
    ws.eraseP (fun it => decide (it.guid = g)) = ws.filter (fun w => decide (w.guid ≠ g)) := by
  induction ws with
  | nil => rfl
  | cons a ws ih =>
    rw [List.map_cons, List.nodup_cons] at h
    by_cases ha : a.guid = g
    · rw [List.eraseP_cons_of_pos (by simpa using ha)]
      have hall : ∀ x ∈ ws, decide (x.guid ≠ g) = true := by
        intro x hx
        have : x.guid ≠ g := by
          intro hxg
          exact h.1 (List.mem_map.mpr ⟨x, hx, hxg.trans ha.symm⟩)
        simpa using this
      rw [List.filter_cons, if_neg (by simp [ha]), List.filter_eq_self.mpr hall]
    · rw [List.eraseP_cons_of_neg (by simpa using ha)]
      simp [List.filter_cons, ha, ih h.2]

/-- The table and the history after `matched_writer_remove`, for a table without two entries
of one writer. -/
theorem matched_writer_remove_table (r : StatelessReader) (g : GUID_t) (rbl : Bool)
    (hnodup : (r.matched_writers_.map (fun w => w.guid)).Nodup) :
    (matched_writer_remove r g rbl).1 = matched_writer_is_matched r g ∧
    (matched_writer_remove r g rbl).2.matched_writers_
      = r.matched_writers_.filter (fun w => decide (w.guid ≠ g)) ∧
    (matched_writer_remove r g rbl).2.history
      = r.history.filter (fun c => !decide (c.writerGUID = g)) := by
  have hmw : (liveliness_call (remove_changes_with_guid r g)
      (LivelinessCall.remove_writer g)).matched_writers_ = r.matched_writers_ := by
    rw [(liveliness_call_fields _ _).2.2.2.2.1]; rfl
  have hh : (liveliness_call (remove_changes_with_guid r g)
      (LivelinessCall.remove_writer g)).history
      = r.history.filter (fun c => !decide (c.writerGUID = g)) := by
    rw [(liveliness_call_fields _ _).1]
    simp [remove_changes_with_guid, history_remove_where_fst]
  obtain ⟨t1, t2⟩ := matched_writer_remove_loop_table
    (liveliness_call (remove_changes_with_guid r g) (LivelinessCall.remove_writer g))
    g rbl r.matched_writers_ []
  unfold matched_writer_remove
  simp only [hmw]
  refine ⟨t1, ?_, ?_⟩
  · rw [t2, hmw, ← eraseP_guid_eq_filter g _ hnodup]
    split
    · simp
    · rename_i hnone
      rw [List.eraseP_of_forall_not]
      intro a ha
      have hall : ∀ x ∈ r.matched_writers_, ¬ x.guid = g := by simpa using hnone
      simpa using hall a ha
  · rcases matched_writer_remove_loop_history
      (liveliness_call (remove_changes_with_guid r g) (LivelinessCall.remove_writer g))
      g rbl r.matched_writers_ [] with h | h
    · rw [h, hh]
    · rw [h, hh, List.filter_filter]
      simp


theorem matched_writer_add_table (r : StatelessReader) (wdata : WriterProxyData)
    (env : MatchEnv) :
    (matched_writer_add r wdata env).2.matched_writers_ = r.matched_writers_ ∨
    (r.matched_writers_.any (fun writer => decide (writer.guid = wdata.guid)) = false ∧
      ∃ info : RemoteWriterInfo_t, info.guid = wdata.guid ∧
        (matched_writer_add r wdata env).2.matched_writers_ = r.matched_writers_ ++ [info]) := by
  by_cases hm : r.matched_writers_.any (fun writer => decide (writer.guid = wdata.guid)) = true
  · left
    simp [matched_writer_add, hm]
  · have hm2 : r.matched_writers_.any (fun writer => decide (writer.guid = wdata.guid))
        = false := by simpa using hm
    by_cases hfull : r.matched_writers_max ≤ r.matched_writers_.length
    · left
      cases hd : env.is_datasharing <;> cases hok : env.add_datasharing_writer_ok <;>
        simp [matched_writer_add, hm2, hfull, hd, hok]
    · by_cases hds : env.is_datasharing = true ∧ env.add_datasharing_writer_ok = false
      · left
        simp [matched_writer_add, hm2, hds.1, hds.2]
      · right
        refine ⟨hm2, ?_⟩
        have hroom : r.matched_writers_.length < r.matched_writers_max := Nat.not_le.mp hfull
        obtain ⟨_, h2⟩ := matched_writer_add_fresh r wdata env hm2 hroom
          (by
            intro hd
            cases hok : env.add_datasharing_writer_ok
            · exact absurd ⟨hd, hok⟩ hds
            · rfl)
        exact ⟨_, rfl, h2⟩

theorem set_fragmented_change_guids (g : GUID_t) (x : Option CacheChange_t)
    (ws : List RemoteWriterInfo_t) :
    (set_fragmented_change g x ws).map (fun w => w.guid) = ws.map (fun w => w.guid) := by
  induction ws with
  | nil => rfl
  | cons a ws ih =>
    by_cases ha : a.guid = g
    · simp [set_fragmented_change, ha]
    · simp [set_fragmented_change, ha, ih]

theorem processDataMsg_table (r : StatelessReader) (c : CacheChange_t) (env : DataEnv) :
    (processDataMsg r c env).2.matched_writers_ = r.matched_writers_ := by
  unfold processDataMsg
  simp only [assert_writer_liveliness]
  split
  · split
    · rfl
    · split
      · rfl
      · split
        · rfl
        · split
          · exact (change_received_appends _ _ _).2.2
          · rw [(liveliness_call_fields _ _).2.2.2.2.1]
            exact (change_received_appends _ _ _).2.2
  · rfl

theorem processDataFragMsg_guids (r : StatelessReader) (c : CacheChange_t)
    (sampleSize start count : Nat) (env : FragEnv) :
    (processDataFragMsg r c sampleSize start count env).2.matched_writers_.map
        (fun w => w.guid)
      = r.matched_writers_.map (fun w => w.guid) := by
  unfold processDataFragMsg
  simp only [assert_writer_liveliness]
  split
  · split
    · split
      · rfl
      · rw [(liveliness_call_fields _ _).2.2.2.2.1]
        split
        · rw [(change_received_appends _ _ _).2.2]
          exact set_fragmented_change_guids _ _ _
        · exact set_fragmented_change_guids _ _ _
    · rw [(liveliness_call_fields _ _).2.2.2.2.1]
  · rfl

theorem ReaderCall.apply_nodup (r : StatelessReader) (call : ReaderCall)
    (h : (r.matched_writers_.map (fun w => w.guid)).Nodup) :
    ((ReaderCall.apply r call).matched_writers_.map (fun w => w.guid)).Nodup := by
  cases call with
  | op o =>
    cases o with
    | matched_writer_add wdata env =>
      show ((FastDDS.matched_writer_add r wdata env).2.matched_writers_.map
        (fun w => w.guid)).Nodup
      rcases matched_writer_add_table r wdata env with e | ⟨hnew, info, hinfo, e⟩
      · rw [e]; exact h
      · rw [e, List.map_append, List.map_singleton, hinfo]
        refine List.Nodup.append h (List.nodup_singleton _) ?_
        intro x hx hx2
        rw [List.mem_singleton] at hx2
        subst hx2
        obtain ⟨w, hw, hwg⟩ := List.mem_map.mp hx
        have := List.any_eq_false.mp hnew w hw
        simp [hwg] at this
    | processDataMsg change env =>
      show ((FastDDS.processDataMsg r change env).2.matched_writers_.map
        (fun w => w.guid)).Nodup
      rw [processDataMsg_table]; exact h
    | processDataFragMsg change sampleSize start count env =>
      show ((FastDDS.processDataFragMsg r change sampleSize start count
        env).2.matched_writers_.map (fun w => w.guid)).Nodup
      rw [processDataFragMsg_guids]; exact h
  | matched_writer_remove g rbl =>
    show ((FastDDS.matched_writer_remove r g rbl).2.matched_writers_.map
      (fun w => w.guid)).Nodup
    rw [(matched_writer_remove_table r g rbl h).2.1]
    exact List.Nodup.sublist (List.Sublist.map _ (List.filter_sublist _)) h

theorem runCalls_nodup (calls : List ReaderCall) :
    ∀ r : StatelessReader, (r.matched_writers_.map (fun w => w.guid)).Nodup →
      ((runCalls r calls).matched_writers_.map (fun w => w.guid)).Nodup := by
  induction calls with
  | nil => intro r h; exact h
  | cons call calls ih =>
    intro r h
    exact ih _ (ReaderCall.apply_nodup r call h)

/-- C38: in every reader state reached by reader calls from a table without two entries of
one writer (an empty table in particular), for every GUID g: `matched_writer_remove(g)`
returns true if and only if g is in `matched_writers_`; the table afterwards is the table
before without the entry of g, the entries of all other writers unchanged and in the same
order, so that `matched_writer_is_matched(g)` is false; when g was not matched the table is
unchanged; and in both cases the history afterwards is the history before without the
changes of g. -/
theorem matched_writer_remove_frame (r0 : StatelessReader) (calls : List ReaderCall)
    (g : GUID_t) (removed_by_lease : Bool)
    (h0 : (r0.matched_writers_.map (fun w => w.guid)).Nodup) :
    ((matched_writer_remove (runCalls r0 calls) g removed_by_lease).1 = true ↔
      matched_writer_is_matched (runCalls r0 calls) g = true) ∧
    (matched_writer_remove (runCalls r0 calls) g removed_by_lease).2.matched_writers_
      = (runCalls r0 calls).matched_writers_.filter (fun w => decide (w.guid ≠ g)) ∧
    matched_writer_is_matched
      (matched_writer_remove (runCalls r0 calls) g removed_by_lease).2 g = false ∧
    (matched_writer_is_matched (runCalls r0 calls) g = false →
      (matched_writer_remove (runCalls r0 calls) g removed_by_lease).2.matched_writers_
        = (runCalls r0 calls).matched_writers_) ∧
    (matched_writer_remove (runCalls r0 calls) g removed_by_lease).2.history
      = (runCalls r0 calls).history.filter (fun c => !decide (c.writerGUID = g)) := by
  have hnodup := runCalls_nodup calls r0 h0
  obtain ⟨t1, t2, t3⟩ := matched_writer_remove_table (runCalls r0 calls) g removed_by_lease
    hnodup
  refine ⟨by rw [t1], t2, ?_, ?_, t3⟩
  · unfold matched_writer_is_matched
    rw [t2, List.any_eq_false]
    intro w hw
    simpa using (List.mem_filter.mp hw).2
  · intro hnot
    rw [t2, List.filter_eq_self]
    intro w hw
    unfold matched_writer_is_matched at hnot
    have := List.any_eq_false.mp hnot w hw
    simpa using this

/-- Witness of `matched_writer_remove_frame`: two writers are matched and the first one is
removed; the entry of the second one stays. -/
theorem matched_writer_remove_frame_witness :
    (matched_writer_remove
      (runCalls sampleReader
        [ReaderCall.op (ReaderOp.matched_writer_add sampleWriterData plainMatchEnv),
         ReaderCall.op (ReaderOp.matched_writer_add
           { sampleWriterData with guid := ⟨[2], 3⟩ } plainMatchEnv)])
      sampleWriter false).2.matched_writers_.map (fun w => w.guid) = [⟨[2], 3⟩] ∧
    matched_writer_is_matched
      (matched_writer_remove
        (runCalls sampleReader
          [ReaderCall.op (ReaderOp.matched_writer_add sampleWriterData plainMatchEnv),
           ReaderCall.op (ReaderOp.matched_writer_add
             { sampleWriterData with guid := ⟨[2], 3⟩ } plainMatchEnv)])
        sampleWriter false).2 sampleWriter = false :=
  ⟨by decide,
   (matched_writer_remove_frame sampleReader
      [ReaderCall.op (ReaderOp.matched_writer_add sampleWriterData plainMatchEnv),
       ReaderCall.op (ReaderOp.matched_writer_add
         { sampleWriterData with guid := ⟨[2], 3⟩ } plainMatchEnv)]
      sampleWriter false (by decide)).2.2.1⟩

/-! ### Reading: the next unread change -/

theorem nextUnreadCache_loop_spec (history : List CacheChange_t) :
    (nextUnreadCache_loop history = none ∧ ∀ x ∈ history, x.isRead = true) ∨
    (∃ c pre post, nextUnreadCache_loop history = some c ∧ history = pre ++ c :: post ∧
      c.isRead = false ∧ ∀ x ∈ pre, x.isRead = true) := by
  induction history with
  | nil => exact Or.inl ⟨rfl, fun x hx => by cases hx⟩
  | cons it rest ih =>
    cases hr : it.isRead with
    | false =>
      right
      exact ⟨it, [], rest, by simp [nextUnreadCache_loop, hr], rfl, hr,
        fun x hx => by cases hx⟩
    | true =>
      rcases ih with ⟨hnone, hall⟩ | ⟨c, pre, post, hsome, hsplit, hc, hpre⟩
      · left
        refine ⟨by simp [nextUnreadCache_loop, hr, hnone], ?_⟩
        intro x hx
        rcases List.mem_cons.mp hx with e | e
        · rw [e]; exact hr
        · exact hall x e
      · right
        refine ⟨c, it :: pre, post, by simp [nextUnreadCache_loop, hr, hsome],
          by rw [hsplit]; rfl, hc, ?_⟩
        intro x hx
        rcases List.mem_cons.mp hx with e | e
        · rw [e]; exact hr
        · exact hpre x e

/-- C39: `nextUnreadCache` returns true if and only if the history contains a change whose
isRead flag is false; either it finds none, every change of the history being read, or it
yields the first unread change in history order; it leaves the reader as it was (history,
isRead flags and unread counter), so that a second call returns what the first returned. -/
theorem nextUnreadCache_first_unread (r : StatelessReader) :
    ((nextUnreadCache r).1 = true ↔ ∃ c ∈ r.history, c.isRead = false) ∧
    (((nextUnreadCache r).1 = false ∧ (nextUnreadCache r).2.1 = none ∧
        ∀ x ∈ r.history, x.isRead = true) ∨
     (∃ c pre post, (nextUnreadCache r).1 = true ∧ (nextUnreadCache r).2.1 = some c ∧
        r.history = pre ++ c :: post ∧ c.isRead = false ∧ ∀ x ∈ pre, x.isRead = true)) ∧
    (nextUnreadCache r).2.2 = r ∧
    nextUnreadCache (nextUnreadCache r).2.2 = nextUnreadCache r := by
  have hsame : (nextUnreadCache r).2.2 = r := by
    unfold nextUnreadCache
    split <;> rfl
  refine ⟨?_, ?_, hsame, by rw [hsame]⟩
  · rcases nextUnreadCache_loop_spec r.history with ⟨hnone, hall⟩ | ⟨c, pre, post, hsome, hsplit, hc, _⟩
    · simp only [nextUnreadCache, hnone, Bool.false_eq_true, false_iff, not_exists, not_and]
      intro c hc
      simp [hall c hc]
    · simp only [nextUnreadCache, hsome, true_iff]
      exact ⟨c, by rw [hsplit]; simp, hc⟩
  · rcases nextUnreadCache_loop_spec r.history with ⟨hnone, hall⟩ | ⟨c, pre, post, hsome, hsplit, hc, hpre⟩
    · left
      simp only [nextUnreadCache, hnone]
      exact ⟨trivial, trivial, hall⟩
    · right
      refine ⟨c, pre, post, ?_, ?_, hsplit, hc, hpre⟩ <;> simp only [nextUnreadCache, hsome]

/-! ### Reading: the unread counter -/

theorem countP_set_unread (l : List CacheChange_t) :
    ∀ (i : Nat) (a c : CacheChange_t), l[i]? = some c →
      (l.set i a).countP (fun c => !c.isRead) + (if c.isRead then 0 else 1)
        = l.countP (fun c => !c.isRead) + (if a.isRead then 0 else 1) := by
  induction l with
  | nil => intro i a c h; simp at h
  | cons x xs ih =>
    intro i a c h
    cases i with
    | zero =>
      simp only [List.getElem?_cons_zero, Option.some.injEq] at h
      subst h
      simp only [List.set_cons_zero, List.countP_cons]
      cases x.isRead <;> cases a.isRead <;> simp
    | succ i =>
      simp only [List.getElem?_cons_succ] at h
      have := ih i a c h
      simp only [List.set_cons_succ, List.countP_cons]
      omega

theorem countP_eraseIdx_unread (l : List CacheChange_t) :
    ∀ (i : Nat) (c : CacheChange_t), l[i]? = some c →
      (l.eraseIdx i).countP (fun c => !c.isRead) + (if c.isRead then 0 else 1)
        = l.countP (fun c => !c.isRead) := by
  induction l with
  | nil => intro i c h; simp at h
  | cons x xs ih =>
    intro i c h
    cases i with
    | zero =>
      simp only [List.getElem?_cons_zero, Option.some.injEq] at h
      subst h
      simp only [List.eraseIdx_cons_zero, List.countP_cons]
      cases x.isRead <;> simp
    | succ i =>
      simp only [List.getElem?_cons_succ] at h
      have := ih i c h
      simp only [List.eraseIdx_cons_succ, List.countP_cons]
      omega

theorem change_received_unread (r : StatelessReader) (c : CacheChange_t) (ok : Bool)
    (hc : c.isRead = false) (h : r.total_unread_ = unread_in_history r) :
    (change_received r c ok).2.total_unread_ = unread_in_history (change_received r c ok).2 := by
  unfold change_received
  simp only [update_last_notified, unread_in_history] at h ⊢
  split
  · split
    · split <;> simp [List.countP_append, hc, h]
    · exact h
  · exact h

theorem end_sample_access_nts_unread (r : StatelessReader) (i : Nat) (mark : Bool)
    (h : r.total_unread_ = unread_in_history r) :
    (end_sample_access_nts r i mark).total_unread_
      = unread_in_history (end_sample_access_nts r i mark) := by
  unfold end_sample_access_nts
  cases hi : r.history[i]? with
  | none => exact h
  | some c =>
    have hset := countP_set_unread r.history i (change_read_by_user c r.total_unread_ mark).1
      c hi
    simp only [unread_in_history] at h ⊢
    cases hm : mark <;> cases hr : c.isRead <;>
      simp only [change_read_by_user, hm, hr, Bool.not_false, Bool.not_true, Bool.and_true,
        Bool.and_false, Bool.false_and, Bool.true_and, Bool.false_eq_true, if_false, if_true]
        at hset ⊢ <;>
      (try split) <;> omega

theorem remove_change_unread (r : StatelessReader) (i : Nat)
    (h : r.total_unread_ = unread_in_history r) :
    (remove_change r i).total_unread_ = unread_in_history (remove_change r i) := by
  unfold remove_change
  cases hi : r.history[i]? with
  | none => exact h
  | some c =>
    have herase := countP_eraseIdx_unread r.history i c hi
    simp only [unread_in_history] at h ⊢
    cases hr : c.isRead <;>
      simp only [change_removed_by_history, hr, Bool.not_false, Bool.not_true,
        Bool.false_eq_true, if_false, if_true] at herase ⊢ <;>
      (try split) <;> omega

theorem runUnreadOps_unread (ops : List UnreadOp) :
    ∀ r : StatelessReader, ReceivedUnread ops → r.total_unread_ = unread_in_history r →
      (runUnreadOps r ops).total_unread_ = unread_in_history (runUnreadOps r ops) := by
  induction ops with
  | nil => intro r _ h; exact h
  | cons op ops ih =>
    intro r hops h
    have hrest : ReceivedUnread ops := fun c ok hc => hops c ok (List.mem_cons_of_mem _ hc)
    refine ih _ hrest ?_
    cases op with
    | change_received c ok =>
      exact change_received_unread r c ok (hops c ok (List.mem_cons_self _ _)) h
    | end_sample_access_nts i mark => exact end_sample_access_nts_unread r i mark h
    | remove_change i => exact remove_change_unread r i h


theorem set_of_getElem? (l : List CacheChange_t) :
    ∀ (i : Nat) (c : CacheChange_t), l[i]? = some c → l.set i c = l := by
  induction l with
  | nil => intro i c h; simp at h
  | cons x xs ih =>
    intro i c h
    cases i with
    | zero =>
      simp only [List.getElem?_cons_zero, Option.some.injEq] at h
      rw [h]; rfl
    | succ i =>
      simp only [List.getElem?_cons_succ] at h
      simp only [List.set_cons_succ, ih i c h]

theorem getElem?_set_of_getElem? (l : List CacheChange_t) :
    ∀ (i : Nat) (a c : CacheChange_t), l[i]? = some c → (l.set i a)[i]? = some a := by
  induction l with
  | nil => intro i a c h; simp at h
  | cons x xs ih =>
    intro i a c h
    cases i with
    | zero => simp only [List.set_cons_zero, List.getElem?_cons_zero]
    | succ i =>
      simp only [List.getElem?_cons_succ] at h
      simp only [List.set_cons_succ, List.getElem?_cons_succ, ih i a c h]

/-- An end of access that does not mark, or that finds the change already read, leaves the
reader as it was. -/
theorem end_sample_access_nts_same (r : StatelessReader) (i : Nat) (mark : Bool)
    (h : ∀ c, r.history[i]? = some c → mark = false ∨ c.isRead = true) :
    end_sample_access_nts r i mark = r := by
  unfold end_sample_access_nts
  cases hi : r.history[i]? with
  | none => rfl
  | some c =>
    have hno : (mark && !c.isRead) = false := by
      rcases h c hi with e | e <;> simp [e]
    simp only [change_read_by_user, hno, Bool.false_eq_true, if_false, set_of_getElem? _ i c hi]

/-- C35: starting from an empty history with the counter at 0, after every sequence of
`change_received` calls (for changes that arrive unread), ends of access
(`change_read_by_user`) to changes of the history and removals of changes of the history
(reported through `change_removed_by_history`), the counter `total_unread_` equals the number
of changes in the history whose isRead flag is false. In such a state an end of access with
mark_as_read=false leaves the reader, change and counter included, as it was; marking the
same change read a second time changes nothing; and marking or removing an unread change
finds the counter above zero and decrements it by exactly one, while doing so with a read
change leaves the counter as it was. -/
theorem unread_counter_invariant (r0 : StatelessReader) (ops : List UnreadOp) (index : Nat)
    (change : CacheChange_t)
    (hhistory : r0.history = []) (hcounter : r0.total_unread_ = 0)
    (hops : ReceivedUnread ops) :
    (runUnreadOps r0 ops).total_unread_ = unread_in_history (runUnreadOps r0 ops) ∧
    end_sample_access_nts (runUnreadOps r0 ops) index false = runUnreadOps r0 ops ∧
    end_sample_access_nts (end_sample_access_nts (runUnreadOps r0 ops) index true) index true
      = end_sample_access_nts (runUnreadOps r0 ops) index true ∧
    ((runUnreadOps r0 ops).history[index]? = some change → change.isRead = false →
      0 < (runUnreadOps r0 ops).total_unread_ ∧
      (end_sample_access_nts (runUnreadOps r0 ops) index true).total_unread_ + 1
        = (runUnreadOps r0 ops).total_unread_ ∧
      (remove_change (runUnreadOps r0 ops) index).total_unread_ + 1
        = (runUnreadOps r0 ops).total_unread_) ∧
    ((runUnreadOps r0 ops).history[index]? = some change → change.isRead = true →
      (end_sample_access_nts (runUnreadOps r0 ops) index true).total_unread_
        = (runUnreadOps r0 ops).total_unread_ ∧
      (remove_change (runUnreadOps r0 ops) index).total_unread_
        = (runUnreadOps r0 ops).total_unread_) := by
  have hinit : r0.total_unread_ = unread_in_history r0 := by
    rw [hcounter, unread_in_history, hhistory]; rfl
  have hinv := runUnreadOps_unread ops r0 hops hinit
  generalize runUnreadOps r0 ops = r at hinv ⊢
  refine ⟨hinv, end_sample_access_nts_same r index false (fun _ _ => Or.inl rfl), ?_, ?_, ?_⟩
  · apply end_sample_access_nts_same
    intro c hc
    right
    unfold end_sample_access_nts at hc
    cases hi : r.history[index]? with
    | none =>
      rw [hi] at hc
      simp only at hc
      rw [hi] at hc
      cases hc
    | some c0 =>
      rw [hi] at hc
      simp only at hc
      rw [getElem?_set_of_getElem? _ index _ c0 hi] at hc
      cases hc
      cases hr : c0.isRead <;> simp [change_read_by_user, hr]
  · intro hi hunread
    have hpos : 0 < r.total_unread_ := by
      rw [hinv, unread_in_history, List.countP_pos_iff]
      exact ⟨change, List.getElem?_mem hi, by simp [hunread]⟩
    refine ⟨hpos, ?_, ?_⟩
    · simp only [end_sample_access_nts, hi, change_read_by_user, hunread, Bool.not_false,
        Bool.and_true, if_true, hpos]
      omega
    · simp only [remove_change, hi, change_removed_by_history, hunread, Bool.not_false,
        if_true, hpos]
      omega
  · intro hi hread
    constructor
    · rw [end_sample_access_nts_same r index true (fun c hc => by
        rw [hi] at hc; cases hc; exact Or.inr hread)]
    · simp only [remove_change, hi, change_removed_by_history, hread, Bool.not_true,
        Bool.false_eq_true, if_false]

/-- Witness of `unread_counter_invariant`: two changes are received, the first is marked read
twice and then removed; one unread change is left and the counter is 1. -/
theorem unread_counter_invariant_witness :
    (runUnreadOps sampleReader
      [UnreadOp.change_received (sampleChange 1) true,
       UnreadOp.change_received (sampleChange 2) true,
       UnreadOp.end_sample_access_nts 0 true, UnreadOp.end_sample_access_nts 0 true,
       UnreadOp.remove_change 0]).total_unread_ = 1 ∧
    (runUnreadOps sampleReader
      [UnreadOp.change_received (sampleChange 1) true,
       UnreadOp.change_received (sampleChange 2) true,
       UnreadOp.end_sample_access_nts 0 true, UnreadOp.end_sample_access_nts 0 true,
       UnreadOp.remove_change 0]).total_unread_
      = unread_in_history (runUnreadOps sampleReader
          [UnreadOp.change_received (sampleChange 1) true,
           UnreadOp.change_received (sampleChange 2) true,
           UnreadOp.end_sample_access_nts 0 true, UnreadOp.end_sample_access_nts 0 true,
           UnreadOp.remove_change 0]) :=
  ⟨by decide,
   (unread_counter_invariant sampleReader
      [UnreadOp.change_received (sampleChange 1) true,
       UnreadOp.change_received (sampleChange 2) true,
       UnreadOp.end_sample_access_nts 0 true, UnreadOp.end_sample_access_nts 0 true,
       UnreadOp.remove_change 0] 0 (sampleChange 2) rfl rfl
      (by
        intro change ok hmem
        simp only [List.mem_cons, UnreadOp.change_received.injEq, List.mem_singleton,
          List.not_mem_nil, or_false, reduceCtorEq, false_or] at hmem
        rcases hmem with ⟨rfl, _⟩ | ⟨rfl, _⟩ <;> rfl)).1⟩

/-! ### The server list: the output list after a failure -/

/-- C36: whenever `load_environment_server_info` returns false for a non-empty input string,
the output list is empty, whatever it held before the call and whatever records earlier
slots of the string had produced; for the empty input string it returns false and leaves the
output list exactly as the caller passed it. -/
theorem load_failure_clears (env : ServerListEnv) (list : List Char)
    (attributes : RemoteServerList_t)
    (hnonempty : list ≠ [])
    (hfalse : (load_environment_server_info env list attributes).1 = false) :
    (load_environment_server_info env list attributes).2 = [] ∧
    load_environment_server_info env [] attributes = (false, attributes) := by
  refine ⟨?_, rfl⟩
  unfold load_environment_server_info at hfalse ⊢
  rw [if_neg hnonempty] at hfalse ⊢
  split
  · rfl
  · split
    · rfl
    · rename_i st hst hne
      rw [hst] at hfalse
      simp only [hne, if_false] at hfalse
      cases hfalse

set_option maxRecDepth 20000 in
/-- Witness of `load_failure_clears`: a good slot followed by a slot whose port does not fit
an int, parsed into a list that held a record. -/
theorem load_failure_clears_witness :
    (load_environment_server_info sampleEnv
      (joinSlots ["1.2.3.4:5000".toList, "9.9.9.9:99999999999".toList])
      [sampleServer none]).2 = [] ∧
    load_environment_server_info sampleEnv [] [sampleServer none]
      = (false, [sampleServer none]) :=
  load_failure_clears sampleEnv
    (joinSlots ["1.2.3.4:5000".toList, "9.9.9.9:99999999999".toList])
    [sampleServer none] (by decide) (by decide)

/-! ### The client engine: servers with a live proxy in a re-announcement -/

/-- C34: in `announceParticipantState(new_change=false, dispose=false)` with a non-empty
writer history one message is direct-sent, and its remote readers and locators are those
contributed, in server order, by the target servers alone, each target contributing its
PDP reader GUID and both its multicast and its unicast locators. With `_serverPing` false
every configured server is a target; with `_serverPing` true the targets are the servers
without a live proxy, so that a server with a live proxy is a target if and only if
`_serverPing` is false and contributes nothing when it is skipped. -/
theorem live_server_targeted_iff (s : PDPClient) (env : AnnounceEnv)
    (hhist : s.mp_PDPWriterHistory ≠ []) :
    ∃ (msg : DirectMessage) (targets : List RemoteServerAttributes),
      (announceParticipantState s false false env).sent = s.sent ++ [msg] ∧
      msg.remote_readers = targets.map (fun svr => svr.GetPDPReader) ∧
      msg.locators = targets.flatMap
        (fun svr => svr.metatrafficMulticastLocatorList ++ svr.metatrafficUnicastLocatorList) ∧
      (s._serverPing = false → targets = s.m_DiscoveryServers) ∧
      (s._serverPing = true →
        targets = s.m_DiscoveryServers.filter (fun svr => decide (svr.proxy = none))) ∧
      (∀ svr ∈ s.m_DiscoveryServers, svr.proxy ≠ none →
        (svr ∈ targets ↔ s._serverPing = false)) := by
  obtain ⟨pPD, hp⟩ := get_min_change_of_ne_nil _ hhist
  rw [reannouncement_sent s env pPD hp, announcement_targets_eq]
  refine ⟨_, s.m_DiscoveryServers.filter
    (fun svr => decide (svr.proxy = none ∨ s._serverPing = false)), rfl, rfl, rfl, ?_, ?_, ?_⟩
  · intro hping
    simp [hping]
  · intro hping
    simp [hping]
  · intro svr hsvr hlive
    simp [List.mem_filter, hsvr, hlive]

/-- Witness of `live_server_targeted_iff`: a client that pings and knows the proxy of its only
server sends a message without remote readers and without locators. -/
theorem live_server_targeted_iff_witness :
    ∃ (msg : DirectMessage) (targets : List RemoteServerAttributes),
      (announceParticipantState
        (sampleClient [sampleServer (some (sampleServerProxy 3))] true [sampleData])
        false false okAnnounceEnv).sent = [msg] ∧
      msg.remote_readers = targets.map (fun svr => svr.GetPDPReader) ∧
      targets = [] :=
  have h := live_server_targeted_iff
    (sampleClient [sampleServer (some (sampleServerProxy 3))] true [sampleData])
    okAnnounceEnv (by decide)
  match h with
  | ⟨msg, targets, h1, h2, _, _, h5, _⟩ => ⟨msg, targets, h1, h2, (h5 rfl).trans (by decide)⟩

/-! ### The client engine: the order of the mutexes -/

theorem announceParticipantState_locks_cases (s : PDPClient) (new_change dispose : Bool)
    (env : AnnounceEnv) :
    announceParticipantState_locks s new_change dispose env
      = [LockEvent.lock Mutex.PDPWriter, LockEvent.lock Mutex.PDP, LockEvent.unlock Mutex.PDP,
         LockEvent.unlock Mutex.PDPWriter] ∨
    announceParticipantState_locks s new_change dispose env
      = [LockEvent.lock Mutex.PDPWriter, LockEvent.unlock Mutex.PDPWriter] := by
  unfold announceParticipantState_locks
  cases dispose
  · cases new_change
    · simp only [Bool.false_eq_true, if_false, Bool.not_false, if_true]
      split
      · left; rfl
      · right; rfl
    · right; simp
  · by_cases hok : env.new_change_ok = true
    · left; simp [hok]
    · right; simp [hok]

/-- C33: in every execution of `announceParticipantState`, entered by a thread that does not
hold the engine mutex, the mutexes taken by the function respect the order: the PDP Writer
mutex is acquired first and released last, the engine mutex is acquired only after the
acquisition of the PDP Writer mutex and before its release, and the engine mutex is not held
when the PDP Writer mutex is acquired. A dispose for which the writer gives a change does
take the engine mutex. -/
theorem writer_mutex_before_engine_mutex (s : PDPClient) (new_change dispose : Bool)
    (env : AnnounceEnv) (held : List Mutex) (hentry : Mutex.PDP ∉ held) :
    lock_order_kept held (announceParticipantState_locks s new_change dispose env) = true ∧
    (announceParticipantState_locks s new_change dispose env).head?
      = some (LockEvent.lock Mutex.PDPWriter) ∧
    (announceParticipantState_locks s new_change dispose env).getLast?
      = some (LockEvent.unlock Mutex.PDPWriter) ∧
    (∀ i, (announceParticipantState_locks s new_change dispose env)[i]?
        = some (LockEvent.lock Mutex.PDP) →
      LockEvent.lock Mutex.PDPWriter
        ∈ (announceParticipantState_locks s new_change dispose env).take i ∧
      LockEvent.unlock Mutex.PDPWriter
        ∉ (announceParticipantState_locks s new_change dispose env).take i) ∧
    (∀ i, (announceParticipantState_locks s new_change dispose env)[i]?
        = some (LockEvent.lock Mutex.PDPWriter) →
      LockEvent.lock Mutex.PDP
        ∉ (announceParticipantState_locks s new_change dispose env).take i) ∧
    (dispose = true → env.new_change_ok = true →
      LockEvent.lock Mutex.PDP ∈ announceParticipantState_locks s new_change dispose env) := by
  refine ⟨?_, ?_, ?_, ?_, ?_, ?_⟩
  · rcases announceParticipantState_locks_cases s new_change dispose env with h | h <;>
      rw [h] <;> simp [lock_order_kept, hentry]
  · rcases announceParticipantState_locks_cases s new_change dispose env with h | h <;>
      rw [h] <;> rfl
  · rcases announceParticipantState_locks_cases s new_change dispose env with h | h <;>
      rw [h] <;> rfl
  · intro i hi
    rcases announceParticipantState_locks_cases s new_change dispose env with h | h <;>
      rw [h] at hi ⊢ <;>
      rcases i with _ | _ | _ | _ | i <;> simp at hi ⊢
  · intro i hi
    rcases announceParticipantState_locks_cases s new_change dispose env with h | h <;>
      rw [h] at hi ⊢ <;>
      rcases i with _ | _ | _ | _ | i <;> simp at hi ⊢
  · intro hd hok
    subst hd
    simp [announceParticipantState_locks, hok]

/-- Witness of `writer_mutex_before_engine_mutex`: a re-announcement of a client with its data
in the writer history, entered without any mutex held. -/
theorem writer_mutex_before_engine_mutex_witness :
    lock_order_kept []
      (announceParticipantState_locks (sampleClient [sampleServer none] false [sampleData])
        false false okAnnounceEnv) = true ∧
    announceParticipantState_locks (sampleClient [sampleServer none] false [sampleData])
        false false okAnnounceEnv
      = [LockEvent.lock Mutex.PDPWriter, LockEvent.lock Mutex.PDP, LockEvent.unlock Mutex.PDP,
         LockEvent.unlock Mutex.PDPWriter] :=
  ⟨(writer_mutex_before_engine_mutex (sampleClient [sampleServer none] false [sampleData])
      false false okAnnounceEnv [] (by decide)).1, by decide⟩

/-! ### The client engine: matching the servers of an updated list -/

theorem PDPReader.matched_writer_add_fields (r : PDPReader) (wdata : WriterProxyData) :
    (r.matched_writer_add wdata).2.calls
      = r.calls ++ [PDPReaderCall.matched_writer_add wdata] ∧
    (∀ g, g ≠ wdata.guid →
      (r.matched_writer_add wdata).2.matched_writer_is_matched g
        = r.matched_writer_is_matched g) := by
  unfold PDPReader.matched_writer_add
  split
  · exact ⟨rfl, fun g _ => rfl⟩
  · split
    · exact ⟨rfl, fun g _ => rfl⟩
    · refine ⟨rfl, fun g hg => ?_⟩
      simp only [PDPReader.matched_writer_is_matched, List.any_append, List.any_cons,
        List.any_nil, Bool.or_false]
      have : decide (wdata.guid = g) = false := by simpa using fun h => hg h.symm
      rw [this, Bool.or_false]

theorem PDPWriter.matched_reader_add_fields (w : PDPWriter) (rdata : ReaderProxyData) :
    (w.matched_reader_add rdata).2.calls
      = w.calls ++ [PDPWriterCall.matched_reader_add rdata] ∧
    (∀ g, g ≠ rdata.guid →
      (w.matched_reader_add rdata).2.matched_reader_is_matched g
        = w.matched_reader_is_matched g) := by
  unfold PDPWriter.matched_reader_add
  split
  · exact ⟨rfl, fun g _ => rfl⟩
  · split
    · exact ⟨rfl, fun g _ => rfl⟩
    · refine ⟨rfl, fun g hg => ?_⟩
      simp only [PDPWriter.matched_reader_is_matched, List.any_append, List.any_cons,
        List.any_nil, Bool.or_false]
      have : decide (rdata.guid = g) = false := by simpa using fun h => hg h.symm
      rw [this, Bool.or_false]

/-- One server of the loop of `update_remote_servers_list`. -/
theorem update_remote_server_step (t : PDPClient) (it : RemoteServerAttributes) :
    (t.mp_PDPReader.matched_writer_is_matched it.GetPDPWriter = true →
      update_remote_server t it = t) ∧
    (t.mp_PDPReader.matched_writer_is_matched it.GetPDPWriter = false →
      (update_remote_server t it).mp_PDPReader.calls
        = t.mp_PDPReader.calls ++ writer_matching_calls [it] ∧
      (update_remote_server t it).mp_PDPWriter.calls
        = t.mp_PDPWriter.calls ++
          (if t.mp_PDPWriter.matched_reader_is_matched it.GetPDPReader then []
           else reader_matching_calls [it])) ∧
    (update_remote_server t it).m_DiscoveryServers = t.m_DiscoveryServers ∧
    (∀ x : RemoteServerAttributes, x.guidPrefix ≠ it.guidPrefix →
      (update_remote_server t it).mp_PDPReader.matched_writer_is_matched x.GetPDPWriter
        = t.mp_PDPReader.matched_writer_is_matched x.GetPDPWriter ∧
      (update_remote_server t it).mp_PDPWriter.matched_reader_is_matched x.GetPDPReader
        = t.mp_PDPWriter.matched_reader_is_matched x.GetPDPReader) := by
  have hw : ∀ x : RemoteServerAttributes, x.guidPrefix ≠ it.guidPrefix →
      x.GetPDPWriter ≠ it.GetPDPWriter := by
    intro x hx h
    exact hx (congrArg GUID_t.guidPrefix h)
  have hr : ∀ x : RemoteServerAttributes, x.guidPrefix ≠ it.guidPrefix →
      x.GetPDPReader ≠ it.GetPDPReader := by
    intro x hx h
    exact hx (congrArg GUID_t.guidPrefix h)
  cases hm : t.mp_PDPReader.matched_writer_is_matched it.GetPDPWriter with
  | true =>
    have hsame : update_remote_server t it = t := by
      simp [update_remote_server, hm]
    rw [hsame]
    exact ⟨fun _ => rfl, fun h => (by cases h), rfl, fun x _ => ⟨rfl, rfl⟩⟩
  | false =>
    obtain ⟨a1, a2⟩ := PDPReader.matched_writer_add_fields t.mp_PDPReader
      { guid := it.GetPDPWriter, persistence_guid := c_Guid_Unknown,
        manual_by_topic_liveliness := false }
    obtain ⟨b1, b2⟩ := PDPWriter.matched_reader_add_fields t.mp_PDPWriter
      { guid := it.GetPDPReader, m_expectsInlineQos := false }
    cases hm2 : t.mp_PDPWriter.matched_reader_is_matched it.GetPDPReader with
    | true =>
      have hsame : update_remote_server t it = match_pdp_writer_nts_ t it := by
        simp [update_remote_server, hm, match_pdp_writer_nts_, hm2]
      rw [hsame]
      refine ⟨fun h => (by cases h), fun _ => ⟨a1, by simp [match_pdp_writer_nts_]⟩, rfl,
        fun x hx => ⟨a2 _ (hw x hx), rfl⟩⟩
    | false =>
      have hsame : update_remote_server t it
          = match_pdp_reader_nts_ (match_pdp_writer_nts_ t it) it := by
        simp [update_remote_server, hm, match_pdp_writer_nts_, hm2]
      rw [hsame]
      refine ⟨fun h => (by cases h), fun _ => ⟨a1, ?_⟩, rfl, fun x hx => ⟨a2 _ (hw x hx), ?_⟩⟩
      · simpa [match_pdp_reader_nts_, match_pdp_writer_nts_, reader_matching_calls] using b1
      · exact b2 _ (hr x hx)


/-- The loop of `update_remote_servers_list` over servers with distinct GUID prefixes: the
matching calls made are decided by the matching state at the start of the loop. -/
theorem update_remote_server_foldl (rest : List RemoteServerAttributes) :
    ∀ t : PDPClient, (rest.map (fun it => it.guidPrefix)).Nodup →
      (rest.foldl update_remote_server t).mp_PDPReader.calls
        = t.mp_PDPReader.calls ++ writer_matching_calls
            (rest.filter (fun it =>
              !t.mp_PDPReader.matched_writer_is_matched it.GetPDPWriter)) ∧
      (rest.foldl update_remote_server t).mp_PDPWriter.calls
        = t.mp_PDPWriter.calls ++ reader_matching_calls
            (rest.filter (fun it =>
              !t.mp_PDPReader.matched_writer_is_matched it.GetPDPWriter &&
              !t.mp_PDPWriter.matched_reader_is_matched it.GetPDPReader)) ∧
      (rest.foldl update_remote_server t).m_DiscoveryServers = t.m_DiscoveryServers := by
  induction rest with
  | nil => intro t _; simp [writer_matching_calls, reader_matching_calls]
  | cons it rest ih =>
    intro t hnodup
    rw [List.map_cons, List.nodup_cons] at hnodup
    obtain ⟨s1, s2, s3, s4⟩ := update_remote_server_step t it
    obtain ⟨i1, i2, i3⟩ := ih (update_remote_server t it) hnodup.2
    have hother : ∀ x ∈ rest, x.guidPrefix ≠ it.guidPrefix := by
      intro x hx h
      exact hnodup.1 (List.mem_map.mpr ⟨x, hx, h⟩)
    have hf1 : rest.filter (fun x =>
          !(update_remote_server t it).mp_PDPReader.matched_writer_is_matched x.GetPDPWriter)
        = rest.filter (fun x => !t.mp_PDPReader.matched_writer_is_matched x.GetPDPWriter) := by
      apply List.filter_congr
      intro x hx
      rw [(s4 x (hother x hx)).1]
    have hf2 : rest.filter (fun x =>
          !(update_remote_server t it).mp_PDPReader.matched_writer_is_matched x.GetPDPWriter &&
          !(update_remote_server t it).mp_PDPWriter.matched_reader_is_matched x.GetPDPReader)
        = rest.filter (fun x =>
          !t.mp_PDPReader.matched_writer_is_matched x.GetPDPWriter &&
          !t.mp_PDPWriter.matched_reader_is_matched x.GetPDPReader) := by
      apply List.filter_congr
      intro x hx
      rw [(s4 x (hother x hx)).1, (s4 x (hother x hx)).2]
    rw [List.foldl_cons, i1, i2, i3, hf1, hf2, s3]
    refine ⟨?_, ?_, rfl⟩
    · cases hm : t.mp_PDPReader.matched_writer_is_matched it.GetPDPWriter with
      | true => rw [s1 hm]; simp [List.filter_cons, hm]
      | false =>
        rw [(s2 hm).1]
        simp [List.filter_cons, hm, writer_matching_calls]
    · cases hm : t.mp_PDPReader.matched_writer_is_matched it.GetPDPWriter with
      | true => rw [s1 hm]; simp [List.filter_cons, hm]
      | false =>
        rw [(s2 hm).2]
        cases hm2 : t.mp_PDPWriter.matched_reader_is_matched it.GetPDPReader <;>
          simp [List.filter_cons, hm, hm2, reader_matching_calls]

/-- A server whose SPDP writer is matched on the PDP Reader keeps, through the loop, the
matching state of its SPDP reader on the PDP Writer. -/
theorem update_remote_server_foldl_skip (it : RemoteServerAttributes)
    (rest : List RemoteServerAttributes) :
    ∀ t : PDPClient, t.mp_PDPReader.matched_writer_is_matched it.GetPDPWriter = true →
      (rest.foldl update_remote_server t).mp_PDPReader.matched_writer_is_matched
          it.GetPDPWriter = true ∧
      (rest.foldl update_remote_server t).mp_PDPWriter.matched_reader_is_matched
          it.GetPDPReader = t.mp_PDPWriter.matched_reader_is_matched it.GetPDPReader := by
  induction rest with
  | nil => intro t h; exact ⟨h, rfl⟩
  | cons x rest ih =>
    intro t h
    rw [List.foldl_cons]
    obtain ⟨s1, _, _, s4⟩ := update_remote_server_step t x
    by_cases hx : it.guidPrefix = x.guidPrefix
    · have hsame : x.GetPDPWriter = it.GetPDPWriter := by
        simp [RemoteServerAttributes.GetPDPWriter, hx]
      rw [s1 (by rw [hsame]; exact h)]
      exact ih t h
    · obtain ⟨k1, k2⟩ := s4 it hx
      obtain ⟨i1, i2⟩ := ih (update_remote_server t x) (by rw [k1]; exact h)
      exact ⟨i1, by rw [i2, k2]⟩

/-- C37: on an initialised client whose configured servers have distinct GUID prefixes,
`update_remote_servers_list` calls `matched_writer_add` on the PDP Reader for exactly the
servers whose SPDP writer is not matched on it, and `matched_reader_add` on the PDP Writer for
exactly those of them whose SPDP reader is not matched on the PDP Writer, in server order; a
server whose SPDP writer is already matched gets no matching at all, and the matching state
of its SPDP reader on the PDP Writer is left as it was even when that reader is not matched
(with or without distinct prefixes). On a client without PDP Reader or PDP Writer the call
changes nothing. -/
theorem update_remote_servers_list_spec (s : PDPClient)
    (hreader : s.mp_PDPReader_created = true) (hwriter : s.mp_PDPWriter_created = true)
    (hnodup : (s.m_DiscoveryServers.map (fun it => it.guidPrefix)).Nodup) :
    (update_remote_servers_list s).mp_PDPReader.calls
      = s.mp_PDPReader.calls ++ writer_matching_calls
          (s.m_DiscoveryServers.filter (fun it =>
            !s.mp_PDPReader.matched_writer_is_matched it.GetPDPWriter)) ∧
    (update_remote_servers_list s).mp_PDPWriter.calls
      = s.mp_PDPWriter.calls ++ reader_matching_calls
          (s.m_DiscoveryServers.filter (fun it =>
            !s.mp_PDPReader.matched_writer_is_matched it.GetPDPWriter &&
            !s.mp_PDPWriter.matched_reader_is_matched it.GetPDPReader)) ∧
    (∀ it : RemoteServerAttributes,
      s.mp_PDPReader.matched_writer_is_matched it.GetPDPWriter = true →
      (update_remote_servers_list s).mp_PDPWriter.matched_reader_is_matched it.GetPDPReader
        = s.mp_PDPWriter.matched_reader_is_matched it.GetPDPReader) ∧
    (∀ (t : PDPClient) (it : RemoteServerAttributes),
      t.mp_PDPReader.matched_writer_is_matched it.GetPDPWriter = true →
      update_remote_server t it = t) ∧
    (∀ t : PDPClient, t.mp_PDPReader_created = false ∨ t.mp_PDPWriter_created = false →
      update_remote_servers_list t = t) := by
  have hrun : update_remote_servers_list s
      = s.m_DiscoveryServers.foldl update_remote_server s := by
    simp [update_remote_servers_list, hreader, hwriter]
  rw [hrun]
  obtain ⟨f1, f2, _⟩ := update_remote_server_foldl s.m_DiscoveryServers s hnodup
  refine ⟨f1, f2, ?_, ?_, ?_⟩
  · intro it hit
    exact (update_remote_server_foldl_skip it s.m_DiscoveryServers s hit).2
  · intro t it hit
    exact (update_remote_server_step t it).1 hit
  · intro t ht
    rcases ht with h | h <;> simp [update_remote_servers_list, h]

/-- Witness of `update_remote_servers_list_spec`: the SPDP writer of the only server is
matched on the PDP Reader while its SPDP reader is not matched on the PDP Writer; no matching
call is made. -/
theorem update_remote_servers_list_spec_witness :
    ({ sampleClient [sampleServer none] false [] with
       mp_PDPWriter := { matched_readers := [], matched_readers_max := 4,
                         acked_by_all := fun _ => true, calls := [] } } :
      PDPClient).mp_PDPWriter.matched_reader_is_matched (sampleServer none).GetPDPReader
      = false ∧
    (update_remote_servers_list
      { sampleClient [sampleServer none] false [] with
        mp_PDPWriter := { matched_readers := [], matched_readers_max := 4,
                          acked_by_all := fun _ => true, calls := [] } }).mp_PDPWriter.calls
      = [] ∧
    (update_remote_servers_list
      { sampleClient [sampleServer none] false [] with
        mp_PDPWriter := { matched_readers := [], matched_readers_max := 4,
                          acked_by_all := fun _ => true, calls := [] } }).mp_PDPReader.calls
      = [] :=
  ⟨by decide,
   ((update_remote_servers_list_spec
      { sampleClient [sampleServer none] false [] with
        mp_PDPWriter := { matched_readers := [], matched_readers_max := 4,
                          acked_by_all := fun _ => true, calls := [] } }
      rfl rfl (by decide)).2.1).trans (by decide),
   ((update_remote_servers_list_spec
      { sampleClient [sampleServer none] false [] with
        mp_PDPWriter := { matched_readers := [], matched_readers_max := 4,
                          acked_by_all := fun _ => true, calls := [] } }
      rfl rfl (by decide)).1).trans (by decide)⟩

end FastDDS
